import Mathlib

/-!
# Leader election over a versioned annotation store

A shallow embedding of the lease code of the probe's `configuration_store`
package (`config.go`) and of the MySQL binding's election helpers
(`mysql.go`), followed by theorems about them. Smaller parts embed the
pre-check of the agent's switchover action (`switchover.go`), the admission
check of ReplicatedStateMachine (`replicatedstatemachine_webhook.go`), the
diff of a plan against the cache (`cache_diff_transformer.go`) and the parsing
of pod names (`workload_utils.go`).

Conventions of the embedding
* Go `int64` values are `Int`s; `+` and `-` on them are `addInt64` and
  `subInt64`, which wrap modulo `2^64`.
* Go `map[string]string` values are association lists (`StrMap`); reading a
  missing key gives the empty string, as in Go.
* A Go `error` result is an `Option GoError`, `none` being `nil`.
* A nil-pointer dereference, and any other panic, is the result `none` of a
  function that returns an `Option`.
* `time.Now().Unix()` is an explicit argument of the function that reads it.
-/

namespace KubeBlocks

set_option linter.unusedVariables false

/-! ## Machine integers -/

/-- Two's-complement reduction of an integer to the `int64` range. -/
def wrapInt64 (x : Int) : Int := (x + 2 ^ 63) % 2 ^ 64 - 2 ^ 63

/-- Go `a + b` on `int64`. -/
def addInt64 (a b : Int) : Int := wrapInt64 (a + b)

/-- Go `a - b` on `int64`. -/
def subInt64 (a b : Int) : Int := wrapInt64 (a - b)

/-- The value fits an `int64`. -/
def inInt64 (x : Int) : Prop := -(2 ^ 63) ≤ x ∧ x < 2 ^ 63

instance (x : Int) : Decidable (inInt64 x) := by
  unfold inInt64; exact inferInstance

/-! ## `strconv` -/

/-- The ASCII digit of `d < 10`. -/
def digitChar (d : Nat) : Char := Char.ofNat (48 + d)

/-- Decimal digits of `n`, most significant first, pushed in front of `acc`. -/
def toDigitsFuel : Nat → Nat → List Char → List Char
  | 0, _, acc => acc
  | fuel + 1, n, acc =>
    if n / 10 = 0 then digitChar (n % 10) :: acc
    else toDigitsFuel fuel (n / 10) (digitChar (n % 10) :: acc)

/-- Decimal text of a natural number. -/
def formatNat (n : Nat) : List Char := toDigitsFuel (n + 1) n []

/-- Go `strconv.FormatInt(n, 10)`. -/
def FormatInt (n : Int) : String :=
  if n < 0 then String.mk ('-' :: formatNat n.natAbs) else String.mk (formatNat n.toNat)

/-- Value of one ASCII digit, `none` for any other character. -/
def digitVal (c : Char) : Option Nat :=
  if 48 ≤ c.toNat ∧ c.toNat ≤ 57 then some (c.toNat - 48) else none

/-- Left-to-right accumulation of decimal digits; `none` on a non-digit. -/
def parseDigitsFrom : Nat → List Char → Option Nat
  | acc, [] => some acc
  | acc, c :: cs =>
    match digitVal c with
    | some d => parseDigitsFrom (10 * acc + d) cs
    | none => none

/-- A non-empty run of decimal digits. -/
def parseDigits (cs : List Char) : Option Nat :=
  match cs with
  | [] => none
  | _ => parseDigitsFrom 0 cs

/-- Go `strconv.ParseInt(s, 10, 64)` (and `strconv.Atoi` on a 64-bit
platform): an optional sign, then one or more decimal digits, the value
within the `int64` range; `none` stands for a returned error. -/
def ParseInt (s : String) : Option Int :=
  match s.data with
  | [] => none
  | c :: cs =>
    if c = '-' then
      match parseDigits cs with
      | some n => if n ≤ 2 ^ 63 then some (-(n : Int)) else none
      | none => none
    else if c = '+' then
      match parseDigits cs with
      | some n => if n < 2 ^ 63 then some (n : Int) else none
      | none => none
    else
      match parseDigits (c :: cs) with
      | some n => if n < 2 ^ 63 then some (n : Int) else none
      | none => none

/-- The pattern `v, err := strconv.Atoi(s); if err != nil { v = 0 }`. -/
def atoiOrZero (s : String) : Int := (ParseInt s).getD 0

/-- The pattern `v, _ := strconv.Atoi(s)` on a 64-bit platform: the value
`Atoi` returns next to its error, which is 0 for a text that is not a number
and the nearest `int64` for a number out of range. -/
def atoiIgnoringError (s : String) : Int :=
  match s.data with
  | [] => 0
  | c :: cs =>
    if c = '-' then
      match parseDigits cs with
      | some n => if n ≤ 2 ^ 63 then -(n : Int) else -(2 ^ 63)
      | none => 0
    else if c = '+' then
      match parseDigits cs with
      | some n => if n < 2 ^ 63 then (n : Int) else 2 ^ 63 - 1
      | none => 0
    else
      match parseDigits (c :: cs) with
      | some n => if n < 2 ^ 63 then (n : Int) else 2 ^ 63 - 1
      | none => 0

/-! ## Go string maps -/

/-- A Go `map[string]string`. -/
abbrev StrMap := List (String × String)

/-- Go `m[k]`: the empty string when the key is missing. -/
def StrMap.get (m : StrMap) (k : String) : String :=
  match m with
  | [] => ""
  | (k', v) :: rest => if k' = k then v else StrMap.get rest k

/-- Go `m[k] = v`. -/
def StrMap.set (m : StrMap) (k v : String) : StrMap :=
  match m with
  | [] => [(k, v)]
  | (k', v') :: rest => if k' = k then (k, v) :: rest else (k', v') :: StrMap.set rest k v

/-! ## The external object store

The Kubernetes API server as the code uses it: named ConfigMaps that carry an
annotation map and a store-assigned resource version, the pod inventory, and
writes that are checked against the version read (section 4.1 of the
specification: `get`, `createIfAbsent`, `updateWithVersion`, `delete`,
`list`). An object without annotations is read back with Go's nil map, for
which the empty `StrMap` stands: reading it gives the empty string, as in the
model, but assigning into it panics. Every ConfigMap the code writes carries
annotations; the definitions that assign into the map they have read
(`UpdateLeader`, `DeleteLeader`, and `Init` on the pod) are exact for an
object that carries annotations, and say so. -/

/-- A `v1.ConfigMap`, reduced to the fields the code reads and writes. -/
structure ConfigMap where
  Name : String
  Annotations : StrMap
  ResourceVersion : Nat
deriving DecidableEq, Repr

/-- A `v1.Pod`, reduced to the fields the code reads. -/
structure Pod where
  Name : String
  Labels : StrMap
  Annotations : StrMap
  ResourceVersion : Nat
deriving DecidableEq, Repr

/-- Failures of a store call. `alreadyExists` and `conflict` are the two
reasons the API server reports with HTTP status 409 (Conflict). -/
inductive StoreError where
  | notFound
  | alreadyExists
  | conflict
  | unavailable
deriving DecidableEq, Repr

/-- The store rejected a write because another writer got there first. -/
def StoreError.isConflict : StoreError → Bool
  | .alreadyExists => true
  | .conflict => true
  | _ => false

/-- A Go `error` value: a store failure or an `errors.Errorf` message. -/
inductive GoError where
  | store (e : StoreError)
  | msg (text : String)
deriving DecidableEq, Repr

/-- State of the API server for the namespace of the cluster. `revision`
is the source of fresh resource versions; `reachable = false` makes every
call fail with `unavailable`. -/
structure Store where
  configMaps : List ConfigMap
  pods : List Pod
  revision : Nat
  reachable : Bool
deriving DecidableEq, Repr

/-- The stored ConfigMap of that name, if any. -/
def Store.find (s : Store) (name : String) : Option ConfigMap :=
  s.configMaps.find? (fun cm => decide (cm.Name = name))

/-- Call `ConfigMaps(ns).Get(name)`. -/
def Store.Get (s : Store) (name : String) : Except StoreError ConfigMap :=
  if s.reachable then
    match s.find name with
    | some cm => .ok cm
    | none => .error .notFound
  else .error .unavailable

/-- Call `ConfigMaps(ns).Create(cm)`: fails when the name is taken, else
stores the object under a fresh resource version. -/
def Store.Create (s : Store) (cm : ConfigMap) : Store × Option StoreError :=
  if s.reachable then
    match s.find cm.Name with
    | some _ => (s, some .alreadyExists)
    | none =>
      ({ s with configMaps := { cm with ResourceVersion := s.revision + 1 } :: s.configMaps,
                revision := s.revision + 1 }, none)
  else (s, some .unavailable)

/-- Replace the stored object of the same name. -/
def replaceConfigMap (cm : ConfigMap) : List ConfigMap → List ConfigMap
  | [] => []
  | c :: rest => if c.Name = cm.Name then cm :: rest else c :: replaceConfigMap cm rest

/-- Call `ConfigMaps(ns).Update(cm)`: compare-and-swap on the resource
version carried by `cm`. -/
def Store.Update (s : Store) (cm : ConfigMap) : Store × Option StoreError :=
  if s.reachable then
    match s.find cm.Name with
    | none => (s, some .notFound)
    | some cur =>
      if cur.ResourceVersion = cm.ResourceVersion then
        ({ s with configMaps :=
                    replaceConfigMap { cm with ResourceVersion := s.revision + 1 } s.configMaps,
                  revision := s.revision + 1 }, none)
      else (s, some .conflict)
  else (s, some .unavailable)

/-- Call `ConfigMaps(ns).Delete(name)`. -/
def Store.Delete (s : Store) (name : String) : Store × Option StoreError :=
  if s.reachable then
    match s.find name with
    | none => (s, some .notFound)
    | some _ =>
      ({ s with configMaps := s.configMaps.filter (fun c => decide (c.Name ≠ name)),
                revision := s.revision + 1 }, none)
  else (s, some .unavailable)

/-- Call `ConfigMaps(ns).List`. -/
def Store.ListConfigMaps (s : Store) : Except StoreError (List ConfigMap) :=
  if s.reachable then .ok s.configMaps else .error .unavailable

/-- Call `Pods(ns).List`. -/
def Store.ListPods (s : Store) : Except StoreError (List Pod) :=
  if s.reachable then .ok s.pods else .error .unavailable

/-! ## Key names

The constants of the package are declared outside the files at hand. -/

/-- Modelled from the spec: the `leader` field of the leader key and of the
switchover-intent key (constant `LEADER`). -/
def LEADER : String := "leader"
/-- Modelled from the spec: the `acquireTime` field of the leader key. -/
def AcquireTime : String := "acquireTime"
/-- Modelled from the spec: the `renewTime` field of the leader key. -/
def RenewTime : String := "renewTime"
/-- Modelled from the spec: the `ttl` field of the leader and config keys. -/
def TTL : String := "ttl"
/-- Modelled from the spec: the `opTime` field of the leader key. -/
def OpTime : String := "opTime"
/-- Modelled from the spec: the `extra` field of the leader key. -/
def Extra : String := "extra"
/-- Modelled from the spec: the `sysID` field of the config key. -/
def SysID : String := "sysID"
/-- Modelled from the spec: the `maxLagOnSwitchover` field of the config key. -/
def MaxLagOnSwitchover : String := "maxLagOnSwitchover"
/-- Modelled from the spec: the `candidate` field of the switchover-intent key. -/
def CANDIDATE : String := "candidate"
/-- Modelled from the spec: the `scheduledAt` field of the switchover-intent key. -/
def ScheduledAt : String := "scheduledAt"
/-- Modelled from the spec: the address under which a member is reached,
kept among the annotations of its pod (constant `Url`). -/
def Url : String := "url"
/-- Modelled from the spec: suffix of the name of the leader key. -/
def LeaderSuffix : String := "-leader"
/-- Modelled from the spec: suffix of the name of the config key. -/
def ConfigSuffix : String := "-config"
/-- Modelled from the spec: suffix of the name of the switchover-intent key. -/
def SwitchoverSuffix : String := "-switchover"
/-- Modelled from the spec: suffix of the name of the extra key. -/
def ExtraSuffix : String := "-extra"

/-- Versions handed out so far do not exceed the revision counter: true of
the empty store and kept by every write. -/
def Store.WellFormed (s : Store) : Prop :=
  ∀ cm ∈ s.configMaps, cm.ResourceVersion ≤ s.revision

instance (s : Store) : Decidable s.WellFormed := by
  unfold Store.WellFormed; exact inferInstance

/-! ## `encoding/json` -/

/-- The two calls of `encoding/json` the package makes on string maps,
`json.Marshal` and `json.Unmarshal`; `none` stands for a returned error. -/
structure Json where
  Marshal : StrMap → Option String
  Unmarshal : String → Option StrMap

/-! ## The cluster snapshot

The types of the snapshot and their constructors are declared outside the
files at hand; only their uses are. -/

/-- Modelled from the spec: a Member has an identity (`name`), a role hint
and an attribute map that holds its address; `index` is the first argument
of `newMember` (the resource version of the pod, `"-1"` for a placeholder). -/
structure Member where
  index : String
  name : String
  role : StrMap
  data : StrMap
deriving DecidableEq, Repr

/-- Modelled from the spec: constructor of `Member`, with the argument
order of its call in `loadClusterFromKubernetes`. -/
def newMember (index name : String) (role data : StrMap) : Member :=
  { index := index, name := name, role := role, data := data }

/-- Modelled from the spec: the Member of a running pod, named after the pod
and carrying its labels and annotations. -/
def getMemberFromPod (pod : Pod) : Member :=
  newMember (String.mk (formatNat pod.ResourceVersion)) pod.Name pod.Labels pod.Annotations

/-- Modelled from the spec: the leader of a snapshot, a member together with
the version token of the leader key. -/
structure Leader where
  index : Nat
  member : Member
deriving DecidableEq, Repr

/-- Modelled from the spec: constructor of `Leader`; it always returns a
leader (a non-nil pointer). -/
def newLeader (index : Nat) (member : Member) : Leader :=
  { index := index, member := member }

/-- Modelled from the spec: the payload of ClusterConfig. -/
structure ClusterData where
  ttl : Int
  maxLagOnSwitchover : Int
deriving DecidableEq, Repr

/-- Modelled from the spec: ClusterConfig, `ttlSeconds` and
`maxLagOnSwitchover` with the version token of the config key. -/
structure ClusterConfig where
  index : Nat
  data : ClusterData
deriving DecidableEq, Repr

/-- Modelled from the spec: the config key `{sysID, ttl, maxLagOnSwitchover}`
read into a ClusterConfig, numbers parsed as in `newLeaderRecord`. -/
def getClusterConfigFromConfigMap (config : ConfigMap) : ClusterConfig :=
  { index := config.ResourceVersion,
    data := { ttl := atoiOrZero (config.Annotations.get TTL),
              maxLagOnSwitchover := atoiOrZero (config.Annotations.get MaxLagOnSwitchover) } }

/-- Modelled from the spec: SwitchoverIntent. -/
structure Switchover where
  index : Nat
  leader : String
  candidate : String
  scheduledAt : Int
deriving DecidableEq, Repr

/-- Modelled from the spec: constructor of `Switchover`. -/
def newSwitchover (index : Nat) (leader candidate : String) (scheduledAt : Int) : Switchover :=
  { index := index, leader := leader, candidate := candidate, scheduledAt := scheduledAt }

/-- Modelled from the spec: the aggregate snapshot; the fields are those of
the literal that ends `loadClusterFromKubernetes`. Pointers are `Option`s. -/
structure Cluster where
  SysID : String
  Config : Option ClusterConfig
  Leader : Option Leader
  OpTime : Int
  Members : List Member
  Switchover : Option Switchover
  Extra : Option StrMap
deriving DecidableEq, Repr

/-- Modelled from the spec: getter of the leader op-time of the snapshot. -/
def Cluster.GetOpTime (c : Cluster) : Int := c.OpTime

/-- Type `LeaderRecord` of `config.go`. -/
structure LeaderRecord where
  acquireTime : Int
  leader : String
  renewTime : Int
  ttl : Int
  opTime : Int
  extra : StrMap
deriving DecidableEq, Repr

/-- Function `newLeaderRecord` of `config.go`. -/
def newLeaderRecord (json : Json) (data : StrMap) : LeaderRecord :=
  let ttl := atoiOrZero (data.get TTL)
  let acquireTime := atoiOrZero (data.get AcquireTime)
  let renewTime := atoiOrZero (data.get RenewTime)
  let opTime := atoiOrZero (data.get OpTime)
  let extra := (json.Unmarshal (data.get Extra)).getD []
  { acquireTime := acquireTime, leader := data.get LEADER, renewTime := renewTime,
    ttl := ttl, opTime := opTime, extra := extra }

/-- Type `ConfigurationStore` of `config.go`: the state one process keeps
between calls (`ns` is the field `namespace`). `cluster` starts as an empty
`Cluster` and is never nil. -/
structure ConfigurationStore where
  clusterName : String
  clusterCompName : String
  ns : String
  cluster : Cluster
  LeaderObservedRecord : Option LeaderRecord
  LeaderObservedTime : Int
deriving DecidableEq, Repr

/-- The change-detection step of `loadClusterFromKubernetes` (lines 249 to
252): a first record, or one with another `renewTime`, is cached and stamped
with the local clock reading `now`. -/
def observeLeaderRecord (cs : ConfigurationStore) (leaderRecord : LeaderRecord) (now : Int) :
    ConfigurationStore :=
  match cs.LeaderObservedRecord with
  | none => { cs with LeaderObservedRecord := some leaderRecord, LeaderObservedTime := now }
  | some old =>
    if old.renewTime ≠ leaderRecord.renewTime then
      { cs with LeaderObservedRecord := some leaderRecord, LeaderObservedTime := now }
    else cs

/-- The member of that name among `members`, else the placeholder (the loop
of lines 259 to 264). -/
def memberOrPlaceholder (members : List Member) (member : Member) : Member :=
  match members with
  | [] => member
  | m :: rest => if m.name = member.name then m else memberOrPlaceholder rest member

/-- Method `loadClusterFromKubernetes` of `config.go`. `nowObserve` is the
clock reading of line 251, `nowCheck` the one of line 255. -/
def loadClusterFromKubernetes (json : Json) (cs : ConfigurationStore)
    (config switchoverConfig leaderConfig extraConfig : Option ConfigMap) (pods : List Pod)
    (nowObserve nowCheck : Int) : ConfigurationStore × Cluster :=
  let members := pods.map getMemberFromPod
  let sysID := match config with
    | some c => c.Annotations.get SysID
    | none => ""
  let clusterConfig := config.map getClusterConfigFromConfigMap
  let leaderPart : ConfigurationStore × Option Leader × Int :=
    match leaderConfig with
    | none => (cs, none, 0)
    | some lc =>
      let leaderRecord := newLeaderRecord json lc.Annotations
      let cs1 := observeLeaderRecord cs leaderRecord nowObserve
      let leader :=
        if addInt64 cs1.LeaderObservedTime leaderRecord.ttl < nowCheck then none
        else
          let member := newMember "-1" (lc.Annotations.get LEADER) [] []
          some (newLeader lc.ResourceVersion (memberOrPlaceholder members member))
      (cs1, leader, leaderRecord.opTime)
  let switchover := switchoverConfig.map fun sc =>
    newSwitchover sc.ResourceVersion (sc.Annotations.get LEADER) (sc.Annotations.get CANDIDATE)
      (atoiIgnoringError (sc.Annotations.get ScheduledAt))
  let extra := extraConfig.map fun ec => ec.Annotations
  (leaderPart.1,
   { SysID := sysID, Config := clusterConfig, Leader := leaderPart.2.1, OpTime := leaderPart.2.2,
     Members := members, Switchover := switchover, Extra := extra })

/-- The four keys picked out of the listing by the loop of lines 208 to 220,
in the order config, switchover, leader, extra. -/
def pickConfigMaps (clusterCompName : String) (items : List ConfigMap) :
    Option ConfigMap × Option ConfigMap × Option ConfigMap × Option ConfigMap :=
  items.foldl (fun acc cm =>
    if cm.Name = clusterCompName ++ ConfigSuffix then (some cm, acc.2.1, acc.2.2.1, acc.2.2.2)
    else if cm.Name = clusterCompName ++ SwitchoverSuffix then (acc.1, some cm, acc.2.2.1, acc.2.2.2)
    else if cm.Name = clusterCompName ++ LeaderSuffix then (acc.1, acc.2.1, some cm, acc.2.2.2)
    else if cm.Name = clusterCompName ++ ExtraSuffix then (acc.1, acc.2.1, acc.2.2.1, some cm)
    else acc) (none, none, none, none)

/-- Method `GetClusterFromKubernetes` of `config.go`: on a failed listing the
cached snapshot is kept and the error returned. -/
def GetClusterFromKubernetes (json : Json) (cs : ConfigurationStore) (k8s : Store)
    (nowObserve nowCheck : Int) : ConfigurationStore × Option GoError :=
  match k8s.ListPods with
  | .error e => (cs, some (.store e))
  | .ok podList =>
    match k8s.ListConfigMaps with
    | .error e => (cs, some (.store e))
    | .ok configMapList =>
      let picked := pickConfigMaps cs.clusterCompName configMapList
      let r := loadClusterFromKubernetes json cs picked.1 picked.2.1 picked.2.2.1 picked.2.2.2
        podList nowObserve nowCheck
      ({ r.1 with cluster := r.2 }, none)

/-! ## The lease operations of `config.go` -/

/-- The text of `extra` computed by lines 368 to 375 of `UpdateLeader`: empty
for a nil map and when `json.Marshal` fails. -/
def marshalExtra (json : Json) (extra : Option StrMap) : String :=
  match extra with
  | none => ""
  | some e => (json.Marshal e).getD ""

/-- The writes of lines 381 to 385 of `UpdateLeader` into the annotation map
read from the leader key. -/
def renewedAnnotations (leaderRecord : StrMap) (opTime : Int) (extraJsonStr : String)
    (now : Int) : StrMap :=
  let leaderRecord := leaderRecord.set RenewTime (FormatInt now)
  let leaderRecord := if opTime ≠ 0 then leaderRecord.set OpTime (FormatInt opTime)
    else leaderRecord
  leaderRecord.set Extra extraJsonStr

/-- Method `UpdateLeader` of `config.go`: renew the lease held by `podName`.
`now` is the clock reading of line 381. Exact for a leader key that carries
annotations: into the nil map of a key without any, which passes the test of
line 377 when `podName` is empty, the assignment of line 381 panics. -/
def UpdateLeader (json : Json) (cs : ConfigurationStore) (k8s : Store) (podName : String)
    (opTime : Int) (extra : Option StrMap) (now : Int) : Store × Option GoError :=
  match k8s.Get (cs.clusterCompName ++ LeaderSuffix) with
  | .error e => (k8s, some (.store e))
  | .ok leaderConfigMap =>
    let extraJsonStr := marshalExtra json extra
    let leaderRecord := leaderConfigMap.Annotations
    if leaderRecord.get LEADER ≠ podName then (k8s, some (.msg "lost lock"))
    else
      let r := k8s.Update { leaderConfigMap with
        Annotations := renewedAnnotations leaderRecord opTime extraJsonStr now }
      (r.1, r.2.map GoError.store)

/-- The writes of lines 399 to 402 of `DeleteLeader` into the annotation map
read from the leader key. -/
def releasedAnnotations (annotations : StrMap) (opTime : Int) : StrMap :=
  let annotations := annotations.set LEADER ""
  if opTime ≠ 0 then annotations.set OpTime (FormatInt opTime) else annotations

/-- Method `DeleteLeader` of `config.go`: release the lease by clearing the
leader field of the key. Exact for a leader key that carries annotations: into
the nil map of a key without any the assignment of line 399 panics. -/
def DeleteLeader (cs : ConfigurationStore) (k8s : Store) (opTime : Int) :
    Store × Option GoError :=
  match k8s.Get (cs.clusterCompName ++ LeaderSuffix) with
  | .error e => (k8s, some (.store e))
  | .ok leaderConfigMap =>
    let r := k8s.Update { leaderConfigMap with
      Annotations := releasedAnnotations leaderConfigMap.Annotations opTime }
    (r.1, r.2.map GoError.store)

/-- The annotation map built by lines 409 to 416 of
`AttemptToAcquireLeaderLock`; `none` when the cached snapshot has no config
(`cs.cluster.Config` is nil and its dereference panics). -/
def acquireAnnotations (cs : ConfigurationStore) (podName : String) (now : Int) : Option StrMap :=
  match cs.cluster.Config with
  | none => none
  | some config =>
    some [(LEADER, podName), (TTL, FormatInt config.data.ttl), (RenewTime, FormatInt now),
          (AcquireTime, FormatInt now)]

/-- The write of `AttemptToAcquireLeaderLock` (lines 419 to 432), given what
its `Get` returned: create the key when the read failed, else update the
object read, which carries the version seen. -/
def acquireWrite (cs : ConfigurationStore) (annots : StrMap)
    (seen : Except StoreError ConfigMap) (k8s : Store) : Store × Option GoError :=
  match seen with
  | .error _ =>
    let r := k8s.Create { Name := cs.clusterCompName ++ LeaderSuffix, Annotations := annots,
                          ResourceVersion := 0 }
    (r.1, r.2.map GoError.store)
  | .ok configMap =>
    let r := k8s.Update { configMap with Annotations := annots }
    (r.1, r.2.map GoError.store)

/-- Method `AttemptToAcquireLeaderLock` of `config.go`, run without another
writer between its read and its write. `none` is the nil dereference of
`acquireAnnotations`. -/
def AttemptToAcquireLeaderLock (cs : ConfigurationStore) (k8s : Store) (podName : String)
    (now : Int) : Option (Store × Option GoError) :=
  match acquireAnnotations cs podName now with
  | none => none
  | some annots =>
    some (acquireWrite cs annots (k8s.Get (cs.clusterCompName ++ LeaderSuffix)) k8s)

/-- The annotations of the leader key in the store, if the key exists. -/
def Store.leaderAnnotations (k8s : Store) (cs : ConfigurationStore) : Option StrMap :=
  (k8s.find (cs.clusterCompName ++ LeaderSuffix)).map fun cm => cm.Annotations

/-! ## The election helpers of `mysql.go` -/

/-- A command sent to the engine, a write to the store or a call of one of
the methods below, as recorded in `World.calls` in the order of execution. -/
inductive Call where
  | exec (sql : String)
  | Demote (podName : String)
  | DeleteLeader (opTime : Int)
  | DeleteConfigMap (name : String)
  | ManualSwitchover (primary candidate : String)
  | follow (podName leader : String)
deriving DecidableEq, Repr

/-- What lies outside the process: the store, the local database engine and
the other members. `lsnValue` is the `Value` column of the row that
`show status like '%Innodb_redo_log_current_lsn%'` returns, `none` when the
query or `ParseQuery` fails. `FetchOtherStatus url body` is the answer of the
member at `url`. `execResult sql` and `queryResult sql` are what the engine
answers to `exec` and `query` (the connection is taken to be initialised).
`getenv` is `os.Getenv`. `now` is the local clock, `time.Now().Unix()`;
`others t` is what the other processes have written to the store by the end
of a sleep that ends at time `t`. `calls` records the commands and calls made
so far. -/
structure World where
  k8s : Store
  lsnValue : Option String
  FetchOtherStatus : String → String → StrMap × Option GoError
  execResult : String → Except GoError Int := fun _ => .ok 0
  queryResult : String → Except GoError String := fun _ => .ok "null"
  getenv : String → String := fun _ => ""
  now : Int := 0
  others : Int → Store → Store := fun _ s => s
  calls : List Call := []

/-- Type `MysqlOperations` of `mysql.go`, reduced to the configuration store
it embeds through `BaseOperations`. -/
structure MysqlOperations where
  Cs : ConfigurationStore
deriving DecidableEq, Repr

/-- Method `GetOpTime` of `mysql.go`: the redo-log position of the local
engine, or `0` with an error. -/
def GetOpTime (w : World) : Int × Option GoError :=
  match w.lsnValue with
  | none => (0, some (.msg "get engine innodb status failed"))
  | some value =>
    match ParseInt value with
    | some currentLsn => (currentLsn, none)
    | none => (0, some (.msg "strconv.ParseInt"))

/-- Method `isLagging` of `mysql.go`. The getters of the config are outside
the files at hand; reading the threshold of a nil config is `none`. -/
def isLagging (mysqlOps : MysqlOperations) (lastLsn : Int) : Option Bool :=
  let lag := subInt64 mysqlOps.Cs.cluster.GetOpTime lastLsn
  match mysqlOps.Cs.cluster.Config with
  | none => none
  | some config => some (decide (lag > config.data.maxLagOnSwitchover))

/-- Method `IsHealthiest` of `mysql.go`. The snapshot is refreshed first (a
failure is only logged), then the own lag decides. The loop over the
members that asks each for its role is commented out in the source (lines
855 to 868), so `w.FetchOtherStatus` is not consulted. -/
def IsHealthiest (json : Json) (mysqlOps : MysqlOperations) (w : World) (podName : String)
    (nowObserve nowCheck : Int) : MysqlOperations × Option Bool :=
  let r := GetClusterFromKubernetes json mysqlOps.Cs w.k8s nowObserve nowCheck
  let mysqlOps := { mysqlOps with Cs := r.1 }
  let lastLsn := (GetOpTime w).1
  match isLagging mysqlOps lastLsn with
  | none => (mysqlOps, none)
  | some true => (mysqlOps, some false)
  | some false => (mysqlOps, some true)

/-- Modelled from the spec: the role name a primary reports (constant
`PRIMARY`). -/
def PRIMARY : String := "primary"

/-- The request body of the commented-out loop of `IsHealthiest`. -/
def getRoleRequest : String := "\x7b\"operation\":\"getRole\"\x7d"

/-- A member other than `podName` answers the role request without error and
reports itself as primary: the condition the commented-out loop of
`IsHealthiest` would have tested. -/
def peerReportsPrimary (w : World) (c : Cluster) (podName : String) : Prop :=
  ∃ m ∈ c.Members, m.name ≠ podName ∧
    (w.FetchOtherStatus (m.data.get Url) getRoleRequest).2 = none ∧
    (w.FetchOtherStatus (m.data.get Url) getRoleRequest).1.get "role" = PRIMARY

/-! ## Schedules and sample inputs -/

/-- Two calls of `AttemptToAcquireLeaderLock`, by `p` (process `first`) and
by `q` (process `second`), that both read the leader key in the state `k8s`
before either writes; the write of `p` reaches the store first. The result is
the final store, the error returned to `p` and the error returned to `q`. -/
def acquireRace (first second : ConfigurationStore) (k8s : Store) (p q : String)
    (nowP nowQ : Int) : Option (Store × Option GoError × Option GoError) :=
  match acquireAnnotations first p nowP, acquireAnnotations second q nowQ with
  | some annotationP, some annotationQ =>
    let seenP := k8s.Get (first.clusterCompName ++ LeaderSuffix)
    let seenQ := k8s.Get (second.clusterCompName ++ LeaderSuffix)
    let w1 := acquireWrite first annotationP seenP k8s
    let w2 := acquireWrite second annotationQ seenQ w1.1
    some (w2.1, w1.2, w2.2)
  | _, _ => none

/-- Two calls of `AttemptToAcquireLeaderLock` one after the other, first by
`p`, then by `q`. The result is the final store and the two errors. -/
def acquireSerial (first second : ConfigurationStore) (k8s : Store) (p q : String)
    (nowP nowQ : Int) : Option (Store × Option GoError × Option GoError) :=
  match AttemptToAcquireLeaderLock first k8s p nowP with
  | none => none
  | some r1 =>
    match AttemptToAcquireLeaderLock second r1.1 q nowQ with
    | none => none
    | some r2 => some (r2.1, r1.2, r2.2)

/-- Exactly one of two calls returned nil. -/
def exactlyOneSucceeds (e1 e2 : Option GoError) : Prop :=
  (e1 = none ∧ e2 ≠ none) ∨ (e1 ≠ none ∧ e2 = none)

instance (e1 e2 : Option GoError) : Decidable (exactlyOneSucceeds e1 e2) := by
  unfold exactlyOneSucceeds; exact inferInstance

/-- A codec that fails on every input, for evaluating examples that do not
use the `extra` field. -/
def sampleJson : Json := { Marshal := fun _ => none, Unmarshal := fun _ => none }

/-- A snapshot with config `ttl = 30`, `maxLagOnSwitchover = 10` and nothing
else. -/
def sampleCluster : Cluster :=
  { SysID := "", Config := some (ClusterConfig.mk 1 (ClusterData.mk 30 10)), Leader := none,
    OpTime := 0, Members := [], Switchover := none, Extra := none }

/-- The local state of a process of component `c-mysql` that has not seen a
leader record yet. -/
def sampleCs : ConfigurationStore :=
  { clusterName := "c", clusterCompName := "c-mysql", ns := "default", cluster := sampleCluster,
    LeaderObservedRecord := none, LeaderObservedTime := 0 }

/-- A reachable store without any key. -/
def emptyStore : Store := { configMaps := [], pods := [], revision := 0, reachable := true }

/-- A leader key of component `c-mysql`, held by `pod-0` since time 100. -/
def sampleLeaderKey : ConfigMap :=
  { Name := "c-mysql-leader",
    Annotations := [("leader", "pod-0"), ("ttl", "30"), ("renewTime", "100"),
                    ("acquireTime", "100"), ("opTime", "7")],
    ResourceVersion := 1 }

/-- A reachable store that holds `sampleLeaderKey` and the config key. -/
def sampleStore : Store :=
  { configMaps := [sampleLeaderKey,
      { Name := "c-mysql-config", Annotations := [("ttl", "30"), ("maxLagOnSwitchover", "10")],
        ResourceVersion := 2 }],
    pods := [{ Name := "pod-0", Labels := [], Annotations := [("url", "http://pod-0")],
               ResourceVersion := 3 },
             { Name := "pod-1", Labels := [], Annotations := [("url", "http://pod-1")],
               ResourceVersion := 4 }],
    revision := 4, reachable := true }

/-- The local state of the follower `pod-1`: it saw the record of
`sampleLeaderKey` (renewTime 100) for the first time at local time 101. -/
def followerCs : ConfigurationStore :=
  { clusterName := "c", clusterCompName := "c-mysql", ns := "default", cluster := sampleCluster,
    LeaderObservedRecord := some (newLeaderRecord sampleJson sampleLeaderKey.Annotations),
    LeaderObservedTime := 101 }

/-- A world around `sampleStore`: the local engine is at position 5, and the
member at `http://pod-0` answers the role request with `primary`; no other
request is answered. -/
def sampleWorld : World :=
  { k8s := sampleStore,
    lsnValue := some "5",
    FetchOtherStatus := fun url body =>
      if url = "http://pod-0" ∧ body = getRoleRequest then ([("role", PRIMARY)], none)
      else ([], some (GoError.msg "connection refused")) }

/-! ## Switchover and failover requests (`mysql.go`) -/

/-- Modelled from the spec: the event of a successful operation (constant
`OperationSuccess`). -/
def OperationSuccess : String := "Success"
/-- Modelled from the spec: the event of a failed operation (constant
`OperationFailed`). -/
def OperationFailed : String := "Failed"
/-- Modelled from the spec: the operation kind of `Switchover(primary,
candidate)` (constant `SwitchoverOperation`). -/
def SwitchoverOperation : String := "switchover"
/-- Modelled from the spec: the operation kind of `Failover(candidate)`
(constant `FailoverOperation`). -/
def FailoverOperation : String := "failover"

/-- A `bindings.InvokeRequest`, reduced to its metadata and operation kind. -/
structure InvokeRequest where
  Metadata : StrMap
  Operation : String
deriving DecidableEq, Repr

/-- A `bindings.InvokeResponse`, reduced to its metadata. -/
structure InvokeResponse where
  Metadata : StrMap
deriving DecidableEq, Repr

/-- Type `OpsResult`: the result map of an operation. The operations modelled
here store strings only. -/
abbrev OpsResult := StrMap

/-- The key has been assigned in the map. -/
def StrMap.contains (m : StrMap) (k : String) : Bool :=
  match m with
  | [] => false
  | (k', _) :: rest => if k' = k then true else StrMap.contains rest k

/-- Go `err.Error()`. -/
def GoError.Error : GoError → String
  | .msg text => text
  | .store .notFound => "not found"
  | .store .alreadyExists => "already exists"
  | .store .conflict => "the object has been modified"
  | .store .unavailable => "connection refused"

/-- Modelled from the spec: whether the snapshot has a member of that name
(method `HasMember` of `Cluster`). -/
def Cluster.HasMember (c : Cluster) (name : String) : Bool :=
  c.Members.any fun m => decide (m.name = name)

/-- Modelled from the spec: the member of that name, nil if there is none
(method `GetMemberWithName` of `Cluster`). -/
def Cluster.GetMemberWithName (c : Cluster) (name : String) : Option Member :=
  c.Members.find? fun m => decide (m.name = name)

/-- Modelled from the spec: the network address of a member, kept in its
attribute map (`GetData().GetUrl()`). -/
def Member.GetUrl (m : Member) : String := m.data.get Url

/-- The request body of the status probes of `isSwitchoverPossible` and
`ProcessManualSwitchoverFromNoLeader`. -/
def checkStatusRequest : String := "\x7b\"operation\":\"checkStatus\"\x7d"

/-- The member answers the status probe with the event `OperationSuccess`
(the test `resp["event"] == OperationSuccess`; the error of the fetch is only
logged). -/
def memberAnswersSuccess (w : World) (m : Member) : Bool :=
  decide ((w.FetchOtherStatus m.GetUrl checkStatusRequest).1.get "event" = OperationSuccess)

/-- The loop of lines 1083 to 1087 of `isSwitchoverPossible`: whether some
member has another name than the leader. Reading the name of a nil leader
panics, which happens as soon as there is a member to compare. -/
def hasMemberExceptLeader (c : Cluster) : Option Bool :=
  match c.Leader with
  | some leader => some (c.Members.any fun member => decide (member.name ≠ leader.member.name))
  | none =>
    match c.Members with
    | [] => some false
    | _ :: _ => none

/-- The count of lines 1093 to 1104 of `isSwitchoverPossible`. -/
def runningMembers (w : World) (c : Cluster) : Nat :=
  (c.Members.filter fun m => memberAnswersSuccess w m).length

/-- The test `Leader == nil || Leader.GetMember().GetName() != primary` of
line 1069. -/
def leaderIsNot (c : Cluster) (primary : String) : Bool :=
  match c.Leader with
  | none => true
  | some leader => decide (leader.member.name ≠ primary)

/-- Lines 1073 to 1091 of `isSwitchoverPossible`: the checks on the
candidate, or on the other members when no candidate is named. The inner
result is the error to return, if any; `none` is the nil dereference of
`hasMemberExceptLeader`. -/
def candidateChecks (c : Cluster) (primary candidate : String) : Option (Option GoError) :=
  if candidate ≠ "" then
    match c.Leader with
    | some leader =>
      if leader.member.name ≠ primary then
        some (some (.msg ("leader name does not match ,leader name: " ++ leader.member.name
          ++ ", primary: " ++ primary)))
      else if !c.HasMember candidate then some (some (.msg "candidate does not exist"))
      else some none
    | none =>
      if !c.HasMember candidate then some (some (.msg "candidate does not exist"))
      else some none
  else
    match hasMemberExceptLeader c with
    | none => none
    | some false => some (some (.msg "cluster does not have member except leader"))
    | some true => some none

/-- Lines 1093 to 1109 of `isSwitchoverPossible`: at least one member must
answer the status probe with success. -/
def runningCheck (w : World) (c : Cluster) : Bool × Option GoError :=
  if runningMembers w c = 0 then (false, some (.msg "no running candidates have been found"))
  else (true, none)

/-- Method `isSwitchoverPossible` of `mysql.go`, on the cached snapshot.
`none` is a nil dereference. -/
def isSwitchoverPossible (mysqlOps : MysqlOperations) (w : World) (primary candidate : String)
    (operation : String) : Option (Bool × Option GoError) :=
  let c := mysqlOps.Cs.cluster
  if operation = FailoverOperation ∧ candidate = "" then
    some (false, some (.msg "failover need a candidate"))
  else if operation = SwitchoverOperation ∧ primary = "" then
    some (false, some (.msg "switchover need a primary"))
  else if primary ≠ "" ∧ leaderIsNot c primary = true then
    some (false, some (.msg "leader name does not match"))
  else
    match candidateChecks c primary candidate with
    | none => none
    | some (some err) => some (false, some err)
    | some none => some (runningCheck w c)

/-- Modelled from the spec: method `ManualSwitchover`, declared outside the
files at hand. It writes the switchover intent `leader, candidate` under the
switchover-intent key of the component with `createIfAbsent`. -/
def ManualSwitchover (mysqlOps : MysqlOperations) (w : World) (primary candidate : String) :
    World × Option GoError :=
  let r := w.k8s.Create
    { Name := mysqlOps.Cs.clusterCompName ++ SwitchoverSuffix,
      Annotations := [(LEADER, primary), (CANDIDATE, candidate)],
      ResourceVersion := 0 }
  ({ w with k8s := r.1, calls := w.calls ++ [Call.ManualSwitchover primary candidate] },
   r.2.map GoError.store)

/-- The result map `event, message` that `SwitchoverOps` builds. -/
def opsResult (event message : String) : OpsResult :=
  (StrMap.set [] "event" event).set "message" message

/-- Method `SwitchoverOps` of `mysql.go`. The result is the state of the
process, the world, the result map and the Go error; `none` is a nil
dereference (in `isSwitchoverPossible`, or `err.Error()` on a nil error at
line 1043). -/
def SwitchoverOps (json : Json) (mysqlOps : MysqlOperations) (w : World) (req : InvokeRequest) :
    Option (MysqlOperations × World × OpsResult × Option GoError) :=
  let primary := req.Metadata.get PRIMARY
  let candidate := req.Metadata.get CANDIDATE
  let operation := req.Operation
  let r := GetClusterFromKubernetes json mysqlOps.Cs w.k8s w.now w.now
  let mysqlOps := { mysqlOps with Cs := r.1 }
  match r.2 with
  | some err => some (mysqlOps, w, opsResult OperationFailed err.Error, none)
  | none =>
    match isSwitchoverPossible mysqlOps w primary candidate operation with
    | none => none
    | some (can, err) =>
      if !can || err.isSome then
        match err with
        | none => none
        | some e => some (mysqlOps, w, opsResult OperationFailed e.Error, none)
      else
        let m := ManualSwitchover mysqlOps w primary candidate
        match m.2 with
        | some e => some (mysqlOps, m.1, opsResult OperationFailed e.Error, none)
        | none =>
          if candidate = "" then
            some (mysqlOps, m.1,
              opsResult OperationSuccess "Successfully switchover to a healthiest node", none)
          else
            some (mysqlOps, m.1,
              opsResult OperationSuccess ("Successfully " ++ operation ++ " to: " ++ candidate),
              none)

/-- Method `FailoverOps` of `mysql.go`. -/
def FailoverOps (json : Json) (mysqlOps : MysqlOperations) (w : World) (req : InvokeRequest) :
    Option (MysqlOperations × World × OpsResult × Option GoError) :=
  SwitchoverOps json mysqlOps w req

/-! ## Demotion and the manual switchover steps (`mysql.go`) -/

/-- Append one entry to the record of calls. -/
def World.record (w : World) (c : Call) : World := { w with calls := w.calls ++ [c] }

/-- Go `time.Sleep` of that many seconds: the clock advances and the other
processes may have written to the store meanwhile. -/
def World.sleep (w : World) (seconds : Int) : World :=
  { w with now := w.now + seconds, k8s := w.others (w.now + seconds) w.k8s }

/-- Method `exec` of `mysql.go`: send a statement to the engine. The error
is the wrapped one that `exec` returns. -/
def exec (w : World) (sql : String) : World × Except GoError Int :=
  (w.record (Call.exec sql), w.execResult sql)

/-- The statement of `Demote`. -/
def setReadOnly : String := "set global read_only=on;"

/-- The statement built by lines 910 to 913 of `follow`. -/
def followSQL (mysqlOps : MysqlOperations) (w : World) (leader : String) : String :=
  "stop slave;" ++
  ("change master to master_host='" ++ leader ++ "." ++ mysqlOps.Cs.clusterCompName ++
    "-headless',master_user='" ++ w.getenv "KB_SERVICE_USER" ++ "',master_password='" ++
    w.getenv "KB_SERVICE_PASSWORD" ++ "',master_port=" ++ w.getenv "KB_SERVICE_PORT" ++
    ",master_auto_position=1;") ++
  "start slave;"

/-- Method `follow` of `mysql.go`: point replication at `leader`. A failure
of the statement is logged and nil is returned. -/
def follow (mysqlOps : MysqlOperations) (w : World) (podName leader : String) :
    World × Option GoError :=
  let w := w.record (Call.follow podName leader)
  let r := exec w (followSQL mysqlOps w leader)
  match r.2 with
  | .error _ => (r.1, none)
  | .ok _ => (r.1, none)

/-- The loop of lines 797 to 807 of `Demote`, with the number of iterations
left: refresh the snapshot, stop with the leader when the refresh succeeded
and the snapshot has one, else sleep two seconds; `none` once the iterations
are used up. -/
def demoteWait (json : Json) : Nat → MysqlOperations → World →
    MysqlOperations × World × Option Leader
  | 0, mysqlOps, w => (mysqlOps, w, none)
  | n + 1, mysqlOps, w =>
    let r := GetClusterFromKubernetes json mysqlOps.Cs w.k8s w.now w.now
    let mysqlOps := { mysqlOps with Cs := r.1 }
    match r.2, mysqlOps.Cs.cluster.Leader with
    | none, some leader => (mysqlOps, w, some leader)
    | _, _ => demoteWait json n mysqlOps (w.sleep 2)

/-- Method `Demote` of `mysql.go`. -/
def Demote (json : Json) (mysqlOps : MysqlOperations) (w : World) (podName : String) :
    MysqlOperations × World × Option GoError :=
  let w := w.record (Call.Demote podName)
  let r := exec w setReadOnly
  match r.2 with
  | .error err => (mysqlOps, r.1, some err)
  | .ok _ =>
    let w := r.1
    let opTime := (GetOpTime w).1
    let d := DeleteLeader mysqlOps.Cs w.k8s opTime
    let w := { w with k8s := d.1, calls := w.calls ++ [Call.DeleteLeader opTime] }
    let w := w.sleep 5
    match demoteWait json 3 mysqlOps w with
    | (mysqlOps, w, none) => (mysqlOps, w, some (.msg "get no leader now"))
    | (mysqlOps, w, some leader) =>
      let f := follow mysqlOps w podName leader.member.name
      (mysqlOps, f.1, f.2)

/-- Method `isFailoverPossible` of `mysql.go`. -/
def isFailoverPossible (members : List String) : Bool := true

/-- Method `DeleteConfigMap` of `config.go`, recorded among the calls. -/
def DeleteConfigMap (w : World) (name : String) : World × Option GoError :=
  let r := w.k8s.Delete name
  ({ w with k8s := r.1, calls := w.calls ++ [Call.DeleteConfigMap name] }, r.2.map GoError.store)

/-- The names collected by lines 947 to 952 of
`ProcessManualSwitchoverFromLeader`. -/
def switchoverMembers (c : Cluster) (candidate : String) : List String :=
  (c.Members.filter fun m => decide (candidate = "" ∨ m.name = candidate)).map fun m => m.name

/-- Method `ProcessManualSwitchoverFromLeader` of `mysql.go`. `demote` is
true on the path that reaches `return true, mysqlOps.Demote(ctx, podName)`
(line 955); every other path with an intent ends in the `DeleteConfigMap` of
line 964. The result is the state of the process, the world, the returned
flag and the returned error. -/
def ProcessManualSwitchoverFromLeader (json : Json) (mysqlOps : MysqlOperations) (w : World)
    (podName : String) : MysqlOperations × World × Bool × Option GoError :=
  let r := GetClusterFromKubernetes json mysqlOps.Cs w.k8s w.now w.now
  let mysqlOps := { mysqlOps with Cs := r.1 }
  match r.2 with
  | some err => (mysqlOps, w, false, some err)
  | none =>
    match mysqlOps.Cs.cluster.Switchover with
    | none => (mysqlOps, w, false, none)
    | some switchover =>
      let leader := switchover.leader
      let candidate := switchover.candidate
      let demote : Bool :=
        if leader = "" ∨ leader = podName then
          if candidate = "" ∨ candidate ≠ podName then
            let members := switchoverMembers mysqlOps.Cs.cluster candidate
            if isFailoverPossible members = true then true else false
          else false
        else false
      if demote = true then
        let d := Demote json mysqlOps w podName
        (d.1, d.2.1, true, d.2.2)
      else
        let d := DeleteConfigMap w (mysqlOps.Cs.clusterCompName ++ SwitchoverSuffix)
        (mysqlOps, d.1, false, d.2)

/-- Method `ProcessManualSwitchoverFromNoLeader` of `mysql.go`. `none` is
a nil dereference: the candidate of the intent is not a member, or the config
is missing in `IsHealthiest`. -/
def ProcessManualSwitchoverFromNoLeader (json : Json) (mysqlOps : MysqlOperations) (w : World)
    (podName : String) : MysqlOperations × Option Bool :=
  let r := GetClusterFromKubernetes json mysqlOps.Cs w.k8s w.now w.now
  let mysqlOps := { mysqlOps with Cs := r.1 }
  match r.2 with
  | some _ => (mysqlOps, some false)
  | none =>
    let viaIntent : Option (Option Bool) :=
      match mysqlOps.Cs.cluster.Switchover with
      | none => some none
      | some switchover =>
        if switchover.candidate ≠ "" then
          if switchover.candidate = podName then some (some true)
          else
            match mysqlOps.Cs.cluster.GetMemberWithName switchover.candidate with
            | none => none
            | some member =>
              if memberAnswersSuccess w member = true then some (some false) else some none
        else some none
    match viaIntent with
    | none => (mysqlOps, none)
    | some (some answer) => (mysqlOps, some answer)
    | some none => IsHealthiest json mysqlOps w podName w.now w.now

/-! ## The health probe (`mysql.go`) -/

/-- Modelled from the spec: the part of `BaseOperations`, the struct embedded
in `MysqlOperations` and declared outside the files at hand, that the health
probe reads and writes: the role last observed, the access mode of each role,
the counter of consecutive failures and the report frequency. -/
structure BaseOperations where
  OriRole : String
  DBRoles : StrMap
  CheckStatusFailedCount : Int
  FailedEventReportFrequency : Int
deriving DecidableEq, Repr

/-- Modelled from the spec: access mode of a role that accepts writes
(constant `ReadWrite`). -/
def ReadWrite : String := "ReadWrite"
/-- Modelled from the spec: access mode of a read-only role (constant
`Readonly`). -/
def Readonly : String := "Readonly"
/-- Modelled from the spec: the key of the response metadata that carries the
externally observable health signal (constant `StatusCode`). -/
def StatusCode : String := "status-code"
/-- Modelled from the spec: the value of the degraded-health signal (constant
`OperationFailedHTTPCode`). -/
def OperationFailedHTTPCode : String := "451"
/-- Modelled from the spec: the row of `kb_health_check` that the liveness
query of the probe uses (constant `CheckStatusType`). -/
def CheckStatusType : Int := 1

/-- The read-write statement of lines 366 to 370 of `CheckStatusOps`. -/
def rwSQL : String :=
  "begin;\n\tcreate table if not exists kb_health_check(type int, check_ts bigint, " ++
  "primary key(type));\n\tinsert into kb_health_check values(" ++ FormatInt CheckStatusType ++
  ", now()) on duplicate key update check_ts = now();\n\tcommit;\n\t" ++
  "select check_ts from kb_health_check where type=" ++ FormatInt CheckStatusType ++ " limit 1;"

/-- The read-only statement of line 371 of `CheckStatusOps`. -/
def roSQL : String :=
  "select check_ts from kb_health_check where type=" ++ FormatInt CheckStatusType ++ " limit 1;"

/-- Go `strings.ToLower`, on ASCII letters. -/
def toLower (s : String) : String := String.mk (s.data.map Char.toLower)

/-- The probe of lines 372 to 385 of `CheckStatusOps`: the world after it, the
data and the error. For an unknown access mode the data is the message (its
rendering of the role map is left out) and there is no error. -/
def checkStatusProbe (base : BaseOperations) (w : World) : World × String × Option GoError :=
  let mode := base.DBRoles.get (toLower base.OriRole)
  if mode = ReadWrite then
    let r := exec w rwSQL
    match r.2 with
    | .ok count => (r.1, FormatInt count, none)
    | .error err => (r.1, FormatInt 0, some err)
  else if mode = Readonly then
    match w.queryResult roSQL with
    | .ok data => (w, data, none)
    | .error err => (w, "", some err)
  else (w, "unknown access mode for role " ++ base.OriRole, none)

/-- Method `CheckStatusOps` of `mysql.go`. The result is the state of the
probe, the world, the response, the result map and the Go error; `none` is the
integer division by zero of line 392. Go `%` is `Int.tmod`. -/
def CheckStatusOps (base : BaseOperations) (w : World) (resp : InvokeResponse) :
    Option (BaseOperations × World × InvokeResponse × OpsResult × Option GoError) :=
  let probe := checkStatusProbe base w
  match probe.2.2 with
  | some err =>
    let result := opsResult OperationFailed err.Error
    if base.FailedEventReportFrequency = 0 then none
    else
      let resp : InvokeResponse :=
        if Int.tmod base.CheckStatusFailedCount base.FailedEventReportFrequency = 0 then
          { resp with Metadata := resp.Metadata.set StatusCode OperationFailedHTTPCode }
        else resp
      some ({ base with CheckStatusFailedCount := addInt64 base.CheckStatusFailedCount 1 },
            probe.1, resp, result, none)
  | none =>
    some ({ base with CheckStatusFailedCount := 0 }, probe.1, resp,
          opsResult OperationSuccess probe.2.1, none)

/-! ## Initialisation of the keys (`config.go`) -/

/-- Call `Pods(ns).Get(name)`. -/
def Store.GetPod (s : Store) (name : String) : Except StoreError Pod :=
  if s.reachable then
    match s.pods.find? (fun p => decide (p.Name = name)) with
    | some pod => .ok pod
    | none => .error .notFound
  else .error .unavailable

/-- Replace the stored pod of the same name. -/
def replacePod (pod : Pod) : List Pod → List Pod
  | [] => []
  | p :: rest => if p.Name = pod.Name then pod :: rest else p :: replacePod pod rest

/-- Call `Pods(ns).Update(pod)`: compare-and-swap on the resource version
carried by `pod`. -/
def Store.UpdatePod (s : Store) (pod : Pod) : Store × Option StoreError :=
  if s.reachable then
    match s.pods.find? (fun p => decide (p.Name = pod.Name)) with
    | none => (s, some .notFound)
    | some cur =>
      if cur.ResourceVersion = pod.ResourceVersion then
        ({ s with pods := replacePod { pod with ResourceVersion := s.revision + 1 } s.pods,
                  revision := s.revision + 1 }, none)
      else (s, some .conflict)
  else (s, some .unavailable)

/-- The settings `Init` reads from the environment and from viper, and
whether the cluster object can be read through the dynamic client. -/
structure InitEnv where
  KbPodIP : String
  daprHttpPort : String
  KbServiceCharacterType : String
  KbPrimaryPodName : String
  KbTtl : String
  MaxLagOnSwitchover : String
  clusterObject : Bool

/-- Go `strings.Split(s, ".")[0]`. -/
def firstLabel (s : String) : String := String.mk (s.data.takeWhile fun c => decide (c ≠ '.'))

/-- The pattern of lines 112 to 131, 134 to 150 and 159 to 171 of `Init`:
create the key unless its `Get` succeeds. -/
def createIfMissing (k8s : Store) (cm : ConfigMap) : Store × Option GoError :=
  match k8s.Get cm.Name with
  | .ok _ => (k8s, none)
  | .error _ =>
    let r := k8s.Create cm
    (r.1, r.2.map GoError.store)

/-- The annotations of the leader key that `Init` creates (lines 118 to 125);
`extraJsonStr` is still empty at that point. -/
def initLeaderAnnotations (leaderName : String) (now : Int) (ttl : String) (opTime : Int) :
    StrMap :=
  [(LEADER, leaderName), (AcquireTime, FormatInt now), (RenewTime, FormatInt now), (TTL, ttl),
   (OpTime, FormatInt opTime), (Extra, "")]

/-- Method `Init` of `config.go`. `now` is the clock reading of line 109.
The owner references of the keys are left out, `ConfigMap` having no such
field. Exact for a pod that carries annotations: into the nil map of a pod
without any the assignment of line 85 panics. -/
def Init (json : Json) (env : InitEnv) (cs : ConfigurationStore) (k8s : Store) (isLeader : Bool)
    (sysID : String) (extra : Option StrMap) (opTime : Int) (podName : String) (now : Int) :
    Store × Option GoError :=
  let apiUrl := "http://" ++ env.KbPodIP ++ ":" ++ env.daprHttpPort ++ "/v1.0/bindings/" ++
    env.KbServiceCharacterType
  match k8s.GetPod podName with
  | .error e => (k8s, some (.store e))
  | .ok pod =>
    let u := k8s.UpdatePod { pod with Annotations := pod.Annotations.set Url apiUrl }
    match u.2 with
    | some e => (u.1, some (.store e))
    | none =>
      if !isLeader then (u.1, none)
      else if !env.clusterObject then (u.1, some (.msg "get cluster object failed"))
      else
        let leaderName := firstLabel env.KbPrimaryPodName
        let ttl := env.KbTtl
        let l := createIfMissing u.1
          (ConfigMap.mk (cs.clusterCompName ++ LeaderSuffix)
            (initLeaderAnnotations leaderName now ttl opTime) 0)
        match l.2 with
        | some e => (l.1, some e)
        | none =>
          let c := createIfMissing l.1
            (ConfigMap.mk (cs.clusterCompName ++ ConfigSuffix)
              [(SysID, sysID), (TTL, ttl), (MaxLagOnSwitchover, env.MaxLagOnSwitchover)] 0)
          match c.2 with
          | some e => (c.1, some e)
          | none =>
            match extra with
            | none => (c.1, none)
            | some annots =>
              createIfMissing c.1 (ConfigMap.mk (cs.clusterCompName ++ ExtraSuffix) annots 0)

/-- The stores reached from a store without keys by calls of `Init`,
`AttemptToAcquireLeaderLock`, `UpdateLeader` and `DeleteLeader` made one after
the other by processes of the component `comp`, each at a clock reading that
fits an `int64` and is not below the previous one. The second index is the
clock reading of the last call. -/
inductive LeaseHistory (json : Json) (comp : String) : Store → Int → Prop
  | start (k8s : Store) (t : Int) (h : k8s.configMaps = []) : LeaseHistory json comp k8s t
  | init (k8s : Store) (t : Int) (h : LeaseHistory json comp k8s t) (env : InitEnv)
      (cs : ConfigurationStore) (isLeader : Bool) (sysID : String) (extra : Option StrMap)
      (opTime : Int) (podName : String) (now : Int) (hc : cs.clusterCompName = comp)
      (hmono : t ≤ now) (hnow : inInt64 now) :
      LeaseHistory json comp
        (Init json env cs k8s isLeader sysID extra opTime podName now).1 now
  | acquire (k8s : Store) (t : Int) (h : LeaseHistory json comp k8s t)
      (cs : ConfigurationStore) (podName : String) (now : Int) (r : Store × Option GoError)
      (hc : cs.clusterCompName = comp) (hmono : t ≤ now) (hnow : inInt64 now)
      (hr : AttemptToAcquireLeaderLock cs k8s podName now = some r) :
      LeaseHistory json comp r.1 now
  | renew (k8s : Store) (t : Int) (h : LeaseHistory json comp k8s t)
      (cs : ConfigurationStore) (podName : String) (opTime : Int) (extra : Option StrMap)
      (now : Int) (hc : cs.clusterCompName = comp) (hmono : t ≤ now) (hnow : inInt64 now) :
      LeaseHistory json comp (UpdateLeader json cs k8s podName opTime extra now).1 now
  | release (k8s : Store) (t : Int) (h : LeaseHistory json comp k8s t)
      (cs : ConfigurationStore) (opTime : Int) (now : Int) (hc : cs.clusterCompName = comp)
      (hmono : t ≤ now) :
      LeaseHistory json comp (DeleteLeader cs k8s opTime).1 now

/-! ## The switchover action of the agent (`switchover.go`) -/

/-- Modelled from the spec: the cluster as the agent's store returns it,
reduced to what `PreCheck` reads: whether an HA config is present and enabled
(`HaConfig`, nil or the value of `IsEnable()`), and the names of the members. -/
structure DcsCluster where
  HaConfig : Option Bool
  Members : List String
deriving DecidableEq, Repr

/-- Modelled from the spec: the member of that name, nil if there is none. -/
def DcsCluster.GetMemberWithName (c : DcsCluster) (name : String) : Option String :=
  c.Members.find? fun m => decide (m = name)

/-- Method `PreCheck` of `Switchover` in `switchover.go`. `cluster` and `err`
are what `dcsStore.GetCluster()` returned; `errors.Wrap` of a nil error is
nil. -/
def PreCheck (primary candidate : String) (cluster : Option DcsCluster) (err : Option GoError) :
    Option GoError :=
  if primary = "" ∧ candidate = "" then some (.msg "primary or candidate must be set")
  else
    match cluster with
    | none => err.map fun e => GoError.msg ("get cluster failed: " ++ e.Error)
    | some cluster =>
      if cluster.HaConfig = none ∨ cluster.HaConfig = some false then
        some (.msg "cluster's ha is disabled")
      else if primary ≠ "" ∧ cluster.GetMemberWithName primary = none then
        some (.msg ("primary " ++ primary ++ " not exists"))
      else if candidate ≠ "" ∧ cluster.GetMemberWithName candidate = none then
        some (.msg ("candidate " ++ candidate ++ " not exists"))
      else none

/-! ## Sample inputs for the switchover steps -/

/-- A reachable store with the leader key held by `pod-0`, the config key and
three pods. -/
def threePodStore : Store :=
  { configMaps := [sampleLeaderKey,
      { Name := "c-mysql-config", Annotations := [("ttl", "30"), ("maxLagOnSwitchover", "10")],
        ResourceVersion := 2 }],
    pods := [{ Name := "pod-0", Labels := [], Annotations := [("url", "http://pod-0")],
               ResourceVersion := 3 },
             { Name := "pod-1", Labels := [], Annotations := [("url", "http://pod-1")],
               ResourceVersion := 4 },
             { Name := "pod-2", Labels := [], Annotations := [("url", "http://pod-2")],
               ResourceVersion := 5 }],
    revision := 5, reachable := true }

/-- A world around `threePodStore` at local time 105 in which every member
answers the status probe with success and the engine accepts every statement. -/
def switchoverWorld : World :=
  { k8s := threePodStore,
    lsnValue := some "5",
    FetchOtherStatus := fun _ body =>
      if body = checkStatusRequest then ([("event", OperationSuccess)], none)
      else ([], some (GoError.msg "unknown operation")),
    now := 105 }

/-- The process of `pod-0` with the snapshot of `threePodStore` taken at local
time 105: leader `pod-0`, members `pod-0`, `pod-1` and `pod-2`. -/
def switchoverOps : MysqlOperations :=
  { Cs := (GetClusterFromKubernetes sampleJson followerCs threePodStore 105 105).1 }

/-- The store `threePodStore` with a pending switchover intent. -/
def intentStore (leader candidate : String) : Store :=
  { threePodStore with
    configMaps := threePodStore.configMaps ++
      [{ Name := "c-mysql-switchover",
         Annotations := [("leader", leader), ("candidate", candidate)],
         ResourceVersion := 6 }],
    revision := 6 }

/-- The world `switchoverWorld` around `intentStore leader candidate`. -/
def intentWorld (leader candidate : String) : World :=
  { switchoverWorld with k8s := intentStore leader candidate }

/-- The world `intentWorld leader candidate` at local time 140, when the
lease of `pod-0` (renewed at 100, seen at 101, ttl 30) has run out. -/
def expiredIntentWorld (leader candidate : String) : World :=
  { intentWorld leader candidate with now := 140 }

/-- A probe state right after a success: the role `primary` is read-write,
the failure counter is 0 and the report frequency is 3. -/
def sampleBase : BaseOperations :=
  { OriRole := "primary", DBRoles := [("primary", ReadWrite)], CheckStatusFailedCount := 0,
    FailedEventReportFrequency := 3 }

/-- The world `switchoverWorld` with an engine that refuses every statement. -/
def brokenEngineWorld : World :=
  { switchoverWorld with execResult := fun _ => .error (GoError.msg "connection refused") }

/-! ## Following the leader and the lag probe (`mysql.go`) -/

/-- The statement of `checkRecoveryConf` and of `GetLagOps`. -/
def showSlaveStatus : String := "show slave status"

/-- Method `checkRecoveryConf` of `mysql.go`: whether replication has to be
pointed at `leader`. `parseQuery` is the function `ParseQuery`, declared
outside the files at hand, which returns the first row of the query result as
a map (nil when there is none) or an error. `none` is the failed type
assertion on a row without `Master_Host`. `strings.Split(s, ".")[0]` is
`firstLabel s`. -/
def checkRecoveryConf (parseQuery : String → Except GoError (Option StrMap)) (w : World)
    (leader : String) : Option Bool :=
  match w.queryResult showSlaveStatus with
  | .error _ => some true
  | .ok data =>
    match parseQuery data with
    | .error _ => some true
    | .ok none => some true
    | .ok (some result) =>
      if result.contains "Master_Host" = true then
        some (decide (firstLabel (result.get "Master_Host") ≠ leader))
      else none

/-- Method `HandleFollow` of `mysql.go`. `none` is the panic of
`checkRecoveryConf`. -/
def HandleFollow (parseQuery : String → Except GoError (Option StrMap))
    (mysqlOps : MysqlOperations) (w : World) (leader : Leader) (podName : String) :
    Option (World × Option GoError) :=
  match checkRecoveryConf parseQuery w leader.member.name with
  | none => none
  | some needChange =>
    if needChange = true then some (follow mysqlOps w podName leader.member.name)
    else some (w, none)

/-- Modelled from the spec: the role name a replica reports (constant
`SECONDARY`). -/
def SECONDARY : String := "secondary"

/-- The statement of `GetRole`. -/
def showSlaveHosts : String := "show slave hosts"

/-- Method `GetRole` of `mysql.go` (the live definition of line 271): the
instance is a primary when some replica is attached to it. -/
def GetRole (w : World) : String × Option GoError :=
  match w.queryResult showSlaveHosts with
  | .error err => ("", some (.msg ("error executing " ++ showSlaveHosts ++ ": " ++ err.Error)))
  | .ok data => if data ≠ "null" then (PRIMARY, none) else (SECONDARY, none)

/-- Modelled from the spec: one row of the replica status (type
`SlaveStatus`), reduced to the field `GetLagOps` reads. -/
structure SlaveStatus where
  SecondsBehindMaster : Int
deriving DecidableEq, Repr

/-- Go `json.Unmarshal(data, &slaveStatus)` for a slice: the JSON text `null`
and the empty array `[]` give a slice without elements and no error; `decode`
stands for the decoding of every other text. -/
def unmarshalSlaveStatus (decode : String → Except GoError (List SlaveStatus)) (data : String) :
    Except GoError (List SlaveStatus) :=
  if data = "null" ∨ data = "[]" then .ok [] else decode data

/-- Method `GetLagOps` of `mysql.go`. The result is the state of the probe,
the result map (the number under `lag` as decimal text) and the Go error;
`none` is the panic of `slaveStatus[0]` on a slice without elements
(line 339). -/
def GetLagOps (decode : String → Except GoError (List SlaveStatus)) (base : BaseOperations)
    (w : World) : Option (BaseOperations × OpsResult × Option GoError) :=
  let role : String × Option GoError :=
    if base.OriRole = "" then GetRole w else (base.OriRole, none)
  let base := { base with OriRole := role.1 }
  match role.2 with
  | some err => some (base, opsResult OperationFailed err.Error, none)
  | none =>
    if base.OriRole = LEADER then
      some (base,
        ((StrMap.set [] "event" OperationSuccess).set "lag" (FormatInt 0)).set "message"
          "This is leader instance, leader has no lag", none)
    else
      match w.queryResult showSlaveStatus with
      | .error err => some (base, opsResult OperationFailed err.Error, none)
      | .ok data =>
        match unmarshalSlaveStatus decode data with
        | .error err => some (base, opsResult OperationFailed err.Error, none)
        | .ok [] => none
        | .ok (first :: _) =>
          some (base,
            (StrMap.set [] "event" OperationSuccess).set "lag"
              (FormatInt first.SecondsBehindMaster), none)

/-- The world `switchoverWorld` with an engine that accepts the statement of
`Demote` and still answers the query for its redo-log position (with 5, the
`lsnValue` of `switchoverWorld`), and refuses every other statement and every
other query. -/
def replicationFailsWorld : World :=
  { switchoverWorld with
    execResult := fun sql =>
      if sql = setReadOnly then .ok 0 else .error (GoError.msg "connection refused"),
    queryResult := fun _ => .error (GoError.msg "connection refused") }

/-- A row parser that finds no row, for evaluating examples in which the
query itself fails. -/
def noRow : String → Except GoError (Option StrMap) := fun _ => .ok none

/-- The probe state of a replica: the role `secondary` is read-only. -/
def replicaBase : BaseOperations :=
  { OriRole := "secondary", DBRoles := [("secondary", Readonly)], CheckStatusFailedCount := 0,
    FailedEventReportFrequency := 3 }

/-- A decoder of replica-status rows that rejects every text, for evaluating
examples on the texts `null` and `[]`. -/
def noDecode : String → Except GoError (List SlaveStatus) :=
  fun _ => .error (GoError.msg "invalid character")

/-- The world `switchoverWorld` with an engine that answers every query with
the empty array. -/
def emptyArrayWorld : World :=
  { switchoverWorld with queryResult := fun _ => .ok "[]" }

/-- The world `replicationFailsWorld` in which `pod-1` takes the leader lock
while the caller sleeps. -/
def takeoverWorld : World :=
  { replicationFailsWorld with
    others := fun t s =>
      match AttemptToAcquireLeaderLock switchoverOps.Cs s "pod-1" t with
      | some r => r.1
      | none => s }

/-- A process whose snapshot has two members and no leader. -/
def leaderlessOps : MysqlOperations :=
  { Cs := { sampleCs with
            cluster := { sampleCluster with
                         Members := [newMember "3" "pod-0" [] [("url", "http://pod-0")],
                                     newMember "4" "pod-1" [] [("url", "http://pod-1")]] } } }

/-! ## The admission check of ReplicatedStateMachine
(`replicatedstatemachine_webhook.go`)

The types of the resource are declared outside the files at hand. -/

/-- Modelled from the spec: an entry of `spec.roles`, reduced to the two
fields `validate` reads. -/
structure ReplicaRole where
  Name : String
  IsLeader : Bool
deriving DecidableEq, Repr

/-- Modelled from the spec: a ReplicatedStateMachine, reduced to its name,
`spec.roles` and `spec.service`, the latter nil or the list of its ports (a
port is kept as its number). -/
structure ReplicatedStateMachine where
  Name : String
  Roles : List ReplicaRole
  Service : Option (List Nat)
deriving DecidableEq, Repr

/-- A `field.Error` of type required, as `field.Required(path, detail)`
builds it. -/
structure FieldError where
  Field : String
  Detail : String
deriving DecidableEq, Repr

/-- The error `apierrors.NewInvalid(groupKind, name, errs)` builds. -/
structure InvalidError where
  Group : String
  Kind : String
  Name : String
  Causes : List FieldError
deriving DecidableEq, Repr

/-- The loop of lines 84 to 89 of `validate`: some role is the leader and
has a name. -/
def hasLeaderRole (roles : List ReplicaRole) : Bool :=
  roles.any fun role => role.IsLeader && decide (role.Name ≠ "")

/-- The field error of line 91. -/
def leaderRequired : FieldError := { Field := "spec.roles", Detail := "leader is required" }

/-- The field error of line 100. -/
def servicePortRequired : FieldError :=
  { Field := "spec.service.ports", Detail := "servicePort must provide" }

/-- The test of line 98: a service is given and has no port. -/
def serviceWithoutPort (service : Option (List Nat)) : Bool :=
  match service with
  | none => false
  | some ports => decide (ports.length = 0)

/-- Method `validate` of `ReplicatedStateMachine`. -/
def validate (r : ReplicatedStateMachine) : Option InvalidError :=
  let allErrs : List FieldError := []
  let allErrs :=
    if r.Roles.length > 0 then
      if !hasLeaderRole r.Roles then allErrs ++ [leaderRequired] else allErrs
    else allErrs
  let allErrs :=
    if serviceWithoutPort r.Service = true then allErrs ++ [servicePortRequired] else allErrs
  if allErrs.length > 0 then
    some { Group := "workloads.kubeblocks.io/v1alpha1", Kind := "ReplicatedStateMachine",
           Name := r.Name, Causes := allErrs }
  else none

/-- Method `ValidateCreate` of `ReplicatedStateMachine`; the warnings it
returns are nil. -/
def ValidateCreate (r : ReplicatedStateMachine) : Option InvalidError := validate r

/-! ## Pod names (`workload_utils.go`)

Go strings are byte sequences; `strings.Replace` and `strings.Split` with the
ASCII separator `-` cut a valid UTF-8 text at the same places whether it is
read as bytes or as characters. -/

/-- Go `strings.Replace(s, old, "", 1)` for a non-empty `old`: `s` without
the leftmost occurrence of `old`. -/
def removeFirst (old : List Char) : List Char → List Char
  | [] => []
  | c :: cs =>
    if old.isPrefixOf (c :: cs) = true then (c :: cs).drop old.length
    else c :: removeFirst old cs

/-- Go `strings.Split(s, sep)` for a separator of one character: the pieces
between the separators, at least one piece. -/
def splitOn (sep : Char) : List Char → List (List Char)
  | [] => [[]]
  | c :: cs =>
    if c = sep then [] :: splitOn sep cs
    else
      match splitOn sep cs with
      | [] => [[c]]
      | piece :: rest => (c :: piece) :: rest

/-- Go `int32(x)` of an `int`: reduction to the `int32` range. -/
def wrapInt32 (x : Int) : Int := (x + 2 ^ 31) % 2 ^ 32 - 2 ^ 31

/-- Lines 168 to 177 of `GetTemplateNameAndOrdinal`: the template name and
the text of the ordinal cut out of the pod name. -/
def podSuffixParts (workloadName podName : String) : String × String :=
  let podSuffix := removeFirst (workloadName ++ "-").data podName.data
  let suffixArr := splitOn '-' podSuffix
  match suffixArr with
  | [templateName, indexStr] => (String.mk templateName, String.mk indexStr)
  | indexStr :: _ => ("", String.mk indexStr)
  | [] => ("", "")

/-- Function `GetTemplateNameAndOrdinal` of `workload_utils.go`. -/
def GetTemplateNameAndOrdinal (workloadName podName : String) : String × Int × Option GoError :=
  let parts := podSuffixParts workloadName podName
  match ParseInt parts.2 with
  | none => ("", 0, some (.msg "failed to obtain pod ordinal"))
  | some index => (parts.1, wrapInt32 index, none)

/-! ## The diff of the plan against the cache (`cache_diff_transformer.go`)

The graph package, the vertex type and the snapshot type are declared outside
the files at hand. -/

/-- Modelled from the spec: the actions of a plan vertex (constants `CREATE`,
`UPDATE` and `DELETE`). -/
inductive Action where
  | CREATE
  | UPDATE
  | DELETE
deriving DecidableEq, Repr

/-- Modelled from the spec: a `lifecycleVertex`, reduced to the name of its
object (`getGVKName(obj)`: kind, namespace and name, here one text) and its
action, `none` for a nil pointer. -/
structure lifecycleVertex where
  obj : String
  action : Option Action
deriving DecidableEq, Repr

/-- Modelled from the spec: a `graph.DAG`. `vertices` lists the vertices in
the order `Vertices()` returns them, and a vertex is identified by its
position; an edge is a pair of positions; `root` is what `Root()` returns. -/
structure DAG where
  vertices : List lifecycleVertex
  edges : List (Nat × Nat)
  root : Option Nat
deriving DecidableEq, Repr

/-- Modelled from the spec: `dag.AddVertex(v)`; the new vertex takes the next
position. -/
def DAG.AddVertex (dag : DAG) (v : lifecycleVertex) : DAG :=
  { dag with vertices := dag.vertices ++ [v] }

/-- Modelled from the spec: `dag.Connect(src, dst)`. -/
def DAG.Connect (dag : DAG) (src dst : Nat) : DAG :=
  { dag with edges := dag.edges ++ [(src, dst)] }

/-- The Go map `newNameVertices`, from object names to vertices. -/
abbrev NameMap := List (String × Nat)

/-- Go `m[k]` with the presence flag. -/
def NameMap.lookup (m : NameMap) (k : String) : Option Nat :=
  match m with
  | [] => none
  | (k', v) :: rest => if k' = k then some v else NameMap.lookup rest k

/-- Go `m[k] = v`. -/
def NameMap.set (m : NameMap) (k : String) (v : Nat) : NameMap :=
  match m with
  | [] => [(k, v)]
  | (k', v') :: rest => if k' = k then (k, v) :: rest else (k', v') :: NameMap.set rest k v

/-- The keys of the map (`sets.KeySet`). -/
def NameMap.keys (m : NameMap) : List String := m.map fun kv => kv.1

/-- The loop of lines 94 to 98 of `Transform`: every vertex is stored under
the name of its object, a later vertex replacing an earlier one of the same
name. `i` is the position of the first vertex of the list. -/
def recordVertices : List lifecycleVertex → Nat → NameMap → NameMap
  | [], _, m => m
  | v :: rest, i, m => recordVertices rest (i + 1) (m.set v.obj i)

/-- The assignment `v.action = actionPtr(a)`. -/
def setAction (a : Action) (v : lifecycleVertex) : lifecycleVertex := { v with action := some a }

/-- The assignment `v.action = actionPtr(a)` on the vertex at position `i`. -/
def markAt (vs : List lifecycleVertex) (i : Nat) (a : Action) : List lifecycleVertex :=
  match vs, i with
  | [], _ => []
  | v :: rest, 0 => setAction a v :: rest
  | v :: rest, i + 1 => v :: markAt rest i a

/-- The loops of lines 125 to 132 of `Transform`: the vertex stored under each
name of the set gets the action. Every name of the set is a key of the map. -/
def markAll (m : NameMap) (a : Action) : List String → List lifecycleVertex →
    List lifecycleVertex
  | [], vs => vs
  | name :: rest, vs =>
    match m.lookup name with
    | some i => markAll m a rest (markAt vs i a)
    | none => markAll m a rest vs

/-- The loop of lines 117 to 124 of `Transform`: for each name of the set a
new vertex with the cached object and the action `DELETE` is added to the graph
and connected to the root. -/
def addDeletes (root : Nat) : List String → DAG → DAG
  | [], dag => dag
  | name :: rest, dag =>
    let v : lifecycleVertex := { obj := name, action := some Action.DELETE }
    addDeletes root rest ((dag.AddVertex v).Connect root dag.vertices.length)

/-- The set operation `a.Difference(b)` on sets kept as lists without
repetition. -/
def setDifference (a b : List String) : List String := a.filter fun name => decide (name ∉ b)

/-- The set operation `a.Intersection(b)` on sets kept as lists without
repetition. -/
def setIntersection (a b : List String) : List String := a.filter fun name => decide (name ∈ b)

/-- Method `Transform` of `cacheDiffTransformer`. `deleting` is the test
`!c.cc.cluster.DeletionTimestamp.IsZero()`; `oldSnapshot` is what
`readCacheSnapshot` returned, the keys of the snapshot on success (the object
stored under a key is identified with the key). A Go set is a list without
repetition. -/
def Transform (deleting : Bool) (oldSnapshot : Except GoError (List String)) (dag : DAG) :
    DAG × Option GoError :=
  match oldSnapshot with
  | .error err => (dag, some err)
  | .ok oldSnapshot =>
    let newNameVertices := recordVertices dag.vertices 0 []
    let oldNameSet := oldSnapshot.dedup
    let newNameSet := newNameVertices.keys
    if deleting = true then (dag, none)
    else
      let deleteSet := setDifference oldNameSet newNameSet
      let createSet := setDifference newNameSet oldNameSet
      let updateSet := setIntersection newNameSet oldNameSet
      match dag.root with
      | none => (dag, some (.msg "root vertex not found"))
      | some root =>
        let dag := addDeletes root deleteSet dag
        let vs := markAll newNameVertices Action.CREATE createSet dag.vertices
        let vs := markAll newNameVertices Action.UPDATE updateSet vs
        ({ dag with vertices := vs }, none)

/-- A plan for a cluster with a stateful set and a service: the cluster
object at the root, no action decided yet. -/
def samplePlan : DAG :=
  { vertices := [{ obj := "Cluster/default/c", action := none },
                 { obj := "StatefulSet/default/c-mysql", action := none },
                 { obj := "Service/default/c-mysql", action := none }],
    edges := [(0, 1), (0, 2)],
    root := some 0 }

/-- The names of the cached objects of that cluster: the stateful set and a
config map that is not planned any more. -/
def sampleCache : List String := ["StatefulSet/default/c-mysql", "ConfigMap/default/c-mysql-env"]

/-- A plan in which two vertices carry the same object, a secret, next to the
cluster object at the root; no action decided yet. -/
def twinPlan : DAG :=
  { vertices := [{ obj := "Cluster/default/c", action := none },
                 { obj := "Secret/default/c-conn", action := none },
                 { obj := "Secret/default/c-conn", action := none }],
    edges := [(0, 1), (0, 2)],
    root := some 0 }

/-! ## Decimal text round trip -/

theorem digitVal_digitChar (d : Nat) (h : d < 10) : digitVal (digitChar d) = some d := by
  interval_cases d <;> decide

theorem toDigitsFuel_append (fuel : Nat) : ∀ (n : Nat) (acc : List Char),
    toDigitsFuel fuel n acc = toDigitsFuel fuel n [] ++ acc := by
  induction fuel with
  | zero => intro n acc; simp [toDigitsFuel]
  | succ fuel ih =>
    intro n acc
    unfold toDigitsFuel
    by_cases h : n / 10 = 0
    · simp [h]
    · simp only [h, if_false]
      rw [ih (n / 10) (digitChar (n % 10) :: acc), ih (n / 10) [digitChar (n % 10)]]
      simp

theorem parseDigitsFrom_append (xs ys : List Char) : ∀ a : Nat,
    parseDigitsFrom a (xs ++ ys) = (parseDigitsFrom a xs).bind (fun v => parseDigitsFrom v ys) := by
  induction xs with
  | nil => intro a; simp [parseDigitsFrom]
  | cons c cs ih =>
    intro a
    simp only [List.cons_append, parseDigitsFrom]
    cases digitVal c with
    | none => simp
    | some d => simp [ih]

theorem parseDigitsFrom_toDigitsFuel (fuel : Nat) : ∀ n : Nat, n < fuel →
    parseDigitsFrom 0 (toDigitsFuel fuel n []) = some n := by
  induction fuel with
  | zero => intro n h; omega
  | succ fuel ih =>
    intro n h
    unfold toDigitsFuel
    by_cases h0 : n / 10 = 0
    · simp only [h0, if_true, parseDigitsFrom]
      rw [digitVal_digitChar _ (Nat.mod_lt _ (by decide))]
      simp only [parseDigitsFrom]
      congr 1; omega
    · simp only [h0, if_false]
      rw [toDigitsFuel_append, parseDigitsFrom_append, ih (n / 10) (by omega)]
      simp only [Option.some_bind, parseDigitsFrom]
      rw [digitVal_digitChar _ (Nat.mod_lt _ (by decide))]
      simp only [parseDigitsFrom]
      congr 1; omega

theorem formatNat_ne_nil (n : Nat) : formatNat n ≠ [] := by
  unfold formatNat toDigitsFuel
  by_cases h0 : n / 10 = 0
  · simp [h0]
  · simp only [h0, if_false]
    rw [toDigitsFuel_append]; simp

theorem parseDigits_formatNat (n : Nat) : parseDigits (formatNat n) = some n := by
  have h := parseDigitsFrom_toDigitsFuel (n + 1) n (by omega)
  have hne := formatNat_ne_nil n
  unfold parseDigits
  cases hl : formatNat n with
  | nil => exact absurd hl hne
  | cons c cs => simp only; rw [← hl]; exact h

theorem digitVal_some_not_sign (c : Char) (d : Nat) (h : digitVal c = some d) :
    c ≠ '-' ∧ c ≠ '+' := by
  constructor
  · rintro rfl
    have h0 : digitVal '-' = none := by decide
    rw [h0] at h; cases h
  · rintro rfl
    have h0 : digitVal '+' = none := by decide
    rw [h0] at h; cases h

theorem ParseInt_FormatInt (n : Int) (h : inInt64 n) : ParseInt (FormatInt n) = some n := by
  unfold inInt64 at h
  unfold FormatInt
  by_cases hneg : n < 0
  · simp only [hneg, if_true, ParseInt]
    rw [parseDigits_formatNat]
    have : n.natAbs ≤ 2 ^ 63 := by omega
    simp only [if_true, this]
    congr 1; omega
  · simp only [hneg, if_false, ParseInt]
    have hp := parseDigits_formatNat n.toNat
    cases hl : formatNat n.toNat with
    | nil => exact absurd hl (formatNat_ne_nil _)
    | cons c cs =>
      rw [hl] at hp
      simp only
      have hd : ∃ d, digitVal c = some d := by
        unfold parseDigits at hp
        simp only [parseDigitsFrom] at hp
        cases hc : digitVal c with
        | none => rw [hc] at hp; simp at hp
        | some d => exact ⟨d, rfl⟩
      obtain ⟨d, hd⟩ := hd
      have hs := digitVal_some_not_sign c d hd
      simp only [hs.1, hs.2, if_false, hp]
      have : n.toNat < 2 ^ 63 := by omega
      simp only [this, if_true]
      congr 1; omega

theorem atoiOrZero_FormatInt (n : Int) (h : inInt64 n) : atoiOrZero (FormatInt n) = n := by
  unfold atoiOrZero; rw [ParseInt_FormatInt n h]; rfl

/-! ## Maps and the store -/

theorem StrMap.get_set_same (m : StrMap) (k v : String) : (m.set k v).get k = v := by
  induction m with
  | nil => simp [StrMap.set, StrMap.get]
  | cons p rest ih =>
    obtain ⟨k', v'⟩ := p
    unfold StrMap.set
    by_cases h : k' = k
    · simp [h, StrMap.get]
    · simp [h, StrMap.get, ih]

theorem StrMap.get_set_other (m : StrMap) (k v k2 : String) (hne : k2 ≠ k) :
    (m.set k v).get k2 = m.get k2 := by
  induction m with
  | nil => simp [StrMap.set, StrMap.get, Ne.symm hne]
  | cons p rest ih =>
    obtain ⟨k', v'⟩ := p
    unfold StrMap.set
    by_cases h : k' = k
    · subst h
      simp [StrMap.get, Ne.symm hne]
    · by_cases h2 : k' = k2
      · subst h2
        simp [h, StrMap.get]
      · simp [h, h2, StrMap.get, ih]

theorem Store.find_name (s : Store) (name : String) (cm : ConfigMap)
    (h : s.find name = some cm) : cm.Name = name := by
  unfold Store.find at h
  have := List.find?_some h
  simpa using this

theorem Store.find_mem (s : Store) (name : String) (cm : ConfigMap)
    (h : s.find name = some cm) : cm ∈ s.configMaps := by
  unfold Store.find at h
  exact List.mem_of_find?_eq_some h

theorem find_replaceConfigMap (cm cur : ConfigMap) (l : List ConfigMap)
    (h : l.find? (fun c => decide (c.Name = cm.Name)) = some cur) :
    (replaceConfigMap cm l).find? (fun c => decide (c.Name = cm.Name)) = some cm := by
  induction l with
  | nil => simp at h
  | cons c rest ih =>
    unfold replaceConfigMap
    by_cases hc : c.Name = cm.Name
    · simp [hc]
    · simp only [hc, if_false, List.find?_cons, decide_False]
      simp only [List.find?_cons, hc, decide_False] at h
      exact ih h

theorem Store.Get_ok (s : Store) (name : String) (cm : ConfigMap) :
    s.Get name = .ok cm ↔ s.reachable = true ∧ s.find name = some cm := by
  unfold Store.Get
  cases hr : s.reachable <;> cases hf : s.find name <;> simp

theorem Store.Update_seen (s : Store) (name : String) (cur : ConfigMap) (ann : StrMap)
    (hr : s.reachable = true) (hf : s.find name = some cur) :
    s.Update { cur with Annotations := ann } =
      ({ s with configMaps := replaceConfigMap
                  { Name := cur.Name, Annotations := ann, ResourceVersion := s.revision + 1 }
                  s.configMaps,
                revision := s.revision + 1 }, none) ∧
    (s.Update { cur with Annotations := ann }).1.find name =
      some { Name := cur.Name, Annotations := ann, ResourceVersion := s.revision + 1 } := by
  have hn := Store.find_name s name cur hf
  have hupd : s.Update { cur with Annotations := ann } =
      ({ s with configMaps := replaceConfigMap
                  { Name := cur.Name, Annotations := ann, ResourceVersion := s.revision + 1 }
                  s.configMaps,
                revision := s.revision + 1 }, none) := by
    unfold Store.Update
    simp only [hr, if_true, hn, hf]
  refine ⟨hupd, ?_⟩
  rw [hupd]
  unfold Store.find at hf ⊢
  simp only
  rw [← hn] at hf ⊢
  exact find_replaceConfigMap
    { Name := cur.Name, Annotations := ann, ResourceVersion := s.revision + 1 } cur _ hf

theorem Store.Create_absent (s : Store) (cm : ConfigMap)
    (hr : s.reachable = true) (hf : s.find cm.Name = none) :
    s.Create cm =
      ({ s with configMaps := { cm with ResourceVersion := s.revision + 1 } :: s.configMaps,
                revision := s.revision + 1 }, none) ∧
    (s.Create cm).1.find cm.Name = some { cm with ResourceVersion := s.revision + 1 } := by
  have hc : s.Create cm =
      ({ s with configMaps := { cm with ResourceVersion := s.revision + 1 } :: s.configMaps,
                revision := s.revision + 1 }, none) := by
    unfold Store.Create
    simp only [hr, if_true, hf]
  refine ⟨hc, ?_⟩
  rw [hc]
  unfold Store.find
  simp

/-! ## The snapshot and the lease -/

theorem wrapInt64_of_inInt64 (x : Int) (h : inInt64 x) : wrapInt64 x = x := by
  unfold inInt64 at h
  unfold wrapInt64
  omega

theorem loadCluster_leader (json : Json) (cs : ConfigurationStore)
    (config switchoverConfig extraConfig : Option ConfigMap) (lc : ConfigMap) (pods : List Pod)
    (nowObserve nowCheck : Int) :
    (loadClusterFromKubernetes json cs config switchoverConfig (some lc) extraConfig pods
        nowObserve nowCheck).2.Leader =
      if addInt64 (loadClusterFromKubernetes json cs config switchoverConfig (some lc) extraConfig
            pods nowObserve nowCheck).1.LeaderObservedTime
          (newLeaderRecord json lc.Annotations).ttl < nowCheck
      then none
      else some (newLeader lc.ResourceVersion
        (memberOrPlaceholder (pods.map getMemberFromPod)
          (newMember "-1" (lc.Annotations.get LEADER) [] []))) := rfl

/-- C1: with a leader record present, the snapshot built by
`loadClusterFromKubernetes` has a nil `Leader` exactly when
`LeaderObservedTime + ttl < now` (Go `int64` addition), `LeaderObservedTime`
being the value after the change-detection step of the same call; at
`LeaderObservedTime + ttl = now` the leader is present; when the sum does not
overflow the comparison is the one on the integers; and two calls that agree on
the observed time, the ttl and the clock agree on whether the leader is nil,
whatever else their records hold (among it `acquireTime` and `renewTime`). -/
theorem leader_nil_iff_lease_expired (json : Json) (cs : ConfigurationStore)
    (config switchoverConfig extraConfig : Option ConfigMap) (lc : ConfigMap) (pods : List Pod)
    (nowObserve nowCheck : Int) :
    ((loadClusterFromKubernetes json cs config switchoverConfig (some lc) extraConfig pods
          nowObserve nowCheck).2.Leader = none ↔
        addInt64 (loadClusterFromKubernetes json cs config switchoverConfig (some lc) extraConfig
            pods nowObserve nowCheck).1.LeaderObservedTime
          (newLeaderRecord json lc.Annotations).ttl < nowCheck) ∧
    (addInt64 (loadClusterFromKubernetes json cs config switchoverConfig (some lc) extraConfig
            pods nowObserve nowCheck).1.LeaderObservedTime
          (newLeaderRecord json lc.Annotations).ttl = nowCheck →
        (loadClusterFromKubernetes json cs config switchoverConfig (some lc) extraConfig pods
          nowObserve nowCheck).2.Leader ≠ none) ∧
    (inInt64 ((loadClusterFromKubernetes json cs config switchoverConfig (some lc) extraConfig
            pods nowObserve nowCheck).1.LeaderObservedTime
          + (newLeaderRecord json lc.Annotations).ttl) →
        ((loadClusterFromKubernetes json cs config switchoverConfig (some lc) extraConfig pods
            nowObserve nowCheck).2.Leader = none ↔
          (loadClusterFromKubernetes json cs config switchoverConfig (some lc) extraConfig
              pods nowObserve nowCheck).1.LeaderObservedTime
            + (newLeaderRecord json lc.Annotations).ttl < nowCheck)) ∧
    (∀ (json2 : Json) (cs2 : ConfigurationStore)
        (config2 switchoverConfig2 extraConfig2 : Option ConfigMap) (lc2 : ConfigMap)
        (pods2 : List Pod) (nowObserve2 : Int),
        (loadClusterFromKubernetes json2 cs2 config2 switchoverConfig2 (some lc2) extraConfig2
            pods2 nowObserve2 nowCheck).1.LeaderObservedTime =
          (loadClusterFromKubernetes json cs config switchoverConfig (some lc) extraConfig
            pods nowObserve nowCheck).1.LeaderObservedTime →
        (newLeaderRecord json2 lc2.Annotations).ttl = (newLeaderRecord json lc.Annotations).ttl →
        ((loadClusterFromKubernetes json2 cs2 config2 switchoverConfig2 (some lc2) extraConfig2
            pods2 nowObserve2 nowCheck).2.Leader = none ↔
          (loadClusterFromKubernetes json cs config switchoverConfig (some lc) extraConfig pods
            nowObserve nowCheck).2.Leader = none)) := by
  have key : ∀ (j : Json) (c : ConfigurationStore) (cf sw ex : Option ConfigMap) (l : ConfigMap)
      (ps : List Pod) (t : Int),
      ((loadClusterFromKubernetes j c cf sw (some l) ex ps t nowCheck).2.Leader = none ↔
        addInt64 (loadClusterFromKubernetes j c cf sw (some l) ex ps t
          nowCheck).1.LeaderObservedTime (newLeaderRecord j l.Annotations).ttl < nowCheck) := by
    intro j c cf sw ex l ps t
    rw [loadCluster_leader]
    split <;> simp_all
  refine ⟨key _ _ _ _ _ _ _ _, ?_, ?_, ?_⟩
  · intro heq hnil
    have := (key json cs config switchoverConfig extraConfig lc pods nowObserve).1 hnil
    omega
  · intro hin
    rw [key]
    unfold addInt64
    rw [wrapInt64_of_inInt64 _ hin]
  · intro json2 cs2 config2 switchoverConfig2 extraConfig2 lc2 pods2 nowObserve2 hobs httl
    rw [key, key, hobs, httl]

theorem Store.Get_absent (s : Store) (name : String) (hr : s.reachable = true)
    (hf : s.find name = none) : s.Get name = .error .notFound := by
  unfold Store.Get; simp [hr, hf]

theorem Store.Get_present (s : Store) (name : String) (cur : ConfigMap) (hr : s.reachable = true)
    (hf : s.find name = some cur) : s.Get name = .ok cur := by
  unfold Store.Get; simp [hr, hf]

theorem Store.Create_present (s : Store) (cm cur : ConfigMap) (hr : s.reachable = true)
    (hf : s.find cm.Name = some cur) : s.Create cm = (s, some .alreadyExists) := by
  unfold Store.Create; simp [hr, hf]

theorem Store.Update_stale (s : Store) (cm cur : ConfigMap) (hr : s.reachable = true)
    (hf : s.find cm.Name = some cur) (hv : cur.ResourceVersion ≠ cm.ResourceVersion) :
    s.Update cm = (s, some .conflict) := by
  unfold Store.Update; simp [hr, hf, hv]

/-- The write of an acquisition whose read saw the current state of a
reachable store succeeds and leaves the annotations it built under the leader
key, with a fresh version. -/
theorem acquireWrite_fresh (cs : ConfigurationStore) (ann : StrMap) (k8s : Store)
    (hr : k8s.reachable = true) :
    (acquireWrite cs ann (k8s.Get (cs.clusterCompName ++ LeaderSuffix)) k8s).2 = none ∧
    (acquireWrite cs ann (k8s.Get (cs.clusterCompName ++ LeaderSuffix)) k8s).1.reachable = true ∧
    (acquireWrite cs ann (k8s.Get (cs.clusterCompName ++ LeaderSuffix)) k8s).1.find
        (cs.clusterCompName ++ LeaderSuffix) =
      some { Name := cs.clusterCompName ++ LeaderSuffix, Annotations := ann,
             ResourceVersion := k8s.revision + 1 } := by
  cases hf : k8s.find (cs.clusterCompName ++ LeaderSuffix) with
  | none =>
    rw [Store.Get_absent k8s _ hr hf]
    simp only [acquireWrite]
    obtain ⟨hc, hfind⟩ := Store.Create_absent k8s
      { Name := cs.clusterCompName ++ LeaderSuffix, Annotations := ann, ResourceVersion := 0 }
      hr hf
    refine ⟨?_, ?_, hfind⟩
    · rw [hc]; rfl
    · rw [hc]; exact hr
  | some cur =>
    rw [Store.Get_present k8s _ cur hr hf]
    simp only [acquireWrite]
    obtain ⟨hu, hfind⟩ := Store.Update_seen k8s _ cur ann hr hf
    have hn := Store.find_name k8s _ cur hf
    refine ⟨?_, ?_, ?_⟩
    · rw [hu]; rfl
    · rw [hu]; exact hr
    · rw [hfind, hn]

/-- The write of an acquisition whose read saw a state of the store that
another write has replaced since is refused with a conflict and changes
nothing. -/
theorem acquireWrite_stale (cs : ConfigurationStore) (ann : StrMap) (seenIn now : Store)
    (cur : ConfigMap) (hwf : seenIn.WellFormed) (hr : now.reachable = true)
    (hcur : now.find (cs.clusterCompName ++ LeaderSuffix) = some cur)
    (hver : cur.ResourceVersion = seenIn.revision + 1) :
    ∃ e : StoreError, e.isConflict = true ∧
      acquireWrite cs ann (seenIn.Get (cs.clusterCompName ++ LeaderSuffix)) now =
        (now, some (GoError.store e)) := by
  unfold Store.Get
  cases hrs : seenIn.reachable with
  | false =>
    simp only [acquireWrite, Bool.false_eq_true, if_false]
    rw [Store.Create_present now
      { Name := cs.clusterCompName ++ LeaderSuffix, Annotations := ann, ResourceVersion := 0 }
      cur hr hcur]
    exact ⟨.alreadyExists, rfl, rfl⟩
  | true =>
    simp only [if_true]
    cases hf : seenIn.find (cs.clusterCompName ++ LeaderSuffix) with
    | none =>
      simp only [acquireWrite]
      rw [Store.Create_present now
        { Name := cs.clusterCompName ++ LeaderSuffix, Annotations := ann, ResourceVersion := 0 }
        cur hr hcur]
      exact ⟨.alreadyExists, rfl, rfl⟩
    | some old =>
      simp only [acquireWrite]
      have hn := Store.find_name seenIn _ old hf
      have hle := hwf old (Store.find_mem seenIn _ old hf)
      have hcur2 : now.find ({ old with Annotations := ann } : ConfigMap).Name = some cur := by
        simp only [hn]; exact hcur
      rw [Store.Update_stale now _ cur hr hcur2 (by simp only; omega)]
      exact ⟨.conflict, rfl, rfl⟩

/-- C2: two calls of `AttemptToAcquireLeaderLock` that both read the leader
key in the same state of a reachable compare-and-swap store (absent for both,
or present with the same version for both) and then write one after the other:
the call that writes first returns nil, the other returns the conflict error
of the store, and the leader stored in the end is the first writer. The two
members `p` and `q` are arbitrary, so either may be the one that writes first. -/
theorem acquire_race_exactly_one_wins (first second : ConfigurationStore) (k8s : Store)
    (p q : String) (nowP nowQ : Int) (configP configQ : ClusterConfig)
    (hcomp : first.clusterCompName = second.clusterCompName)
    (hr : k8s.reachable = true) (hwf : k8s.WellFormed)
    (hP : first.cluster.Config = some configP) (hQ : second.cluster.Config = some configQ) :
    ∃ (final : Store) (e : StoreError),
      acquireRace first second k8s p q nowP nowQ = some (final, none, some (GoError.store e)) ∧
      e.isConflict = true ∧
      exactlyOneSucceeds none (some (GoError.store e)) ∧
      (final.leaderAnnotations first).map (fun a => a.get LEADER) = some p := by
  unfold acquireRace acquireAnnotations
  simp only [hP, hQ]
  obtain ⟨h1, h2, h3⟩ := acquireWrite_fresh first
    [(LEADER, p), (TTL, FormatInt configP.data.ttl), (RenewTime, FormatInt nowP),
     (AcquireTime, FormatInt nowP)] k8s hr
  have h4 : (acquireWrite first
      [(LEADER, p), (TTL, FormatInt configP.data.ttl), (RenewTime, FormatInt nowP),
       (AcquireTime, FormatInt nowP)]
      (k8s.Get (first.clusterCompName ++ LeaderSuffix)) k8s).1.find
        (second.clusterCompName ++ LeaderSuffix) =
      some { Name := first.clusterCompName ++ LeaderSuffix,
             Annotations := [(LEADER, p), (TTL, FormatInt configP.data.ttl),
               (RenewTime, FormatInt nowP), (AcquireTime, FormatInt nowP)],
             ResourceVersion := k8s.revision + 1 } := by
    rw [← hcomp]; exact h3
  obtain ⟨e, he, hw⟩ := acquireWrite_stale second
    [(LEADER, q), (TTL, FormatInt configQ.data.ttl), (RenewTime, FormatInt nowQ),
     (AcquireTime, FormatInt nowQ)] k8s _ _ hwf h2 h4 rfl
  rw [hw, h1]
  refine ⟨_, e, rfl, he, ?_, ?_⟩
  · left; simp
  · unfold Store.leaderAnnotations
    rw [h3]
    simp [StrMap.get]

theorem acquire_race_exactly_one_wins_witness :
    (sampleCs.clusterCompName = sampleCs.clusterCompName ∧ sampleStore.reachable = true ∧
      sampleStore.WellFormed) ∧
    ∃ (final : Store) (e : StoreError),
      acquireRace sampleCs sampleCs sampleStore "pod-1" "pod-2" 140 141 =
        some (final, none, some (GoError.store e)) ∧
      e.isConflict = true ∧
      exactlyOneSucceeds none (some (GoError.store e)) ∧
      (final.leaderAnnotations sampleCs).map (fun a => a.get LEADER) = some "pod-1" :=
  ⟨⟨rfl, rfl, by decide⟩,
   acquire_race_exactly_one_wins sampleCs sampleCs sampleStore "pod-1" "pod-2" 140 141
     (ClusterConfig.mk 1 (ClusterData.mk 30 10)) (ClusterConfig.mk 1 (ClusterData.mk 30 10))
     rfl rfl (by decide) rfl rfl⟩

/-- C3, as stated, fails: from the empty store, `pod-0` and then `pod-1`
call `AttemptToAcquireLeaderLock` one after the other; both calls return nil
(so it is not the case that exactly one succeeds) and the key ends up naming
`pod-1`. -/
theorem serial_acquire_both_succeed_example :
    acquireSerial sampleCs sampleCs emptyStore "pod-0" "pod-1" 100 101 =
      some ({ configMaps := [{ Name := "c-mysql-leader",
                               Annotations := [("leader", "pod-1"), ("ttl", "30"),
                                 ("renewTime", "101"), ("acquireTime", "101")],
                               ResourceVersion := 2 }],
              pods := [], revision := 2, reachable := true }, none, none) ∧
    ¬ exactlyOneSucceeds none none := by
  decide

/-- C3, amended: when `AttemptToAcquireLeaderLock` is called by `p` and then,
after that call has returned, by `q` against a reachable store (in particular
one with no leader key), both calls return nil: the second call reads the key
the first one wrote and overwrites it under that version, and the leader
stored in the end is `q`. -/
theorem serial_acquire_second_overwrites (first second : ConfigurationStore) (k8s : Store)
    (p q : String) (nowP nowQ : Int) (configP configQ : ClusterConfig)
    (hcomp : first.clusterCompName = second.clusterCompName)
    (hr : k8s.reachable = true)
    (hP : first.cluster.Config = some configP) (hQ : second.cluster.Config = some configQ) :
    ∃ final : Store,
      acquireSerial first second k8s p q nowP nowQ = some (final, none, none) ∧
      (final.leaderAnnotations first).map (fun a => a.get LEADER) = some q := by
  unfold acquireSerial AttemptToAcquireLeaderLock acquireAnnotations
  simp only [hP, hQ]
  obtain ⟨h1, h2, -⟩ := acquireWrite_fresh first
    [(LEADER, p), (TTL, FormatInt configP.data.ttl), (RenewTime, FormatInt nowP),
     (AcquireTime, FormatInt nowP)] k8s hr
  obtain ⟨h4, -, h6⟩ := acquireWrite_fresh second
    [(LEADER, q), (TTL, FormatInt configQ.data.ttl), (RenewTime, FormatInt nowQ),
     (AcquireTime, FormatInt nowQ)] _ h2
  rw [h1, h4]
  refine ⟨_, rfl, ?_⟩
  generalize (acquireWrite second _ _ _).1 = final at h6 ⊢
  unfold Store.leaderAnnotations
  rw [hcomp, h6]
  simp [StrMap.get]

theorem serial_acquire_second_overwrites_witness :
    (sampleCs.clusterCompName = sampleCs.clusterCompName ∧ emptyStore.reachable = true) ∧
    ∃ final : Store,
      acquireSerial sampleCs sampleCs emptyStore "pod-0" "pod-1" 100 101 =
        some (final, none, none) ∧
      (final.leaderAnnotations sampleCs).map (fun a => a.get LEADER) = some "pod-1" :=
  ⟨⟨rfl, rfl⟩,
   serial_acquire_second_overwrites sampleCs sampleCs emptyStore "pod-0" "pod-1" 100 101
     (ClusterConfig.mk 1 (ClusterData.mk 30 10)) (ClusterConfig.mk 1 (ClusterData.mk 30 10))
     rfl rfl rfl rfl⟩

/-- C4: when the leader key exists and its leader annotation differs from
`podName`, `UpdateLeader` returns the error "lost lock" and the store is left
exactly as it was. -/
theorem UpdateLeader_lost_lock (json : Json) (cs : ConfigurationStore) (k8s : Store)
    (podName : String) (opTime : Int) (extra : Option StrMap) (now : Int) (cm : ConfigMap)
    (hget : k8s.Get (cs.clusterCompName ++ LeaderSuffix) = .ok cm)
    (hne : cm.Annotations.get LEADER ≠ podName) :
    UpdateLeader json cs k8s podName opTime extra now = (k8s, some (GoError.msg "lost lock")) := by
  unfold UpdateLeader
  simp only [hget]
  rw [if_pos hne]

theorem UpdateLeader_lost_lock_witness :
    (sampleStore.Get (sampleCs.clusterCompName ++ LeaderSuffix) = .ok sampleLeaderKey ∧
      sampleLeaderKey.Annotations.get LEADER ≠ "pod-1") ∧
    UpdateLeader sampleJson sampleCs sampleStore "pod-1" 9 none 120 =
      (sampleStore, some (GoError.msg "lost lock")) :=
  ⟨⟨rfl, by decide⟩,
   UpdateLeader_lost_lock sampleJson sampleCs sampleStore "pod-1" 9 none 120 sampleLeaderKey
     rfl (by decide)⟩

theorem acquireWrite_unreachable (cs : ConfigurationStore) (ann : StrMap) (k8s : Store)
    (hr : k8s.reachable = false) :
    (acquireWrite cs ann (k8s.Get (cs.clusterCompName ++ LeaderSuffix)) k8s).2 =
      some (GoError.store .unavailable) := by
  unfold Store.Get
  simp [hr, acquireWrite, Store.Create]

theorem acquireAnnotations_get (podName ttl now : String) :
    StrMap.get [(LEADER, podName), (TTL, ttl), (RenewTime, now), (AcquireTime, now)] LEADER
      = podName ∧
    StrMap.get [(LEADER, podName), (TTL, ttl), (RenewTime, now), (AcquireTime, now)] TTL
      = ttl ∧
    StrMap.get [(LEADER, podName), (TTL, ttl), (RenewTime, now), (AcquireTime, now)] RenewTime
      = now ∧
    StrMap.get [(LEADER, podName), (TTL, ttl), (RenewTime, now), (AcquireTime, now)] AcquireTime
      = now := by
  have a1 : LEADER ≠ AcquireTime := by decide
  have a2 : TTL ≠ AcquireTime := by decide
  have a3 : RenewTime ≠ AcquireTime := by decide
  have a4 : LEADER ≠ RenewTime := by decide
  have a5 : TTL ≠ RenewTime := by decide
  have a6 : LEADER ≠ TTL := by decide
  refine ⟨?_, ?_, ?_, ?_⟩ <;> simp [StrMap.get, a1, a2, a3, a4, a5, a6]

/-- C5: after a call `AttemptToAcquireLeaderLock(podName)` that returned nil,
whether it created the leader key or updated an existing one, the key holds
exactly the annotations leader = `podName`, ttl = the ttl of the cached config,
renewTime = acquireTime = the clock reading `now` (as decimal text), and
`newLeaderRecord` reads them back as those values. -/
theorem acquire_writes_fresh_record (json : Json) (cs : ConfigurationStore) (k8s final : Store)
    (podName : String) (now : Int) (config : ClusterConfig)
    (hcfg : cs.cluster.Config = some config)
    (hnow : inInt64 now) (httl : inInt64 config.data.ttl)
    (hok : AttemptToAcquireLeaderLock cs k8s podName now = some (final, none)) :
    final.leaderAnnotations cs =
      some [(LEADER, podName), (TTL, FormatInt config.data.ttl), (RenewTime, FormatInt now),
            (AcquireTime, FormatInt now)] ∧
    ∀ ann, final.leaderAnnotations cs = some ann →
      (newLeaderRecord json ann).leader = podName ∧
      (newLeaderRecord json ann).acquireTime = now ∧
      (newLeaderRecord json ann).renewTime = now ∧
      (newLeaderRecord json ann).ttl = config.data.ttl := by
  have hann : final.leaderAnnotations cs =
      some [(LEADER, podName), (TTL, FormatInt config.data.ttl), (RenewTime, FormatInt now),
            (AcquireTime, FormatInt now)] := by
    unfold AttemptToAcquireLeaderLock acquireAnnotations at hok
    simp only [hcfg, Option.some.injEq] at hok
    cases hr : k8s.reachable with
    | false =>
      have := acquireWrite_unreachable cs
        [(LEADER, podName), (TTL, FormatInt config.data.ttl), (RenewTime, FormatInt now),
         (AcquireTime, FormatInt now)] k8s hr
      rw [hok] at this
      cases this
    | true =>
      obtain ⟨-, -, h3⟩ := acquireWrite_fresh cs
        [(LEADER, podName), (TTL, FormatInt config.data.ttl), (RenewTime, FormatInt now),
         (AcquireTime, FormatInt now)] k8s hr
      rw [hok] at h3
      unfold Store.leaderAnnotations
      simp only at h3
      rw [h3]
      rfl
  refine ⟨hann, ?_⟩
  intro ann ha
  rw [hann] at ha
  cases ha
  obtain ⟨e1, e4, e3, e2⟩ := acquireAnnotations_get podName (FormatInt config.data.ttl)
    (FormatInt now)
  simp only [newLeaderRecord, e1, e2, e3, e4, atoiOrZero_FormatInt _ hnow,
    atoiOrZero_FormatInt _ httl, and_self]

theorem acquire_writes_fresh_record_witness :
    (sampleCs.cluster.Config = some (ClusterConfig.mk 1 (ClusterData.mk 30 10)) ∧
      inInt64 150 ∧ inInt64 (ClusterConfig.mk 1 (ClusterData.mk 30 10)).data.ttl ∧
      AttemptToAcquireLeaderLock sampleCs sampleStore "pod-1" 150 =
        some ((acquireWrite sampleCs
          [("leader", "pod-1"), ("ttl", "30"), ("renewTime", "150"), ("acquireTime", "150")]
          (.ok sampleLeaderKey) sampleStore).1, none)) ∧
    ((acquireWrite sampleCs
          [("leader", "pod-1"), ("ttl", "30"), ("renewTime", "150"), ("acquireTime", "150")]
          (.ok sampleLeaderKey) sampleStore).1.leaderAnnotations sampleCs =
      some [(LEADER, "pod-1"), (TTL, FormatInt 30), (RenewTime, FormatInt 150),
            (AcquireTime, FormatInt 150)] ∧
    ∀ ann, (acquireWrite sampleCs
          [("leader", "pod-1"), ("ttl", "30"), ("renewTime", "150"), ("acquireTime", "150")]
          (.ok sampleLeaderKey) sampleStore).1.leaderAnnotations sampleCs = some ann →
      (newLeaderRecord sampleJson ann).leader = "pod-1" ∧
      (newLeaderRecord sampleJson ann).acquireTime = 150 ∧
      (newLeaderRecord sampleJson ann).renewTime = 150 ∧
      (newLeaderRecord sampleJson ann).ttl = 30) :=
  ⟨⟨rfl, by decide, by decide, by decide⟩,
   acquire_writes_fresh_record sampleJson sampleCs sampleStore _ "pod-1" 150
     (ClusterConfig.mk 1 (ClusterData.mk 30 10)) rfl (by decide) (by decide) (by decide)⟩

theorem renewedAnnotations_get (m : StrMap) (opTime : Int) (extraJsonStr : String) (now : Int) :
    (renewedAnnotations m opTime extraJsonStr now).get RenewTime = FormatInt now ∧
    (renewedAnnotations m opTime extraJsonStr now).get OpTime =
      (if opTime ≠ 0 then FormatInt opTime else m.get OpTime) ∧
    (renewedAnnotations m opTime extraJsonStr now).get Extra = extraJsonStr ∧
    ∀ k : String, k ≠ RenewTime → k ≠ OpTime → k ≠ Extra →
      (renewedAnnotations m opTime extraJsonStr now).get k = m.get k := by
  have a1 : RenewTime ≠ Extra := by decide
  have a2 : RenewTime ≠ OpTime := by decide
  have a3 : OpTime ≠ Extra := by decide
  have a4 : OpTime ≠ RenewTime := by decide
  unfold renewedAnnotations
  simp only
  refine ⟨?_, ?_, ?_, ?_⟩
  · rw [StrMap.get_set_other _ _ _ _ a1]
    split
    · rw [StrMap.get_set_other _ _ _ _ a2, StrMap.get_set_same]
    · rw [StrMap.get_set_same]
  · rw [StrMap.get_set_other _ _ _ _ a3]
    split
    · rw [StrMap.get_set_same]
    · rw [StrMap.get_set_other _ _ _ _ a4]
  · rw [StrMap.get_set_same]
  · intro k h1 h2 h3
    rw [StrMap.get_set_other _ _ _ _ h3]
    split
    · rw [StrMap.get_set_other _ _ _ _ h2, StrMap.get_set_other _ _ _ _ h1]
    · rw [StrMap.get_set_other _ _ _ _ h1]

theorem releasedAnnotations_get (m : StrMap) (opTime : Int) :
    (releasedAnnotations m opTime).get LEADER = "" ∧
    (releasedAnnotations m opTime).get OpTime =
      (if opTime ≠ 0 then FormatInt opTime else m.get OpTime) ∧
    ∀ k : String, k ≠ LEADER → k ≠ OpTime → (releasedAnnotations m opTime).get k = m.get k := by
  have a1 : LEADER ≠ OpTime := by decide
  have a2 : OpTime ≠ LEADER := by decide
  unfold releasedAnnotations
  simp only
  refine ⟨?_, ?_, ?_⟩
  · split
    · rw [StrMap.get_set_other _ _ _ _ a1, StrMap.get_set_same]
    · rw [StrMap.get_set_same]
  · split
    · rw [StrMap.get_set_same]
    · rw [StrMap.get_set_other _ _ _ _ a2]
  · intro k h1 h2
    split
    · rw [StrMap.get_set_other _ _ _ _ h2, StrMap.get_set_other _ _ _ _ h1]
    · rw [StrMap.get_set_other _ _ _ _ h1]

/-- C6: when the leader key exists, carries annotations (so that the map
read from it is not Go's nil map) and its leader annotation equals `podName`,
`UpdateLeader` (run with no other writer in between) returns nil and leaves a
key whose renewTime is the clock reading `now`, whose opTime is the supplied
value when that is non-zero and the stored one otherwise, and whose leader,
acquireTime and ttl annotations are the stored ones; `newLeaderRecord` reads
the new renewTime back as `now`. -/
theorem UpdateLeader_renews (json : Json) (cs : ConfigurationStore) (k8s : Store)
    (podName : String) (opTime : Int) (extra : Option StrMap) (now : Int) (cm : ConfigMap)
    (hnow : inInt64 now)
    (hget : k8s.Get (cs.clusterCompName ++ LeaderSuffix) = .ok cm)
    (hmap : cm.Annotations ≠ [])
    (heq : cm.Annotations.get LEADER = podName) :
    (UpdateLeader json cs k8s podName opTime extra now).2 = none ∧
    ∃ ann : StrMap,
      (UpdateLeader json cs k8s podName opTime extra now).1.leaderAnnotations cs = some ann ∧
      ann.get RenewTime = FormatInt now ∧
      (newLeaderRecord json ann).renewTime = now ∧
      ann.get OpTime = (if opTime ≠ 0 then FormatInt opTime else cm.Annotations.get OpTime) ∧
      ann.get LEADER = cm.Annotations.get LEADER ∧
      ann.get AcquireTime = cm.Annotations.get AcquireTime ∧
      ann.get TTL = cm.Annotations.get TTL := by
  obtain ⟨hr, hf⟩ := (Store.Get_ok k8s _ cm).1 hget
  obtain ⟨hu, hfind⟩ := Store.Update_seen k8s _ cm
    (renewedAnnotations cm.Annotations opTime (marshalExtra json extra) now) hr hf
  have hrun : UpdateLeader json cs k8s podName opTime extra now =
      ((k8s.Update (ConfigMap.mk cm.Name
          (renewedAnnotations cm.Annotations opTime (marshalExtra json extra) now)
          cm.ResourceVersion)).1,
       (k8s.Update (ConfigMap.mk cm.Name
          (renewedAnnotations cm.Annotations opTime (marshalExtra json extra) now)
          cm.ResourceVersion)).2.map GoError.store) := by
    unfold UpdateLeader
    simp only [hget]
    rw [if_neg (by simpa using heq)]
  obtain ⟨g1, g2, -, g4⟩ := renewedAnnotations_get cm.Annotations opTime
    (marshalExtra json extra) now
  rw [hrun]
  refine ⟨by rw [hu]; rfl,
    renewedAnnotations cm.Annotations opTime (marshalExtra json extra) now, ?_, g1, ?_, g2,
    g4 _ (by decide) (by decide) (by decide), g4 _ (by decide) (by decide) (by decide),
    g4 _ (by decide) (by decide) (by decide)⟩
  · unfold Store.leaderAnnotations
    simp only
    rw [hfind]
    rfl
  · simp only [newLeaderRecord, g1, atoiOrZero_FormatInt _ hnow]

theorem UpdateLeader_renews_witness :
    (inInt64 120 ∧
      sampleStore.Get (sampleCs.clusterCompName ++ LeaderSuffix) = .ok sampleLeaderKey ∧
      sampleLeaderKey.Annotations ≠ [] ∧
      sampleLeaderKey.Annotations.get LEADER = "pod-0") ∧
    ((UpdateLeader sampleJson sampleCs sampleStore "pod-0" 0 none 120).2 = none ∧
    ∃ ann : StrMap,
      (UpdateLeader sampleJson sampleCs sampleStore "pod-0" 0 none 120).1.leaderAnnotations
        sampleCs = some ann ∧
      ann.get RenewTime = FormatInt 120 ∧
      (newLeaderRecord sampleJson ann).renewTime = 120 ∧
      ann.get OpTime = (if (0 : Int) ≠ 0 then FormatInt 0
        else sampleLeaderKey.Annotations.get OpTime) ∧
      ann.get LEADER = sampleLeaderKey.Annotations.get LEADER ∧
      ann.get AcquireTime = sampleLeaderKey.Annotations.get AcquireTime ∧
      ann.get TTL = sampleLeaderKey.Annotations.get TTL) :=
  ⟨⟨by decide, rfl, by decide, by decide⟩,
   UpdateLeader_renews sampleJson sampleCs sampleStore "pod-0" 0 none 120 sampleLeaderKey
     (by decide) rfl (by decide) (by decide)⟩

/-- C7: after a call `DeleteLeader(opTime)` that returned nil the leader key
still exists; its leader annotation is the empty string; its opTime annotation
is the supplied value when that is non-zero and the stored one otherwise; and
every other annotation (among them acquireTime, renewTime, ttl and extra) is
the stored one. -/
theorem DeleteLeader_clears_leader_only (cs : ConfigurationStore) (k8s final : Store)
    (opTime : Int) (hok : DeleteLeader cs k8s opTime = (final, none)) :
    ∃ (cm : ConfigMap) (ann : StrMap),
      k8s.find (cs.clusterCompName ++ LeaderSuffix) = some cm ∧
      final.leaderAnnotations cs = some ann ∧
      ann.get LEADER = "" ∧
      ann.get OpTime = (if opTime ≠ 0 then FormatInt opTime else cm.Annotations.get OpTime) ∧
      (∀ k : String, k ≠ LEADER → k ≠ OpTime → ann.get k = cm.Annotations.get k) ∧
      ann.get AcquireTime = cm.Annotations.get AcquireTime ∧
      ann.get RenewTime = cm.Annotations.get RenewTime ∧
      ann.get TTL = cm.Annotations.get TTL ∧
      ann.get Extra = cm.Annotations.get Extra := by
  unfold DeleteLeader at hok
  cases hget : k8s.Get (cs.clusterCompName ++ LeaderSuffix) with
  | error e => rw [hget] at hok; simp at hok
  | ok cm =>
    rw [hget] at hok
    simp only at hok
    obtain ⟨hr, hf⟩ := (Store.Get_ok k8s _ cm).1 hget
    obtain ⟨hu, hfind⟩ := Store.Update_seen k8s _ cm
      (releasedAnnotations cm.Annotations opTime) hr hf
    have hfin : final = (k8s.Update (ConfigMap.mk cm.Name
        (releasedAnnotations cm.Annotations opTime) cm.ResourceVersion)).1 :=
      (congrArg Prod.fst hok).symm
    obtain ⟨g1, g2, g3⟩ := releasedAnnotations_get cm.Annotations opTime
    refine ⟨cm, releasedAnnotations cm.Annotations opTime, hf, ?_, g1, g2, g3,
      g3 _ (by decide) (by decide), g3 _ (by decide) (by decide),
      g3 _ (by decide) (by decide), g3 _ (by decide) (by decide)⟩
    rw [hfin]
    unfold Store.leaderAnnotations
    rw [hfind]
    rfl

theorem DeleteLeader_clears_leader_only_witness :
    DeleteLeader sampleCs sampleStore 9 = ((DeleteLeader sampleCs sampleStore 9).1, none) ∧
    ∃ (cm : ConfigMap) (ann : StrMap),
      sampleStore.find (sampleCs.clusterCompName ++ LeaderSuffix) = some cm ∧
      (DeleteLeader sampleCs sampleStore 9).1.leaderAnnotations sampleCs = some ann ∧
      ann.get LEADER = "" ∧
      ann.get OpTime = (if (9 : Int) ≠ 0 then FormatInt 9 else cm.Annotations.get OpTime) ∧
      (∀ k : String, k ≠ LEADER → k ≠ OpTime → ann.get k = cm.Annotations.get k) ∧
      ann.get AcquireTime = cm.Annotations.get AcquireTime ∧
      ann.get RenewTime = cm.Annotations.get RenewTime ∧
      ann.get TTL = cm.Annotations.get TTL ∧
      ann.get Extra = cm.Annotations.get Extra :=
  ⟨by decide,
   DeleteLeader_clears_leader_only sampleCs sampleStore _ 9 (by decide)⟩

/-- C8 fails on the code: `pod-0` releases its lease with `DeleteLeader`,
which leaves the leader key with an empty leader field; the follower `pod-1`,
whose local lease has not expired (observed at 101, ttl 30, clock 105), then
refreshes its snapshot and gets a `Leader` that is not nil: a placeholder
member with the empty name. -/
theorem released_lease_leader_not_nil_example :
    (DeleteLeader sampleCs sampleStore 7).2 = none ∧
    ((DeleteLeader sampleCs sampleStore 7).1.leaderAnnotations followerCs).map
        (fun a => a.get LEADER) = some "" ∧
    ¬ (addInt64 (GetClusterFromKubernetes sampleJson followerCs
          (DeleteLeader sampleCs sampleStore 7).1 105 105).1.LeaderObservedTime 30 < 105) ∧
    (GetClusterFromKubernetes sampleJson followerCs
        (DeleteLeader sampleCs sampleStore 7).1 105 105).1.cluster.Leader =
      some (newLeader 5 (newMember "-1" "" [] [])) := by
  decide

theorem IsHealthiest_result (json : Json) (mysqlOps : MysqlOperations) (w : World)
    (podName : String) (nowObserve nowCheck : Int) (config : ClusterConfig)
    (hcfg : (IsHealthiest json mysqlOps w podName nowObserve nowCheck).1.Cs.cluster.Config =
      some config) :
    (IsHealthiest json mysqlOps w podName nowObserve nowCheck).2 =
      some (decide (subInt64
        (IsHealthiest json mysqlOps w podName nowObserve nowCheck).1.Cs.cluster.GetOpTime
        (GetOpTime w).1 ≤ config.data.maxLagOnSwitchover)) := by
  have hst : (IsHealthiest json mysqlOps w podName nowObserve nowCheck).1 =
      { mysqlOps with
        Cs := (GetClusterFromKubernetes json mysqlOps.Cs w.k8s nowObserve nowCheck).1 } := by
    unfold IsHealthiest
    simp only
    split <;> rfl
  rw [hst] at hcfg ⊢
  simp only at hcfg
  unfold IsHealthiest isLagging
  simp only [hcfg]
  by_cases h : subInt64
      (GetClusterFromKubernetes json mysqlOps.Cs w.k8s nowObserve nowCheck).1.cluster.GetOpTime
      (GetOpTime w).1 ≤ config.data.maxLagOnSwitchover
  · have h2 : ¬ (subInt64
      (GetClusterFromKubernetes json mysqlOps.Cs w.k8s nowObserve nowCheck).1.cluster.GetOpTime
      (GetOpTime w).1 > config.data.maxLagOnSwitchover) := by omega
    simp [h, h2]
  · have h2 : subInt64
      (GetClusterFromKubernetes json mysqlOps.Cs w.k8s nowObserve nowCheck).1.cluster.GetOpTime
      (GetOpTime w).1 > config.data.maxLagOnSwitchover := by omega
    simp [h, h2]

/-- C9: when the refreshed snapshot has a config, `IsHealthiest` returns true
exactly when the lag, the leader op-time of the snapshot minus the local
op-time that `GetOpTime` returned (Go `int64` subtraction), is at most
`maxLagOnSwitchover`; a larger lag gives false; and when the difference does
not overflow the lag is the difference of the integers. -/
theorem IsHealthiest_iff_lag_within_bound (json : Json) (mysqlOps : MysqlOperations)
    (w : World) (podName : String) (nowObserve nowCheck : Int) (config : ClusterConfig)
    (hcfg : (IsHealthiest json mysqlOps w podName nowObserve nowCheck).1.Cs.cluster.Config =
      some config) :
    ((IsHealthiest json mysqlOps w podName nowObserve nowCheck).2 = some true ↔
      subInt64 (IsHealthiest json mysqlOps w podName nowObserve nowCheck).1.Cs.cluster.GetOpTime
        (GetOpTime w).1 ≤ config.data.maxLagOnSwitchover) ∧
    (subInt64 (IsHealthiest json mysqlOps w podName nowObserve nowCheck).1.Cs.cluster.GetOpTime
        (GetOpTime w).1 > config.data.maxLagOnSwitchover →
      (IsHealthiest json mysqlOps w podName nowObserve nowCheck).2 = some false) ∧
    (inInt64 ((IsHealthiest json mysqlOps w podName nowObserve nowCheck).1.Cs.cluster.GetOpTime
        - (GetOpTime w).1) →
      ((IsHealthiest json mysqlOps w podName nowObserve nowCheck).2 = some true ↔
        (IsHealthiest json mysqlOps w podName nowObserve nowCheck).1.Cs.cluster.GetOpTime
          - (GetOpTime w).1 ≤ config.data.maxLagOnSwitchover)) := by
  have h := IsHealthiest_result json mysqlOps w podName nowObserve nowCheck config hcfg
  refine ⟨?_, ?_, ?_⟩
  · rw [h]; simp
  · intro hgt
    rw [h]
    have : ¬ (subInt64
        (IsHealthiest json mysqlOps w podName nowObserve nowCheck).1.Cs.cluster.GetOpTime
        (GetOpTime w).1 ≤ config.data.maxLagOnSwitchover) := by omega
    simp [this]
  · intro hin
    rw [h]
    unfold subInt64
    rw [wrapInt64_of_inInt64 _ hin]
    simp

theorem IsHealthiest_iff_lag_within_bound_witness :
    (IsHealthiest sampleJson (MysqlOperations.mk followerCs) sampleWorld "pod-1" 105
        105).1.Cs.cluster.Config = some (ClusterConfig.mk 2 (ClusterData.mk 30 10)) ∧
    (((IsHealthiest sampleJson (MysqlOperations.mk followerCs) sampleWorld "pod-1" 105 105).2
        = some true ↔
      subInt64 (IsHealthiest sampleJson (MysqlOperations.mk followerCs) sampleWorld "pod-1" 105
          105).1.Cs.cluster.GetOpTime
        (GetOpTime sampleWorld).1 ≤ (ClusterConfig.mk 2 (ClusterData.mk 30 10)).data.maxLagOnSwitchover) ∧
    (subInt64 (IsHealthiest sampleJson (MysqlOperations.mk followerCs) sampleWorld "pod-1" 105
          105).1.Cs.cluster.GetOpTime
        (GetOpTime sampleWorld).1 > (ClusterConfig.mk 2 (ClusterData.mk 30 10)).data.maxLagOnSwitchover →
      (IsHealthiest sampleJson (MysqlOperations.mk followerCs) sampleWorld "pod-1" 105 105).2
        = some false) ∧
    (inInt64 ((IsHealthiest sampleJson (MysqlOperations.mk followerCs) sampleWorld "pod-1" 105
          105).1.Cs.cluster.GetOpTime - (GetOpTime sampleWorld).1) →
      ((IsHealthiest sampleJson (MysqlOperations.mk followerCs) sampleWorld "pod-1" 105 105).2
          = some true ↔
        (IsHealthiest sampleJson (MysqlOperations.mk followerCs) sampleWorld "pod-1" 105
            105).1.Cs.cluster.GetOpTime - (GetOpTime sampleWorld).1
          ≤ (ClusterConfig.mk 2 (ClusterData.mk 30 10)).data.maxLagOnSwitchover))) :=
  ⟨by decide,
   IsHealthiest_iff_lag_within_bound sampleJson (MysqlOperations.mk followerCs) sampleWorld
     "pod-1" 105 105 (ClusterConfig.mk 2 (ClusterData.mk 30 10)) (by decide)⟩

/-- C10 fails on the code: at local time 200 the lease seen by `pod-1` has
expired, the member `pod-0` is reachable and reports itself as primary, the
lag of `pod-1` is 2 with a threshold of 10, and `IsHealthiest` returns true. -/
theorem IsHealthiest_true_despite_primary_peer_example :
    peerReportsPrimary sampleWorld
      (IsHealthiest sampleJson (MysqlOperations.mk followerCs) sampleWorld "pod-1" 200
        200).1.Cs.cluster "pod-1" ∧
    (IsHealthiest sampleJson (MysqlOperations.mk followerCs) sampleWorld "pod-1" 200 200).2 =
      some true :=
  ⟨⟨getMemberFromPod (Pod.mk "pod-0" [] [("url", "http://pod-0")] 3), by decide, by decide,
    by decide, by decide⟩, by decide⟩

/-- C10, amended: `IsHealthiest` does not ask the other members. Whenever the
refreshed snapshot has a config and the own lag is at most
`maxLagOnSwitchover` it returns true, also when a reachable peer reports itself
as primary; and its result is the same whatever the other members answer. -/
theorem IsHealthiest_ignores_peers (json : Json) (mysqlOps : MysqlOperations)
    (w : World) (podName : String) (nowObserve nowCheck : Int) (config : ClusterConfig)
    (hcfg : (IsHealthiest json mysqlOps w podName nowObserve nowCheck).1.Cs.cluster.Config =
      some config)
    (hlag : subInt64
        (IsHealthiest json mysqlOps w podName nowObserve nowCheck).1.Cs.cluster.GetOpTime
        (GetOpTime w).1 ≤ config.data.maxLagOnSwitchover)
    (hpeer : peerReportsPrimary w
      (IsHealthiest json mysqlOps w podName nowObserve nowCheck).1.Cs.cluster podName) :
    (IsHealthiest json mysqlOps w podName nowObserve nowCheck).2 = some true ∧
    ∀ answers : String → String → StrMap × Option GoError,
      IsHealthiest json mysqlOps { w with FetchOtherStatus := answers } podName nowObserve
          nowCheck =
        IsHealthiest json mysqlOps w podName nowObserve nowCheck := by
  refine ⟨?_, fun answers => rfl⟩
  rw [IsHealthiest_result json mysqlOps w podName nowObserve nowCheck config hcfg]
  simp [hlag]

theorem IsHealthiest_ignores_peers_witness :
    ((IsHealthiest sampleJson (MysqlOperations.mk followerCs) sampleWorld "pod-1" 200
        200).1.Cs.cluster.Config = some (ClusterConfig.mk 2 (ClusterData.mk 30 10)) ∧
      subInt64 (IsHealthiest sampleJson (MysqlOperations.mk followerCs) sampleWorld "pod-1" 200
          200).1.Cs.cluster.GetOpTime (GetOpTime sampleWorld).1
        ≤ (ClusterConfig.mk 2 (ClusterData.mk 30 10)).data.maxLagOnSwitchover) ∧
    ((IsHealthiest sampleJson (MysqlOperations.mk followerCs) sampleWorld "pod-1" 200 200).2 =
      some true ∧
    ∀ answers : String → String → StrMap × Option GoError,
      IsHealthiest sampleJson (MysqlOperations.mk followerCs)
          { sampleWorld with FetchOtherStatus := answers } "pod-1" 200 200 =
        IsHealthiest sampleJson (MysqlOperations.mk followerCs) sampleWorld "pod-1" 200 200) :=
  ⟨⟨by decide, by decide⟩,
   IsHealthiest_ignores_peers sampleJson (MysqlOperations.mk followerCs) sampleWorld "pod-1"
     200 200 (ClusterConfig.mk 2 (ClusterData.mk 30 10)) (by decide) (by decide)
     ⟨getMemberFromPod (Pod.mk "pod-0" [] [("url", "http://pod-0")] 3), by decide, by decide,
      by decide, by decide⟩⟩

/-! ## Switchover and failover requests -/

theorem leaderIsNot_false (c : Cluster) (primary : String) (h : ¬ leaderIsNot c primary = true) :
    ∃ l, c.Leader = some l ∧ l.member.name = primary := by
  unfold leaderIsNot at h
  cases hl : c.Leader with
  | none => rw [hl] at h; simp at h
  | some l =>
    rw [hl] at h
    simp at h
    exact ⟨l, rfl, h⟩

theorem hasMemberExceptLeader_true (c : Cluster) (h : hasMemberExceptLeader c = some true) :
    ∃ l, c.Leader = some l ∧ ∃ m ∈ c.Members, m.name ≠ l.member.name := by
  unfold hasMemberExceptLeader at h
  cases hl : c.Leader with
  | none =>
    rw [hl] at h
    cases hm : c.Members with
    | nil => rw [hm] at h; simp at h
    | cons a b => rw [hm] at h; simp at h
  | some l =>
    rw [hl] at h
    simp only [Option.some.injEq, List.any_eq_true, decide_eq_true_eq] at h
    exact ⟨l, rfl, h⟩

theorem runningMembers_pos (w : World) (c : Cluster) (h : runningMembers w c ≠ 0) :
    ∃ m ∈ c.Members,
      (w.FetchOtherStatus m.GetUrl checkStatusRequest).1.get "event" = OperationSuccess := by
  unfold runningMembers at h
  have hne : (c.Members.filter fun m => memberAnswersSuccess w m) ≠ [] := by
    intro h0; rw [h0] at h; exact h rfl
  obtain ⟨m, hm⟩ := List.exists_mem_of_ne_nil _ hne
  rw [List.mem_filter] at hm
  refine ⟨m, hm.1, ?_⟩
  have := hm.2
  unfold memberAnswersSuccess at this
  simpa using this

theorem candidateChecks_pass (c : Cluster) (primary candidate : String)
    (h : candidateChecks c primary candidate = some none) :
    (candidate ≠ "" → c.HasMember candidate = true) ∧
    (candidate = "" → hasMemberExceptLeader c = some true) := by
  unfold candidateChecks at h
  by_cases hc : candidate ≠ ""
  · rw [if_pos hc] at h
    refine ⟨fun _ => ?_, fun h0 => absurd h0 hc⟩
    cases hl : c.Leader with
    | none =>
      rw [hl] at h
      simp only at h
      by_cases hm : c.HasMember candidate = true
      · exact hm
      · simp [hm] at h
    | some l =>
      rw [hl] at h
      simp only at h
      by_cases hn : l.member.name ≠ primary
      · rw [if_pos hn] at h; simp at h
      · rw [if_neg hn] at h
        by_cases hm : c.HasMember candidate = true
        · exact hm
        · simp [hm] at h
  · rw [if_neg hc] at h
    refine ⟨fun h0 => absurd h0 hc, fun _ => ?_⟩
    cases hx : hasMemberExceptLeader c with
    | none => rw [hx] at h; simp at h
    | some b =>
      cases b with
      | false => rw [hx] at h; simp at h
      | true => rfl

/-- C12: whenever `isSwitchoverPossible(primary, candidate, operation)`
returns true (it then returns a nil error), a non-empty primary is the name of
the leader of the snapshot, a non-empty candidate is the name of a member, with
an empty candidate the snapshot has a leader and a member with another name,
and some member answered the status probe with `OperationSuccess`. -/
theorem isSwitchoverPossible_true_preconditions (mysqlOps : MysqlOperations) (w : World)
    (primary candidate operation : String) (err : Option GoError)
    (h : isSwitchoverPossible mysqlOps w primary candidate operation = some (true, err)) :
    err = none ∧
    (primary ≠ "" →
      ∃ l, mysqlOps.Cs.cluster.Leader = some l ∧ l.member.name = primary) ∧
    (candidate ≠ "" → mysqlOps.Cs.cluster.HasMember candidate = true) ∧
    (candidate = "" →
      ∃ l, mysqlOps.Cs.cluster.Leader = some l ∧
        ∃ m ∈ mysqlOps.Cs.cluster.Members, m.name ≠ l.member.name) ∧
    (∃ m ∈ mysqlOps.Cs.cluster.Members,
      (w.FetchOtherStatus m.GetUrl checkStatusRequest).1.get "event" = OperationSuccess) := by
  unfold isSwitchoverPossible at h
  simp only at h
  by_cases h1 : operation = FailoverOperation ∧ candidate = ""
  · rw [if_pos h1] at h; simp at h
  rw [if_neg h1] at h
  by_cases h2 : operation = SwitchoverOperation ∧ primary = ""
  · rw [if_pos h2] at h; simp at h
  rw [if_neg h2] at h
  by_cases h3 : primary ≠ "" ∧ leaderIsNot mysqlOps.Cs.cluster primary = true
  · rw [if_pos h3] at h; simp at h
  rw [if_neg h3] at h
  cases hc : candidateChecks mysqlOps.Cs.cluster primary candidate with
  | none => rw [hc] at h; simp at h
  | some e =>
    cases e with
    | some e => rw [hc] at h; simp at h
    | none =>
      rw [hc] at h
      simp only [Option.some.injEq] at h
      obtain ⟨g1, g2⟩ := candidateChecks_pass _ _ _ hc
      unfold runningCheck at h
      by_cases hr : runningMembers w mysqlOps.Cs.cluster = 0
      · rw [if_pos hr] at h; simp at h
      rw [if_neg hr] at h
      refine ⟨?_, ?_, g1, ?_, runningMembers_pos w _ hr⟩
      · have := congrArg Prod.snd h
        exact this.symm
      · intro hp
        apply leaderIsNot_false
        intro hl
        exact h3 ⟨hp, hl⟩
      · intro hc0
        exact hasMemberExceptLeader_true _ (g2 hc0)

theorem isSwitchoverPossible_true_preconditions_witness :
    isSwitchoverPossible switchoverOps switchoverWorld "pod-0" "pod-1" SwitchoverOperation =
      some (true, none) ∧
    ((none : Option GoError) = none ∧
    ("pod-0" ≠ "" →
      ∃ l, switchoverOps.Cs.cluster.Leader = some l ∧ l.member.name = "pod-0") ∧
    ("pod-1" ≠ "" → switchoverOps.Cs.cluster.HasMember "pod-1" = true) ∧
    ("pod-1" = "" →
      ∃ l, switchoverOps.Cs.cluster.Leader = some l ∧
        ∃ m ∈ switchoverOps.Cs.cluster.Members, m.name ≠ l.member.name) ∧
    (∃ m ∈ switchoverOps.Cs.cluster.Members,
      (switchoverWorld.FetchOtherStatus m.GetUrl checkStatusRequest).1.get "event" =
        OperationSuccess)) :=
  ⟨by decide,
   isSwitchoverPossible_true_preconditions switchoverOps switchoverWorld "pod-0" "pod-1"
     SwitchoverOperation none (by decide)⟩

theorem opsResult_get (event message : String) :
    (opsResult event message).get "event" = event ∧
    (opsResult event message).get "message" = message ∧
    (opsResult event message).contains "message" = true := by
  have a : ¬ ("event" = "message") := by decide
  simp [opsResult, StrMap.set, StrMap.get, StrMap.contains, a]

theorem hasMemberExceptLeader_none (c : Cluster) (h : hasMemberExceptLeader c = none) :
    c.Leader = none := by
  unfold hasMemberExceptLeader at h
  cases hl : c.Leader with
  | none => rfl
  | some l => rw [hl] at h; simp at h

theorem candidateChecks_none (c : Cluster) (primary candidate : String)
    (h : candidateChecks c primary candidate = none) : candidate = "" ∧ c.Leader = none := by
  unfold candidateChecks at h
  by_cases hc : candidate ≠ ""
  · rw [if_pos hc] at h
    cases hl : c.Leader with
    | none => rw [hl] at h; simp only at h; split at h <;> simp at h
    | some l => rw [hl] at h; simp only at h; split at h <;> (try split at h) <;> simp at h
  · rw [if_neg hc] at h
    refine ⟨by simpa using hc, ?_⟩
    cases hx : hasMemberExceptLeader c with
    | none => exact hasMemberExceptLeader_none c hx
    | some b => cases b <;> (rw [hx] at h; simp at h)

/-- For the two operation kinds under which the method is registered,
`isSwitchoverPossible` dereferences no nil pointer, and it returns false
exactly together with an error. -/
theorem isSwitchoverPossible_total (mysqlOps : MysqlOperations) (w : World)
    (primary candidate operation : String)
    (hop : operation = SwitchoverOperation ∨ operation = FailoverOperation) :
    (∃ e, isSwitchoverPossible mysqlOps w primary candidate operation = some (false, some e)) ∨
    isSwitchoverPossible mysqlOps w primary candidate operation = some (true, none) := by
  unfold isSwitchoverPossible
  simp only
  by_cases h1 : operation = FailoverOperation ∧ candidate = ""
  · rw [if_pos h1]; exact Or.inl ⟨_, rfl⟩
  rw [if_neg h1]
  by_cases h2 : operation = SwitchoverOperation ∧ primary = ""
  · rw [if_pos h2]; exact Or.inl ⟨_, rfl⟩
  rw [if_neg h2]
  by_cases h3 : primary ≠ "" ∧ leaderIsNot mysqlOps.Cs.cluster primary = true
  · rw [if_pos h3]; exact Or.inl ⟨_, rfl⟩
  rw [if_neg h3]
  cases hc : candidateChecks mysqlOps.Cs.cluster primary candidate with
  | none =>
    exfalso
    obtain ⟨hcand, hl⟩ := candidateChecks_none _ _ _ hc
    rcases hop with hop | hop
    · by_cases hp : primary = ""
      · exact h2 ⟨hop, hp⟩
      · apply h3
        refine ⟨hp, ?_⟩
        unfold leaderIsNot
        rw [hl]
    · exact h1 ⟨hop, hcand⟩
  | some e =>
    cases e with
    | some e => exact Or.inl ⟨e, rfl⟩
    | none =>
      simp only
      unfold runningCheck
      by_cases hr : runningMembers w mysqlOps.Cs.cluster = 0
      · rw [if_pos hr]; exact Or.inl ⟨_, rfl⟩
      · rw [if_neg hr]; exact Or.inr rfl

/-- C14: for a request of one of the two operation kinds under which the
methods are registered, and for every state of the store and of the members,
`SwitchoverOps` and `FailoverOps` return a result map together with a nil Go
error; the event of the map is `OperationSuccess` or `OperationFailed` and its
message is set. -/
theorem SwitchoverOps_returns_result (json : Json) (mysqlOps : MysqlOperations) (w : World)
    (req : InvokeRequest)
    (hop : req.Operation = SwitchoverOperation ∨ req.Operation = FailoverOperation) :
    ∃ (ops2 : MysqlOperations) (w2 : World) (result : OpsResult),
      SwitchoverOps json mysqlOps w req = some (ops2, w2, result, none) ∧
      FailoverOps json mysqlOps w req = some (ops2, w2, result, none) ∧
      (result.get "event" = OperationSuccess ∨ result.get "event" = OperationFailed) ∧
      result.contains "message" = true := by
  unfold FailoverOps SwitchoverOps
  simp only
  cases hr : (GetClusterFromKubernetes json mysqlOps.Cs w.k8s w.now w.now).2 with
  | some err =>
    simp only
    exact ⟨_, _, _, rfl, rfl, Or.inr (opsResult_get _ _).1, (opsResult_get _ _).2.2⟩
  | none =>
    simp only
    rcases isSwitchoverPossible_total
      { mysqlOps with Cs := (GetClusterFromKubernetes json mysqlOps.Cs w.k8s w.now w.now).1 } w
      (req.Metadata.get PRIMARY) (req.Metadata.get CANDIDATE) req.Operation hop with ⟨e, he⟩ | ht
    · rw [he]
      simp only [Bool.not_false, Bool.true_or, if_true]
      exact ⟨_, _, _, rfl, rfl, Or.inr (opsResult_get _ _).1, (opsResult_get _ _).2.2⟩
    · rw [ht]
      simp only [Bool.not_true, Option.isSome_none, Bool.or_self, Bool.false_eq_true, if_false]
      cases hm : (ManualSwitchover
          { mysqlOps with Cs := (GetClusterFromKubernetes json mysqlOps.Cs w.k8s w.now w.now).1 }
          w (req.Metadata.get PRIMARY) (req.Metadata.get CANDIDATE)).2 with
      | some e =>
        simp only
        exact ⟨_, _, _, rfl, rfl, Or.inr (opsResult_get _ _).1, (opsResult_get _ _).2.2⟩
      | none =>
        simp only
        by_cases hc : req.Metadata.get CANDIDATE = ""
        · rw [if_pos hc]
          exact ⟨_, _, _, rfl, rfl, Or.inl (opsResult_get _ _).1, (opsResult_get _ _).2.2⟩
        · rw [if_neg hc]
          exact ⟨_, _, _, rfl, rfl, Or.inl (opsResult_get _ _).1, (opsResult_get _ _).2.2⟩

theorem SwitchoverOps_returns_result_witness :
    (SwitchoverOperation = SwitchoverOperation ∨ SwitchoverOperation = FailoverOperation) ∧
    ∃ (ops2 : MysqlOperations) (w2 : World) (result : OpsResult),
      SwitchoverOps sampleJson switchoverOps switchoverWorld
        (InvokeRequest.mk [("primary", "pod-0"), ("candidate", "pod-1")] SwitchoverOperation) =
          some (ops2, w2, result, none) ∧
      FailoverOps sampleJson switchoverOps switchoverWorld
        (InvokeRequest.mk [("primary", "pod-0"), ("candidate", "pod-1")] SwitchoverOperation) =
          some (ops2, w2, result, none) ∧
      (result.get "event" = OperationSuccess ∨ result.get "event" = OperationFailed) ∧
      result.contains "message" = true :=
  ⟨Or.inl rfl,
   SwitchoverOps_returns_result sampleJson switchoverOps switchoverWorld
     (InvokeRequest.mk [("primary", "pod-0"), ("candidate", "pod-1")] SwitchoverOperation)
     (Or.inl rfl)⟩

theorem candidateChecks_not_member (c : Cluster) (l : Leader) (primary candidate : String)
    (hl : c.Leader = some l) (hp : l.member.name = primary) (hc : candidate ≠ "")
    (hm : c.HasMember candidate = false) :
    candidateChecks c primary candidate = some (some (.msg "candidate does not exist")) := by
  unfold candidateChecks
  rw [if_pos hc, hl]
  simp only
  rw [if_neg (by simpa using hp)]
  simp [hm]

/-- C11: when the refreshed snapshot has a leader with a non-empty name `L`,
the request names `L` as primary and names as candidate a non-empty name that
no member has, `SwitchoverOps` returns the event `OperationFailed` with the
message "candidate does not exist" and a nil error, and the world is the one
before the call: nothing is written to the store (neither an intent nor the
leader record) and `ManualSwitchover` is not called. -/
theorem SwitchoverOps_candidate_not_member (json : Json) (mysqlOps : MysqlOperations)
    (w : World) (req : InvokeRequest) (l : Leader)
    (hrefresh : (GetClusterFromKubernetes json mysqlOps.Cs w.k8s w.now w.now).2 = none)
    (hleader : (GetClusterFromKubernetes json mysqlOps.Cs w.k8s w.now w.now).1.cluster.Leader
      = some l)
    (hprimary : req.Metadata.get PRIMARY = l.member.name)
    (hname : l.member.name ≠ "")
    (hcand : req.Metadata.get CANDIDATE ≠ "")
    (hnot : (GetClusterFromKubernetes json mysqlOps.Cs w.k8s w.now w.now).1.cluster.HasMember
      (req.Metadata.get CANDIDATE) = false) :
    SwitchoverOps json mysqlOps w req =
      some ({ mysqlOps with
              Cs := (GetClusterFromKubernetes json mysqlOps.Cs w.k8s w.now w.now).1 },
            w, opsResult OperationFailed "candidate does not exist", none) ∧
    (opsResult OperationFailed "candidate does not exist").get "event" = OperationFailed ∧
    ∀ r, SwitchoverOps json mysqlOps w req = some r →
      r.2.1.k8s = w.k8s ∧ r.2.1.calls = w.calls ∧
      ∀ p c, Call.ManualSwitchover p c ∈ r.2.1.calls → Call.ManualSwitchover p c ∈ w.calls := by
  have hrun : SwitchoverOps json mysqlOps w req =
      some ({ mysqlOps with
              Cs := (GetClusterFromKubernetes json mysqlOps.Cs w.k8s w.now w.now).1 },
            w, opsResult OperationFailed "candidate does not exist", none) := by
    unfold SwitchoverOps
    simp only [hrefresh]
    have hposs : isSwitchoverPossible
        { mysqlOps with Cs := (GetClusterFromKubernetes json mysqlOps.Cs w.k8s w.now w.now).1 } w
        (req.Metadata.get PRIMARY) (req.Metadata.get CANDIDATE) req.Operation =
        some (false, some (.msg "candidate does not exist")) := by
      unfold isSwitchoverPossible
      simp only
      rw [if_neg (fun h => hcand h.2)]
      rw [if_neg (fun h => hname (hprimary ▸ h.2))]
      have h3 : ¬ (req.Metadata.get PRIMARY ≠ "" ∧
          leaderIsNot (GetClusterFromKubernetes json mysqlOps.Cs w.k8s w.now w.now).1.cluster
            (req.Metadata.get PRIMARY) = true) := by
        intro h
        have := h.2
        unfold leaderIsNot at this
        rw [hleader] at this
        simp [hprimary] at this
      rw [if_neg h3]
      rw [candidateChecks_not_member _ l _ _ hleader hprimary.symm hcand hnot]
    rw [hposs]
    rfl
  refine ⟨hrun, (opsResult_get _ _).1, ?_⟩
  intro r hr
  rw [hrun] at hr
  cases hr
  exact ⟨rfl, rfl, fun _ _ h => h⟩

theorem SwitchoverOps_candidate_not_member_witness :
    ((GetClusterFromKubernetes sampleJson switchoverOps.Cs switchoverWorld.k8s
        switchoverWorld.now switchoverWorld.now).2 = none ∧
      (GetClusterFromKubernetes sampleJson switchoverOps.Cs switchoverWorld.k8s
        switchoverWorld.now switchoverWorld.now).1.cluster.Leader =
        some (newLeader 1 (getMemberFromPod
          (Pod.mk "pod-0" [] [("url", "http://pod-0")] 3))) ∧
      (InvokeRequest.mk [("primary", "pod-0"), ("candidate", "ghost")]
        SwitchoverOperation).Metadata.get CANDIDATE ≠ "" ∧
      (GetClusterFromKubernetes sampleJson switchoverOps.Cs switchoverWorld.k8s
        switchoverWorld.now switchoverWorld.now).1.cluster.HasMember "ghost" = false) ∧
    (SwitchoverOps sampleJson switchoverOps switchoverWorld
        (InvokeRequest.mk [("primary", "pod-0"), ("candidate", "ghost")] SwitchoverOperation) =
      some ({ switchoverOps with
              Cs := (GetClusterFromKubernetes sampleJson switchoverOps.Cs switchoverWorld.k8s
                switchoverWorld.now switchoverWorld.now).1 },
            switchoverWorld, opsResult OperationFailed "candidate does not exist", none) ∧
    (opsResult OperationFailed "candidate does not exist").get "event" = OperationFailed ∧
    ∀ r, SwitchoverOps sampleJson switchoverOps switchoverWorld
        (InvokeRequest.mk [("primary", "pod-0"), ("candidate", "ghost")] SwitchoverOperation)
          = some r →
      r.2.1.k8s = switchoverWorld.k8s ∧ r.2.1.calls = switchoverWorld.calls ∧
      ∀ p c, Call.ManualSwitchover p c ∈ r.2.1.calls →
        Call.ManualSwitchover p c ∈ switchoverWorld.calls) :=
  ⟨⟨by decide, by decide, by decide, by decide⟩,
   SwitchoverOps_candidate_not_member sampleJson switchoverOps switchoverWorld
     (InvokeRequest.mk [("primary", "pod-0"), ("candidate", "ghost")] SwitchoverOperation)
     (newLeader 1 (getMemberFromPod (Pod.mk "pod-0" [] [("url", "http://pod-0")] 3)))
     (by decide) (by decide) (by decide) (by decide) (by decide) (by decide)⟩

/-- C13 fails on the code: against a snapshot with the live leader `pod-0`
and the two followers `pod-1` and `pod-2`, all three answering the status
probe with success, a switchover request with empty primary and candidate is
rejected: `SwitchoverOps` returns the event `OperationFailed` with the message
"switchover need a primary", and writes nothing. -/
theorem empty_switchover_request_rejected_example :
    ((GetClusterFromKubernetes sampleJson switchoverOps.Cs switchoverWorld.k8s 105
        105).1.cluster.Leader.map fun l => l.member.name) = some "pod-0" ∧
    ((GetClusterFromKubernetes sampleJson switchoverOps.Cs switchoverWorld.k8s 105
        105).1.cluster.Members.map fun m => m.name) = ["pod-0", "pod-1", "pod-2"] ∧
    runningMembers switchoverWorld (GetClusterFromKubernetes sampleJson switchoverOps.Cs
        switchoverWorld.k8s 105 105).1.cluster = 3 ∧
    (SwitchoverOps sampleJson switchoverOps switchoverWorld
        (InvokeRequest.mk [] SwitchoverOperation)).map
        (fun r => (r.2.2.1, r.2.2.2, r.2.1.k8s, r.2.1.calls)) =
      some (opsResult OperationFailed "switchover need a primary", none, threePodStore, []) ∧
    (opsResult OperationFailed "switchover need a primary").get "event" = OperationFailed := by
  decide

/-- C13, amended: a request with both primary and candidate empty is
rejected whatever the cluster. `isSwitchoverPossible` returns false with
"switchover need a primary" for a switchover and with "failover need a
candidate" for a failover; `SwitchoverOps` then returns the event
`OperationFailed` and leaves the world as it was (no intent is written); and
`PreCheck` of the agent returns "primary or candidate must be set". -/
theorem empty_switchover_request_rejected (json : Json) (mysqlOps : MysqlOperations)
    (w : World) (req : InvokeRequest) (cluster : Option DcsCluster) (err : Option GoError)
    (hp : req.Metadata.get PRIMARY = "") (hc : req.Metadata.get CANDIDATE = "")
    (hop : req.Operation = SwitchoverOperation ∨ req.Operation = FailoverOperation) :
    isSwitchoverPossible mysqlOps w "" "" SwitchoverOperation =
      some (false, some (.msg "switchover need a primary")) ∧
    isSwitchoverPossible mysqlOps w "" "" FailoverOperation =
      some (false, some (.msg "failover need a candidate")) ∧
    (∃ (ops2 : MysqlOperations) (result : OpsResult),
      SwitchoverOps json mysqlOps w req = some (ops2, w, result, none) ∧
      result.get "event" = OperationFailed) ∧
    PreCheck "" "" cluster err = some (.msg "primary or candidate must be set") := by
  have hsf : SwitchoverOperation ≠ FailoverOperation := by decide
  have g1 : ∀ ops : MysqlOperations, isSwitchoverPossible ops w "" "" SwitchoverOperation =
      some (false, some (.msg "switchover need a primary")) := by
    intro ops
    unfold isSwitchoverPossible
    simp only
    rw [if_neg (fun h => hsf h.1), if_pos (by simp)]
  have g2 : ∀ ops : MysqlOperations, isSwitchoverPossible ops w "" "" FailoverOperation =
      some (false, some (.msg "failover need a candidate")) := by
    intro ops
    unfold isSwitchoverPossible
    simp only
    rw [if_pos (by simp)]
  refine ⟨g1 _, g2 _, ?_, ?_⟩
  · unfold SwitchoverOps
    simp only [hp, hc]
    cases hr : (GetClusterFromKubernetes json mysqlOps.Cs w.k8s w.now w.now).2 with
    | some e => exact ⟨_, _, rfl, (opsResult_get _ _).1⟩
    | none =>
      simp only
      rcases hop with hop | hop
      · rw [hop, g1]
        exact ⟨_, _, rfl, (opsResult_get _ _).1⟩
      · rw [hop, g2]
        exact ⟨_, _, rfl, (opsResult_get _ _).1⟩
  · unfold PreCheck
    rw [if_pos ⟨rfl, rfl⟩]

theorem empty_switchover_request_rejected_witness :
    ((InvokeRequest.mk [] SwitchoverOperation).Metadata.get PRIMARY = "" ∧
      (InvokeRequest.mk [] SwitchoverOperation).Metadata.get CANDIDATE = "") ∧
    (isSwitchoverPossible switchoverOps switchoverWorld "" "" SwitchoverOperation =
      some (false, some (.msg "switchover need a primary")) ∧
    isSwitchoverPossible switchoverOps switchoverWorld "" "" FailoverOperation =
      some (false, some (.msg "failover need a candidate")) ∧
    (∃ (ops2 : MysqlOperations) (result : OpsResult),
      SwitchoverOps sampleJson switchoverOps switchoverWorld
        (InvokeRequest.mk [] SwitchoverOperation) = some (ops2, switchoverWorld, result, none) ∧
      result.get "event" = OperationFailed) ∧
    PreCheck "" "" (some (DcsCluster.mk (some true) ["pod-0", "pod-1", "pod-2"])) none =
      some (.msg "primary or candidate must be set")) :=
  ⟨⟨by decide, by decide⟩,
   empty_switchover_request_rejected sampleJson switchoverOps switchoverWorld
     (InvokeRequest.mk [] SwitchoverOperation)
     (some (DcsCluster.mk (some true) ["pod-0", "pod-1", "pod-2"])) none (by decide) (by decide)
     (Or.inl rfl)⟩

/-! ## The manual switchover steps -/

theorem String.append_left_cancel (a b c : String) (h : a ++ b = a ++ c) : b = c := by
  have := congrArg String.data h
  simp only [String.data_append, List.append_cancel_left_eq] at this
  exact String.ext this

theorem GetClusterFromKubernetes_ok_reachable (json : Json) (cs : ConfigurationStore)
    (k8s : Store) (t1 t2 : Int) (h : (GetClusterFromKubernetes json cs k8s t1 t2).2 = none) :
    k8s.reachable = true := by
  unfold GetClusterFromKubernetes Store.ListPods at h
  cases hr : k8s.reachable with
  | true => rfl
  | false => simp [hr] at h

theorem Store.Delete_find_same (s : Store) (name : String) (hr : s.reachable = true) :
    (s.Delete name).1.find name = none := by
  unfold Store.Delete
  rw [if_pos hr]
  cases hf : s.find name with
  | none => simpa using hf
  | some cm =>
    simp only [Store.find]
    rw [List.find?_eq_none]
    intro x hx
    rw [List.mem_filter] at hx
    simpa using hx.2

theorem find_filter_other (name other : String) (hne : other ≠ name) (l : List ConfigMap) :
    (l.filter fun c => decide (c.Name ≠ name)).find? (fun c => decide (c.Name = other)) =
      l.find? fun c => decide (c.Name = other) := by
  induction l with
  | nil => rfl
  | cons c rest ih =>
    by_cases hc : c.Name = name
    · have hco : ¬ c.Name = other := fun h => hne (h ▸ hc)
      rw [List.filter_cons_of_neg (by simpa using hc),
        List.find?_cons_of_neg _ (by simpa using hco)]
      exact ih
    · rw [List.filter_cons_of_pos (by simpa using hc)]
      by_cases hco : c.Name = other
      · rw [List.find?_cons_of_pos _ (by simpa using hco),
          List.find?_cons_of_pos _ (by simpa using hco)]
      · rw [List.find?_cons_of_neg _ (by simpa using hco),
          List.find?_cons_of_neg _ (by simpa using hco)]
        exact ih

theorem Store.Delete_find_other (s : Store) (name other : String) (hne : other ≠ name) :
    (s.Delete name).1.find other = s.find other := by
  unfold Store.Delete
  by_cases hr : s.reachable = true
  · rw [if_pos hr]
    cases hf : s.find name with
    | none => rfl
    | some cm =>
      simp only [Store.find]
      exact find_filter_other name other hne _
  · rw [if_neg hr]

theorem demoteWait_calls (json : Json) (n : Nat) : ∀ (mysqlOps : MysqlOperations) (w : World),
    (demoteWait json n mysqlOps w).2.1.calls = w.calls := by
  induction n with
  | zero => intro mysqlOps w; rfl
  | succ n ih =>
    intro mysqlOps w
    unfold demoteWait
    simp only
    split
    · rfl
    · rw [ih]; rfl

theorem follow_calls (mysqlOps : MysqlOperations) (w : World) (podName leader : String) :
    (follow mysqlOps w podName leader).1.calls =
      w.calls ++ [Call.follow podName leader,
        Call.exec (followSQL mysqlOps (w.record (Call.follow podName leader)) leader)] := by
  unfold follow
  simp only
  split <;> simp [exec, World.record]

theorem Demote_records (json : Json) (mysqlOps : MysqlOperations) (w : World)
    (podName : String) : Call.Demote podName ∈ (Demote json mysqlOps w podName).2.1.calls := by
  unfold Demote
  simp only
  cases he : (exec (w.record (Call.Demote podName)) setReadOnly).2 with
  | error err => simp [exec, World.record]
  | ok n =>
    simp only
    have hc := demoteWait_calls json 3 mysqlOps
      (World.sleep
        { (exec (w.record (Call.Demote podName)) setReadOnly).1 with
          k8s := (DeleteLeader mysqlOps.Cs (exec (w.record (Call.Demote podName)) setReadOnly).1.k8s
            (GetOpTime (exec (w.record (Call.Demote podName)) setReadOnly).1).1).1,
          calls := (exec (w.record (Call.Demote podName)) setReadOnly).1.calls ++
            [Call.DeleteLeader (GetOpTime (exec (w.record (Call.Demote podName))
              setReadOnly).1).1] } 5)
    generalize demoteWait json 3 mysqlOps _ = r at hc ⊢
    obtain ⟨ops2, w2, l⟩ := r
    simp only [World.sleep, exec, World.record] at hc
    cases l with
    | none => simp [hc]
    | some l => simp [follow_calls, hc]

/-- C15 fails on the code: the intent names the candidate `ghost`, which is
no member, and leaves the leader empty; `ProcessManualSwitchoverFromLeader` run
by the leader `pod-0` returns true, calls `Demote` (which sets the engine
read-only and releases the lease) and leaves the intent in the store. -/
theorem switchover_to_unknown_candidate_demotes_example :
    (GetClusterFromKubernetes sampleJson switchoverOps.Cs (intentWorld "" "ghost").k8s 105
        105).1.cluster.Switchover = some (newSwitchover 6 "" "ghost" 0) ∧
    (GetClusterFromKubernetes sampleJson switchoverOps.Cs (intentWorld "" "ghost").k8s 105
        105).1.cluster.HasMember "ghost" = false ∧
    (ProcessManualSwitchoverFromLeader sampleJson switchoverOps (intentWorld "" "ghost")
        "pod-0").2.2 = (true, none) ∧
    (ProcessManualSwitchoverFromLeader sampleJson switchoverOps (intentWorld "" "ghost")
        "pod-0").2.1.calls.take 3 =
      [Call.Demote "pod-0", Call.exec "set global read_only=on;", Call.DeleteLeader 5] ∧
    ((ProcessManualSwitchoverFromLeader sampleJson switchoverOps (intentWorld "" "ghost")
        "pod-0").2.1.k8s.find "c-mysql-switchover").isSome = true ∧
    ((ProcessManualSwitchoverFromLeader sampleJson switchoverOps (intentWorld "" "ghost")
        "pod-0").2.1.k8s.leaderAnnotations switchoverOps.Cs).map (fun a => a.get LEADER) =
      some "" := by
  decide

/-- C16: after a successful refresh of the snapshot,
`ProcessManualSwitchoverFromLeader(podName)` (1) with no intent returns
`(false, nil)` and leaves the world as it was; (2) with an intent whose leader
is empty or `podName` and whose candidate is empty or differs from `podName`
returns true together with the result of `Demote`, which it calls; (3) with
any other intent returns false together with the result of deleting the
intent, does not call `Demote`, and leaves no intent key and an unchanged
leader key; (4) so it returns true only in case (2). -/
theorem ProcessManualSwitchoverFromLeader_cases (json : Json) (mysqlOps : MysqlOperations)
    (w : World) (podName : String)
    (hrefresh : (GetClusterFromKubernetes json mysqlOps.Cs w.k8s w.now w.now).2 = none) :
    ((GetClusterFromKubernetes json mysqlOps.Cs w.k8s w.now w.now).1.cluster.Switchover = none →
      ProcessManualSwitchoverFromLeader json mysqlOps w podName =
        ({ mysqlOps with Cs := (GetClusterFromKubernetes json mysqlOps.Cs w.k8s w.now w.now).1 },
         w, false, none)) ∧
    (∀ sw, (GetClusterFromKubernetes json mysqlOps.Cs w.k8s w.now w.now).1.cluster.Switchover
        = some sw →
      (sw.leader = "" ∨ sw.leader = podName) → (sw.candidate = "" ∨ sw.candidate ≠ podName) →
      ProcessManualSwitchoverFromLeader json mysqlOps w podName =
        ((Demote json { mysqlOps with
            Cs := (GetClusterFromKubernetes json mysqlOps.Cs w.k8s w.now w.now).1 } w podName).1,
         (Demote json { mysqlOps with
            Cs := (GetClusterFromKubernetes json mysqlOps.Cs w.k8s w.now w.now).1 } w
              podName).2.1,
         true,
         (Demote json { mysqlOps with
            Cs := (GetClusterFromKubernetes json mysqlOps.Cs w.k8s w.now w.now).1 } w
              podName).2.2) ∧
      Call.Demote podName ∈
        (ProcessManualSwitchoverFromLeader json mysqlOps w podName).2.1.calls) ∧
    (∀ sw, (GetClusterFromKubernetes json mysqlOps.Cs w.k8s w.now w.now).1.cluster.Switchover
        = some sw →
      ¬ ((sw.leader = "" ∨ sw.leader = podName) ∧
         (sw.candidate = "" ∨ sw.candidate ≠ podName)) →
      (ProcessManualSwitchoverFromLeader json mysqlOps w podName).2.2 =
        (false, (w.k8s.Delete (mysqlOps.Cs.clusterCompName ++ SwitchoverSuffix)).2.map
          GoError.store) ∧
      (ProcessManualSwitchoverFromLeader json mysqlOps w podName).2.1.calls =
        w.calls ++ [Call.DeleteConfigMap (mysqlOps.Cs.clusterCompName ++ SwitchoverSuffix)] ∧
      (ProcessManualSwitchoverFromLeader json mysqlOps w podName).2.1.k8s.find
        (mysqlOps.Cs.clusterCompName ++ SwitchoverSuffix) = none ∧
      (ProcessManualSwitchoverFromLeader json mysqlOps w podName).2.1.k8s.find
        (mysqlOps.Cs.clusterCompName ++ LeaderSuffix) =
          w.k8s.find (mysqlOps.Cs.clusterCompName ++ LeaderSuffix)) ∧
    ((ProcessManualSwitchoverFromLeader json mysqlOps w podName).2.2.1 = true →
      ∃ sw, (GetClusterFromKubernetes json mysqlOps.Cs w.k8s w.now w.now).1.cluster.Switchover
          = some sw ∧
        (sw.leader = "" ∨ sw.leader = podName) ∧
        (sw.candidate = "" ∨ sw.candidate ≠ podName)) := by
  have hcomp : (GetClusterFromKubernetes json mysqlOps.Cs w.k8s w.now w.now).1.clusterCompName =
      mysqlOps.Cs.clusterCompName := by
    unfold GetClusterFromKubernetes
    split
    · rfl
    · split
      · rfl
      · simp only [loadClusterFromKubernetes]
        split
        · rfl
        · simp only [observeLeaderRecord]
          split
          · rfl
          · split <;> rfl
  have hreach := GetClusterFromKubernetes_ok_reachable _ _ _ _ _ hrefresh
  have hA : (GetClusterFromKubernetes json mysqlOps.Cs w.k8s w.now w.now).1.cluster.Switchover
      = none →
      ProcessManualSwitchoverFromLeader json mysqlOps w podName =
        ({ mysqlOps with Cs := (GetClusterFromKubernetes json mysqlOps.Cs w.k8s w.now w.now).1 },
         w, false, none) := by
    intro hs
    unfold ProcessManualSwitchoverFromLeader
    simp only [hrefresh, hs]
  have hB : ∀ sw,
      (GetClusterFromKubernetes json mysqlOps.Cs w.k8s w.now w.now).1.cluster.Switchover
        = some sw →
      (sw.leader = "" ∨ sw.leader = podName) → (sw.candidate = "" ∨ sw.candidate ≠ podName) →
      ProcessManualSwitchoverFromLeader json mysqlOps w podName =
        ((Demote json { mysqlOps with
            Cs := (GetClusterFromKubernetes json mysqlOps.Cs w.k8s w.now w.now).1 } w podName).1,
         (Demote json { mysqlOps with
            Cs := (GetClusterFromKubernetes json mysqlOps.Cs w.k8s w.now w.now).1 } w
              podName).2.1,
         true,
         (Demote json { mysqlOps with
            Cs := (GetClusterFromKubernetes json mysqlOps.Cs w.k8s w.now w.now).1 } w
              podName).2.2) := by
    intro sw hs h1 h2
    unfold ProcessManualSwitchoverFromLeader
    simp only [hrefresh, hs]
    rw [if_pos h1, if_pos h2]
    simp [isFailoverPossible]
  have hC : ∀ sw,
      (GetClusterFromKubernetes json mysqlOps.Cs w.k8s w.now w.now).1.cluster.Switchover
        = some sw →
      ¬ ((sw.leader = "" ∨ sw.leader = podName) ∧
         (sw.candidate = "" ∨ sw.candidate ≠ podName)) →
      ProcessManualSwitchoverFromLeader json mysqlOps w podName =
        ({ mysqlOps with Cs := (GetClusterFromKubernetes json mysqlOps.Cs w.k8s w.now w.now).1 },
         (DeleteConfigMap w (mysqlOps.Cs.clusterCompName ++ SwitchoverSuffix)).1, false,
         (DeleteConfigMap w (mysqlOps.Cs.clusterCompName ++ SwitchoverSuffix)).2) := by
    intro sw hs hn
    unfold ProcessManualSwitchoverFromLeader
    simp only [hrefresh, hs, hcomp]
    by_cases h1 : sw.leader = "" ∨ sw.leader = podName
    · have h2 : ¬ (sw.candidate = "" ∨ sw.candidate ≠ podName) := fun h => hn ⟨h1, h⟩
      rw [if_pos h1, if_neg h2]
      simp
    · rw [if_neg h1]
      simp
  refine ⟨hA, ?_, ?_, ?_⟩
  · intro sw hs h1 h2
    refine ⟨hB sw hs h1 h2, ?_⟩
    rw [hB sw hs h1 h2]
    exact Demote_records _ _ _ _
  · intro sw hs hn
    rw [hC sw hs hn]
    refine ⟨rfl, rfl, ?_, ?_⟩
    · exact Store.Delete_find_same _ _ hreach
    · apply Store.Delete_find_other
      intro h
      have := String.append_left_cancel _ _ _ h
      revert this
      decide
  · intro ht
    cases hs : (GetClusterFromKubernetes json mysqlOps.Cs w.k8s w.now w.now).1.cluster.Switchover
      with
    | none => rw [hA hs] at ht; simp at ht
    | some sw =>
      by_cases hcond : (sw.leader = "" ∨ sw.leader = podName) ∧
          (sw.candidate = "" ∨ sw.candidate ≠ podName)
      · exact ⟨sw, rfl, hcond⟩
      · rw [hC sw hs hcond] at ht; simp at ht

theorem ProcessManualSwitchoverFromLeader_cases_witness :
    (GetClusterFromKubernetes sampleJson switchoverOps.Cs (intentWorld "pod-1" "").k8s
      (intentWorld "pod-1" "").now (intentWorld "pod-1" "").now).2 = none ∧
    (ProcessManualSwitchoverFromLeader sampleJson switchoverOps (intentWorld "pod-1" "")
      "pod-0").2.1.k8s.find (switchoverOps.Cs.clusterCompName ++ SwitchoverSuffix) = none :=
  ⟨by decide,
   ((ProcessManualSwitchoverFromLeader_cases sampleJson switchoverOps (intentWorld "pod-1" "")
      "pod-0" (by decide)).2.2.1 (newSwitchover 6 "pod-1" "" 0) (by decide)
      (by decide)).2.2.1⟩

/-- C17 fails on the code: the lease has run out (the snapshot has no
leader) and the pending intent names the candidate `ghost`, which is no member.
`ProcessManualSwitchoverFromNoLeader("pod-1")` looks the candidate up, gets
nil and dereferences it at line 985 to read its address: the call panics. The
claim has it return what `IsHealthiest("pod-1")` returns, which is true. -/
theorem unknown_candidate_nil_dereference_example :
    (GetClusterFromKubernetes sampleJson switchoverOps.Cs (expiredIntentWorld "" "ghost").k8s
        140 140).2 = none ∧
    (GetClusterFromKubernetes sampleJson switchoverOps.Cs (expiredIntentWorld "" "ghost").k8s
        140 140).1.cluster.Leader = none ∧
    (GetClusterFromKubernetes sampleJson switchoverOps.Cs (expiredIntentWorld "" "ghost").k8s
        140 140).1.cluster.Switchover = some (newSwitchover 6 "" "ghost" 0) ∧
    (GetClusterFromKubernetes sampleJson switchoverOps.Cs (expiredIntentWorld "" "ghost").k8s
        140 140).1.cluster.GetMemberWithName "ghost" = none ∧
    (ProcessManualSwitchoverFromNoLeader sampleJson switchoverOps (expiredIntentWorld "" "ghost")
        "pod-1").2 = none ∧
    (IsHealthiest sampleJson switchoverOps (expiredIntentWorld "" "ghost") "pod-1" 140 140).2 =
      some true := by
  decide

/-- The cases in which `ProcessManualSwitchoverFromNoLeader(podName)`
returns, after a successful refresh of the snapshot: true when the intent
names `podName` as candidate; false when the intent names another candidate
that is a member and answers the status probe with success; and what
`IsHealthiest(podName)` returns when there is no intent, when the candidate of
the intent is empty, and when the named candidate is a member that does not
answer with success. -/
theorem ProcessManualSwitchoverFromNoLeader_cases (json : Json) (mysqlOps : MysqlOperations)
    (w : World) (podName : String)
    (hrefresh : (GetClusterFromKubernetes json mysqlOps.Cs w.k8s w.now w.now).2 = none) :
    (∀ sw, (GetClusterFromKubernetes json mysqlOps.Cs w.k8s w.now w.now).1.cluster.Switchover
        = some sw → sw.candidate ≠ "" → sw.candidate = podName →
      (ProcessManualSwitchoverFromNoLeader json mysqlOps w podName).2 = some true) ∧
    (∀ sw member,
      (GetClusterFromKubernetes json mysqlOps.Cs w.k8s w.now w.now).1.cluster.Switchover
        = some sw → sw.candidate ≠ "" → sw.candidate ≠ podName →
      (GetClusterFromKubernetes json mysqlOps.Cs w.k8s w.now w.now).1.cluster.GetMemberWithName
        sw.candidate = some member →
      (w.FetchOtherStatus member.GetUrl checkStatusRequest).1.get "event" = OperationSuccess →
      (ProcessManualSwitchoverFromNoLeader json mysqlOps w podName).2 = some false) ∧
    ((GetClusterFromKubernetes json mysqlOps.Cs w.k8s w.now w.now).1.cluster.Switchover = none →
      ProcessManualSwitchoverFromNoLeader json mysqlOps w podName =
        IsHealthiest json
          { mysqlOps with Cs := (GetClusterFromKubernetes json mysqlOps.Cs w.k8s w.now w.now).1 }
          w podName w.now w.now) ∧
    (∀ sw, (GetClusterFromKubernetes json mysqlOps.Cs w.k8s w.now w.now).1.cluster.Switchover
        = some sw → sw.candidate = "" →
      ProcessManualSwitchoverFromNoLeader json mysqlOps w podName =
        IsHealthiest json
          { mysqlOps with Cs := (GetClusterFromKubernetes json mysqlOps.Cs w.k8s w.now w.now).1 }
          w podName w.now w.now) ∧
    (∀ sw member,
      (GetClusterFromKubernetes json mysqlOps.Cs w.k8s w.now w.now).1.cluster.Switchover
        = some sw → sw.candidate ≠ "" → sw.candidate ≠ podName →
      (GetClusterFromKubernetes json mysqlOps.Cs w.k8s w.now w.now).1.cluster.GetMemberWithName
        sw.candidate = some member →
      (w.FetchOtherStatus member.GetUrl checkStatusRequest).1.get "event" ≠ OperationSuccess →
      ProcessManualSwitchoverFromNoLeader json mysqlOps w podName =
        IsHealthiest json
          { mysqlOps with Cs := (GetClusterFromKubernetes json mysqlOps.Cs w.k8s w.now w.now).1 }
          w podName w.now w.now) := by
  refine ⟨?_, ?_, ?_, ?_, ?_⟩
  · intro sw hs hc hp
    unfold ProcessManualSwitchoverFromNoLeader
    simp only [hrefresh, hs]
    rw [if_pos hc, if_pos hp]
  · intro sw member hs hc hp hm hev
    unfold ProcessManualSwitchoverFromNoLeader
    simp only [hrefresh, hs, hm]
    rw [if_pos hc, if_neg hp]
    have : memberAnswersSuccess w member = true := by
      unfold memberAnswersSuccess; simpa using hev
    simp [this]
  · intro hs
    unfold ProcessManualSwitchoverFromNoLeader
    simp only [hrefresh, hs]
  · intro sw hs hc
    unfold ProcessManualSwitchoverFromNoLeader
    simp only [hrefresh, hs]
    rw [if_neg (by simpa using hc)]
  · intro sw member hs hc hp hm hev
    unfold ProcessManualSwitchoverFromNoLeader
    simp only [hrefresh, hs, hm]
    rw [if_pos hc, if_neg hp]
    have : ¬ memberAnswersSuccess w member = true := by
      unfold memberAnswersSuccess; simpa using hev
    simp [this]

theorem ProcessManualSwitchoverFromNoLeader_cases_witness :
    (GetClusterFromKubernetes sampleJson switchoverOps.Cs (intentWorld "" "pod-1").k8s
      (intentWorld "" "pod-1").now (intentWorld "" "pod-1").now).2 = none ∧
    (ProcessManualSwitchoverFromNoLeader sampleJson switchoverOps (intentWorld "" "pod-1")
      "pod-1").2 = some true ∧
    (ProcessManualSwitchoverFromNoLeader sampleJson switchoverOps (intentWorld "" "pod-1")
      "pod-2").2 = some false :=
  ⟨by decide,
   (ProcessManualSwitchoverFromNoLeader_cases sampleJson switchoverOps (intentWorld "" "pod-1")
      "pod-1" (by decide)).1 (newSwitchover 6 "" "pod-1" 0) (by decide) (by decide) (by decide),
   (ProcessManualSwitchoverFromNoLeader_cases sampleJson switchoverOps (intentWorld "" "pod-1")
      "pod-2" (by decide)).2.1 (newSwitchover 6 "" "pod-1" 0)
      (getMemberFromPod (Pod.mk "pod-1" [] [("url", "http://pod-1")] 4))
      (by decide) (by decide) (by decide) (by decide) (by decide)⟩

/-! ## The health probe -/

/-- C18 fails on the code in its last part: right after a success (counter
0) and with a report frequency of 3, the first failed probe already puts the
failed status code into the response metadata; the counter goes to 1. -/
theorem first_failure_is_reported_example :
    (checkStatusProbe sampleBase brokenEngineWorld).2.2 =
      some (GoError.msg "connection refused") ∧
    (CheckStatusOps sampleBase brokenEngineWorld (InvokeResponse.mk [])).map
        (fun r => (r.1.CheckStatusFailedCount, r.2.2.1.Metadata.get StatusCode,
          r.2.2.2.1.get "event", r.2.2.2.2)) =
      some (1, OperationFailedHTTPCode, OperationFailed, none) := by
  decide

/-- C18, amended: with `FailedEventReportFrequency > 0` (and a counter below
the largest `int`), `CheckStatusOps` returns a result and a nil error; a
successful probe sets `CheckStatusFailedCount` to 0 and leaves the response
metadata alone; a failed probe increases the counter by exactly 1 and puts the
failed status code into the response metadata exactly when the counter before
the probe is a multiple of the frequency (Go `%`), so on the first failure
after a success and then on every `FailedEventReportFrequency`-th failure, and
otherwise leaves the metadata alone. -/
theorem CheckStatusOps_counter_and_signal (base : BaseOperations) (w : World)
    (resp : InvokeResponse)
    (hfreq : 0 < base.FailedEventReportFrequency)
    (hcount : inInt64 (base.CheckStatusFailedCount + 1)) :
    ∃ (base2 : BaseOperations) (w2 : World) (resp2 : InvokeResponse) (result : OpsResult),
      CheckStatusOps base w resp = some (base2, w2, resp2, result, none) ∧
      ((checkStatusProbe base w).2.2 = none →
        base2.CheckStatusFailedCount = 0 ∧ resp2 = resp ∧
        result.get "event" = OperationSuccess) ∧
      ((checkStatusProbe base w).2.2 ≠ none →
        base2.CheckStatusFailedCount = base.CheckStatusFailedCount + 1 ∧
        result.get "event" = OperationFailed ∧
        (Int.tmod base.CheckStatusFailedCount base.FailedEventReportFrequency = 0 →
          resp2.Metadata.get StatusCode = OperationFailedHTTPCode) ∧
        (Int.tmod base.CheckStatusFailedCount base.FailedEventReportFrequency ≠ 0 →
          resp2 = resp) ∧
        (base.CheckStatusFailedCount = 0 →
          resp2.Metadata.get StatusCode = OperationFailedHTTPCode)) := by
  unfold CheckStatusOps
  simp only
  cases hp : (checkStatusProbe base w).2.2 with
  | none =>
    simp only
    exact ⟨_, _, _, _, rfl, fun _ => ⟨rfl, rfl, (opsResult_get _ _).1⟩, fun h => absurd rfl h⟩
  | some err =>
    simp only
    rw [if_neg (by omega)]
    refine ⟨_, _, _, _, rfl, fun h => by simp at h, fun _ => ⟨?_, (opsResult_get _ _).1, ?_, ?_, ?_⟩⟩
    · simp only [addInt64]
      exact wrapInt64_of_inInt64 _ hcount
    · intro hm
      rw [if_pos hm]
      exact StrMap.get_set_same _ _ _
    · intro hm
      rw [if_neg hm]
    · intro h0
      rw [if_pos (by rw [h0]; simp)]
      exact StrMap.get_set_same _ _ _

theorem CheckStatusOps_counter_and_signal_witness :
    (0 < sampleBase.FailedEventReportFrequency ∧
      inInt64 (sampleBase.CheckStatusFailedCount + 1)) ∧
    ∃ (base2 : BaseOperations) (w2 : World) (resp2 : InvokeResponse) (result : OpsResult),
      CheckStatusOps sampleBase brokenEngineWorld (InvokeResponse.mk []) =
        some (base2, w2, resp2, result, none) ∧
      ((checkStatusProbe sampleBase brokenEngineWorld).2.2 = none →
        base2.CheckStatusFailedCount = 0 ∧ resp2 = InvokeResponse.mk [] ∧
        result.get "event" = OperationSuccess) ∧
      ((checkStatusProbe sampleBase brokenEngineWorld).2.2 ≠ none →
        base2.CheckStatusFailedCount = sampleBase.CheckStatusFailedCount + 1 ∧
        result.get "event" = OperationFailed ∧
        (Int.tmod sampleBase.CheckStatusFailedCount sampleBase.FailedEventReportFrequency = 0 →
          resp2.Metadata.get StatusCode = OperationFailedHTTPCode) ∧
        (Int.tmod sampleBase.CheckStatusFailedCount sampleBase.FailedEventReportFrequency ≠ 0 →
          resp2 = InvokeResponse.mk []) ∧
        (sampleBase.CheckStatusFailedCount = 0 →
          resp2.Metadata.get StatusCode = OperationFailedHTTPCode)) :=
  ⟨⟨by decide, by decide⟩,
   CheckStatusOps_counter_and_signal sampleBase brokenEngineWorld (InvokeResponse.mk [])
     (by decide) (by decide)⟩

/-! ## Demotion -/

/-- C20: when the engine refuses the statement of `Demote` (set read-only),
`Demote` returns that error; it has sent only that statement, has not called
`DeleteLeader`, and the store (with it the lease record) and the state of the
process are what they were. -/
theorem Demote_engine_failure (json : Json) (mysqlOps : MysqlOperations) (w : World)
    (podName : String) (err : GoError) (hfail : w.execResult setReadOnly = .error err) :
    (Demote json mysqlOps w podName).2.2 = some err ∧
    (Demote json mysqlOps w podName).1 = mysqlOps ∧
    (Demote json mysqlOps w podName).2.1.k8s = w.k8s ∧
    (Demote json mysqlOps w podName).2.1.calls =
      w.calls ++ [Call.Demote podName, Call.exec setReadOnly] ∧
    (∀ opTime, Call.DeleteLeader opTime ∈ (Demote json mysqlOps w podName).2.1.calls →
      Call.DeleteLeader opTime ∈ w.calls) ∧
    (Demote json mysqlOps w podName).2.1.k8s.leaderAnnotations mysqlOps.Cs =
      w.k8s.leaderAnnotations mysqlOps.Cs := by
  have hrun : Demote json mysqlOps w podName =
      (mysqlOps, (w.record (Call.Demote podName)).record (Call.exec setReadOnly), some err) := by
    unfold Demote
    simp only
    have : (exec (w.record (Call.Demote podName)) setReadOnly).2 = .error err := by
      simp [exec, World.record, hfail]
    rw [this]
    rfl
  rw [hrun]
  refine ⟨rfl, rfl, rfl, ?_, ?_, rfl⟩
  · simp [World.record]
  · intro opTime h
    simp [World.record] at h
    exact h

theorem Demote_engine_failure_witness :
    brokenEngineWorld.execResult setReadOnly = .error (GoError.msg "connection refused") ∧
    (Demote sampleJson switchoverOps brokenEngineWorld "pod-0").2.2 =
      some (GoError.msg "connection refused") ∧
    (Demote sampleJson switchoverOps brokenEngineWorld "pod-0").2.1.k8s =
      brokenEngineWorld.k8s :=
  ⟨rfl,
   (Demote_engine_failure sampleJson switchoverOps brokenEngineWorld "pod-0"
      (GoError.msg "connection refused") rfl).1,
   (Demote_engine_failure sampleJson switchoverOps brokenEngineWorld "pod-0"
      (GoError.msg "connection refused") rfl).2.2.1⟩

/-! ## The lease invariant -/

theorem Store.Create_find (s : Store) (cm : ConfigMap) (n : String) :
    (s.Create cm).1.find n = s.find n ∨
    (n = cm.Name ∧ ∃ rv, (s.Create cm).1.find n = some (ConfigMap.mk cm.Name cm.Annotations rv)) := by
  unfold Store.Create
  by_cases hr : s.reachable = true
  · rw [if_pos hr]
    cases hf : s.find cm.Name with
    | some cur => exact Or.inl rfl
    | none =>
      simp only
      by_cases hn : cm.Name = n
      · right
        refine ⟨hn.symm, s.revision + 1, ?_⟩
        simp [Store.find, hn]
      · left
        simp [Store.find, List.find?_cons, hn]
  · rw [if_neg hr]; exact Or.inl rfl

theorem Store.UpdatePod_find (s : Store) (pod : Pod) (n : String) :
    (s.UpdatePod pod).1.find n = s.find n := by
  unfold Store.UpdatePod
  split
  · split
    · rfl
    · split <;> rfl
  · rfl

theorem createIfMissing_find (s : Store) (cm : ConfigMap) (n : String) :
    (createIfMissing s cm).1.find n = s.find n ∨
    (n = cm.Name ∧
      ∃ rv, (createIfMissing s cm).1.find n = some (ConfigMap.mk cm.Name cm.Annotations rv)) := by
  unfold createIfMissing
  split
  · exact Or.inl rfl
  · exact Store.Create_find s cm n

theorem leaderKey_ne_configKey (comp : String) :
    comp ++ LeaderSuffix ≠ comp ++ ConfigSuffix ∧ comp ++ LeaderSuffix ≠ comp ++ ExtraSuffix ∧
    comp ++ LeaderSuffix ≠ comp ++ SwitchoverSuffix := by
  refine ⟨?_, ?_, ?_⟩ <;>
  · intro h
    have := String.append_left_cancel _ _ _ h
    revert this
    decide

theorem Init_leader_key (json : Json) (env : InitEnv) (cs : ConfigurationStore) (k8s : Store)
    (isLeader : Bool) (sysID : String) (extra : Option StrMap) (opTime : Int)
    (podName : String) (now : Int) :
    (Init json env cs k8s isLeader sysID extra opTime podName now).1.find
        (cs.clusterCompName ++ LeaderSuffix) = k8s.find (cs.clusterCompName ++ LeaderSuffix) ∨
    ∃ rv, (Init json env cs k8s isLeader sysID extra opTime podName now).1.find
        (cs.clusterCompName ++ LeaderSuffix) =
      some (ConfigMap.mk (cs.clusterCompName ++ LeaderSuffix)
        (initLeaderAnnotations (firstLabel env.KbPrimaryPodName) now env.KbTtl opTime) rv) := by
  obtain ⟨n1, n2, -⟩ := leaderKey_ne_configKey cs.clusterCompName
  unfold Init
  simp only
  cases hg : k8s.GetPod podName with
  | error e => exact Or.inl rfl
  | ok pod =>
    simp only
    have hu := Store.UpdatePod_find k8s
      (Pod.mk pod.Name pod.Labels (pod.Annotations.set Url
          ("http://" ++ env.KbPodIP ++ ":" ++ env.daprHttpPort ++ "/v1.0/bindings/" ++
            env.KbServiceCharacterType)) pod.ResourceVersion)
      (cs.clusterCompName ++ LeaderSuffix)
    generalize k8s.UpdatePod _ = u at hu ⊢
    cases hu2 : u.2 with
    | some e => exact Or.inl hu
    | none =>
      simp only
      cases isLeader with
      | false => exact Or.inl hu
      | true =>
        simp only [Bool.not_true, Bool.false_eq_true, if_false]
        cases hco : env.clusterObject with
        | false => exact Or.inl hu
        | true =>
          simp only [Bool.not_true, Bool.false_eq_true, if_false]
          have hl := createIfMissing_find u.1
            (ConfigMap.mk (cs.clusterCompName ++ LeaderSuffix)
              (initLeaderAnnotations (firstLabel env.KbPrimaryPodName) now env.KbTtl opTime) 0)
            (cs.clusterCompName ++ LeaderSuffix)
          have hl2 : (createIfMissing u.1
              (ConfigMap.mk (cs.clusterCompName ++ LeaderSuffix)
                (initLeaderAnnotations (firstLabel env.KbPrimaryPodName) now env.KbTtl opTime)
                0)).1.find (cs.clusterCompName ++ LeaderSuffix) =
                k8s.find (cs.clusterCompName ++ LeaderSuffix) ∨
              ∃ rv, (createIfMissing u.1
                (ConfigMap.mk (cs.clusterCompName ++ LeaderSuffix)
                  (initLeaderAnnotations (firstLabel env.KbPrimaryPodName) now env.KbTtl opTime)
                  0)).1.find (cs.clusterCompName ++ LeaderSuffix) =
                some (ConfigMap.mk (cs.clusterCompName ++ LeaderSuffix)
                  (initLeaderAnnotations (firstLabel env.KbPrimaryPodName) now env.KbTtl opTime)
                  rv) := by
            rcases hl with hl | ⟨-, rv, hl⟩
            · exact Or.inl (hl.trans hu)
            · exact Or.inr ⟨rv, hl⟩
          generalize createIfMissing u.1 _ = l at hl2 ⊢
          cases hle : l.2 with
          | some e => exact hl2
          | none =>
            simp only
            have hc := createIfMissing_find l.1
              (ConfigMap.mk (cs.clusterCompName ++ ConfigSuffix)
                [(SysID, sysID), (TTL, env.KbTtl),
                 (MaxLagOnSwitchover, env.MaxLagOnSwitchover)] 0)
              (cs.clusterCompName ++ LeaderSuffix)
            have hc2 : (createIfMissing l.1
                (ConfigMap.mk (cs.clusterCompName ++ ConfigSuffix)
                  [(SysID, sysID), (TTL, env.KbTtl),
                   (MaxLagOnSwitchover, env.MaxLagOnSwitchover)] 0)).1.find
                  (cs.clusterCompName ++ LeaderSuffix) =
                l.1.find (cs.clusterCompName ++ LeaderSuffix) := by
              rcases hc with hc | ⟨hn, -⟩
              · exact hc
              · exact absurd hn n1
            generalize createIfMissing l.1 _ = c at hc2 ⊢
            rw [← hc2] at hl2
            cases hce : c.2 with
            | some e => exact hl2
            | none =>
              simp only
              cases extra with
              | none => exact hl2
              | some annots =>
                simp only
                have hx := createIfMissing_find c.1
                  (ConfigMap.mk (cs.clusterCompName ++ ExtraSuffix) annots 0)
                  (cs.clusterCompName ++ LeaderSuffix)
                rcases hx with hx | ⟨hn, -⟩
                · rw [hx]; exact hl2
                · exact absurd hn n2

theorem UpdateLeader_leader_key (json : Json) (cs : ConfigurationStore) (k8s : Store)
    (podName : String) (opTime : Int) (extra : Option StrMap) (now : Int) :
    (UpdateLeader json cs k8s podName opTime extra now).1 = k8s ∨
    ∃ cm rv, k8s.find (cs.clusterCompName ++ LeaderSuffix) = some cm ∧
      (UpdateLeader json cs k8s podName opTime extra now).1.find
          (cs.clusterCompName ++ LeaderSuffix) =
        some (ConfigMap.mk cm.Name
          (renewedAnnotations cm.Annotations opTime (marshalExtra json extra) now) rv) := by
  unfold UpdateLeader
  cases hget : k8s.Get (cs.clusterCompName ++ LeaderSuffix) with
  | error e => exact Or.inl rfl
  | ok cm =>
    simp only
    by_cases hl : cm.Annotations.get LEADER ≠ podName
    · rw [if_pos hl]; exact Or.inl rfl
    · rw [if_neg hl]
      obtain ⟨hr, hf⟩ := (Store.Get_ok k8s _ cm).1 hget
      obtain ⟨-, hfind⟩ := Store.Update_seen k8s _ cm
        (renewedAnnotations cm.Annotations opTime (marshalExtra json extra) now) hr hf
      exact Or.inr ⟨cm, _, hf, hfind⟩

theorem DeleteLeader_leader_key (cs : ConfigurationStore) (k8s : Store) (opTime : Int) :
    (DeleteLeader cs k8s opTime).1 = k8s ∨
    ∃ cm rv, k8s.find (cs.clusterCompName ++ LeaderSuffix) = some cm ∧
      (DeleteLeader cs k8s opTime).1.find (cs.clusterCompName ++ LeaderSuffix) =
        some (ConfigMap.mk cm.Name (releasedAnnotations cm.Annotations opTime) rv) := by
  unfold DeleteLeader
  cases hget : k8s.Get (cs.clusterCompName ++ LeaderSuffix) with
  | error e => exact Or.inl rfl
  | ok cm =>
    simp only
    obtain ⟨hr, hf⟩ := (Store.Get_ok k8s _ cm).1 hget
    obtain ⟨-, hfind⟩ := Store.Update_seen k8s _ cm
      (releasedAnnotations cm.Annotations opTime) hr hf
    exact Or.inr ⟨cm, _, hf, hfind⟩

theorem AttemptToAcquireLeaderLock_leader_key (cs : ConfigurationStore) (k8s : Store)
    (podName : String) (now : Int) (r : Store × Option GoError)
    (h : AttemptToAcquireLeaderLock cs k8s podName now = some r) :
    r.1 = k8s ∨
    ∃ ttl rv, r.1.find (cs.clusterCompName ++ LeaderSuffix) =
      some (ConfigMap.mk (cs.clusterCompName ++ LeaderSuffix)
        [(LEADER, podName), (TTL, ttl), (RenewTime, FormatInt now),
         (AcquireTime, FormatInt now)] rv) := by
  unfold AttemptToAcquireLeaderLock acquireAnnotations at h
  cases hc : cs.cluster.Config with
  | none => rw [hc] at h; simp at h
  | some config =>
    rw [hc] at h
    simp only [Option.some.injEq] at h
    cases hr : k8s.reachable with
    | false =>
      left
      rw [← h]
      unfold Store.Get
      simp [hr, acquireWrite, Store.Create]
    | true =>
      right
      obtain ⟨-, -, h3⟩ := acquireWrite_fresh cs
        [(LEADER, podName), (TTL, FormatInt config.data.ttl), (RenewTime, FormatInt now),
         (AcquireTime, FormatInt now)] k8s hr
      rw [h] at h3
      exact ⟨_, _, h3⟩

theorem initLeaderAnnotations_get (leaderName : String) (now : Int) (ttl : String)
    (opTime : Int) :
    (initLeaderAnnotations leaderName now ttl opTime).get AcquireTime = FormatInt now ∧
    (initLeaderAnnotations leaderName now ttl opTime).get RenewTime = FormatInt now := by
  have a1 : LEADER ≠ AcquireTime := by decide
  have a2 : LEADER ≠ RenewTime := by decide
  have a3 : AcquireTime ≠ RenewTime := by decide
  constructor <;> simp [initLeaderAnnotations, StrMap.get, a1, a2, a3]

/-- Along a lease history the acquire time stored under the leader key is
at most the stored renew time and at most the clock reading of the last call. -/
theorem LeaseHistory_times (json : Json) (comp : String) (k8s : Store) (t : Int)
    (h : LeaseHistory json comp k8s t) :
    ∀ cm, k8s.find (comp ++ LeaderSuffix) = some cm →
      atoiOrZero (cm.Annotations.get AcquireTime) ≤ atoiOrZero (cm.Annotations.get RenewTime) ∧
      atoiOrZero (cm.Annotations.get AcquireTime) ≤ t := by
  induction h with
  | start k8s t h =>
    intro cm hf
    simp [Store.find, h] at hf
  | init k8s t h env cs isLeader sysID extra opTime podName now hc hmono hnow ih =>
    intro cm hf
    subst hc
    rcases Init_leader_key json env cs k8s isLeader sysID extra opTime podName now with
      hk | ⟨rv, hk⟩
    · rw [hk] at hf
      have := ih cm hf
      exact ⟨this.1, by omega⟩
    · rw [hk] at hf
      cases hf
      obtain ⟨g1, g2⟩ := initLeaderAnnotations_get (firstLabel env.KbPrimaryPodName) now
        env.KbTtl opTime
      simp only [g1, g2, atoiOrZero_FormatInt _ hnow, le_refl, and_self]
  | acquire k8s t h cs podName now r hc hmono hnow hr ih =>
    intro cm hf
    subst hc
    rcases AttemptToAcquireLeaderLock_leader_key cs k8s podName now r hr with
      hk | ⟨ttl, rv, hk⟩
    · rw [hk] at hf
      have := ih cm hf
      exact ⟨this.1, by omega⟩
    · rw [hk] at hf
      cases hf
      obtain ⟨-, -, g3, g4⟩ := acquireAnnotations_get podName ttl (FormatInt now)
      simp only [g3, g4, atoiOrZero_FormatInt _ hnow, le_refl, and_self]
  | renew k8s t h cs podName opTime extra now hc hmono hnow ih =>
    intro cm hf
    subst hc
    rcases UpdateLeader_leader_key json cs k8s podName opTime extra now with
      hk | ⟨old, rv, hold, hk⟩
    · rw [hk] at hf
      have := ih cm hf
      exact ⟨this.1, by omega⟩
    · rw [hk] at hf
      cases hf
      obtain ⟨g1, -, -, g4⟩ := renewedAnnotations_get old.Annotations opTime
        (marshalExtra json extra) now
      have hacq := g4 AcquireTime (by decide) (by decide) (by decide)
      have := ih old hold
      simp only [g1, hacq, atoiOrZero_FormatInt _ hnow]
      omega
  | release k8s t h cs opTime now hc hmono ih =>
    intro cm hf
    subst hc
    rcases DeleteLeader_leader_key cs k8s opTime with hk | ⟨old, rv, hold, hk⟩
    · rw [hk] at hf
      have := ih cm hf
      exact ⟨this.1, by omega⟩
    · rw [hk] at hf
      cases hf
      obtain ⟨-, -, g3⟩ := releasedAnnotations_get old.Annotations opTime
      have hacq := g3 AcquireTime (by decide) (by decide)
      have hren := g3 RenewTime (by decide) (by decide)
      have := ih old hold
      simp only [hacq, hren]
      omega

/-- C19: in every store reached from a store without keys by calls of
`Init`, `AttemptToAcquireLeaderLock`, `UpdateLeader` and `DeleteLeader` under a
non-decreasing clock, the record under the leader key satisfies
`renewTime >= acquireTime`; and `DeleteLeader` keeps `renewTime >= acquireTime`
on any store whose leader record satisfies it. -/
theorem lease_renewTime_ge_acquireTime (json : Json) (comp : String) (k8s : Store) (t : Int)
    (h : LeaseHistory json comp k8s t) :
    (∀ cm, k8s.find (comp ++ LeaderSuffix) = some cm →
      (newLeaderRecord json cm.Annotations).renewTime ≥
        (newLeaderRecord json cm.Annotations).acquireTime) ∧
    (∀ (s : Store) (cs : ConfigurationStore) (opTime : Int),
      (∀ cm, s.find (cs.clusterCompName ++ LeaderSuffix) = some cm →
        (newLeaderRecord json cm.Annotations).renewTime ≥
          (newLeaderRecord json cm.Annotations).acquireTime) →
      ∀ cm, (DeleteLeader cs s opTime).1.find (cs.clusterCompName ++ LeaderSuffix) = some cm →
        (newLeaderRecord json cm.Annotations).renewTime ≥
          (newLeaderRecord json cm.Annotations).acquireTime) := by
  refine ⟨?_, ?_⟩
  · intro cm hf
    exact (LeaseHistory_times json comp k8s t h cm hf).1
  · intro s cs opTime hinv cm hf
    rcases DeleteLeader_leader_key cs s opTime with hk | ⟨old, rv, hold, hk⟩
    · rw [hk] at hf
      exact hinv cm hf
    · rw [hk] at hf
      cases hf
      obtain ⟨-, -, g3⟩ := releasedAnnotations_get old.Annotations opTime
      have hacq := g3 AcquireTime (by decide) (by decide)
      have hren := g3 RenewTime (by decide) (by decide)
      have := hinv old hold
      simp only [newLeaderRecord] at this ⊢
      simp only [hacq, hren]
      exact this

theorem lease_renewTime_ge_acquireTime_witness :
    (UpdateLeader sampleJson sampleCs
        (acquireWrite sampleCs
          [("leader", "pod-0"), ("ttl", "30"), ("renewTime", "100"), ("acquireTime", "100")]
          (emptyStore.Get "c-mysql-leader") emptyStore).1 "pod-0" 7 none 110).1.find
      ("c-mysql" ++ LeaderSuffix) =
        some (ConfigMap.mk "c-mysql-leader"
          [("leader", "pod-0"), ("ttl", "30"), ("renewTime", "110"), ("acquireTime", "100"),
           ("opTime", "7"), ("extra", "")] 2) ∧
    (newLeaderRecord sampleJson
        [("leader", "pod-0"), ("ttl", "30"), ("renewTime", "110"), ("acquireTime", "100"),
         ("opTime", "7"), ("extra", "")]).renewTime ≥
      (newLeaderRecord sampleJson
        [("leader", "pod-0"), ("ttl", "30"), ("renewTime", "110"), ("acquireTime", "100"),
         ("opTime", "7"), ("extra", "")]).acquireTime :=
  ⟨by decide,
   (lease_renewTime_ge_acquireTime sampleJson "c-mysql" _ 110
      (LeaseHistory.renew _ 100
        (LeaseHistory.acquire emptyStore 0 (LeaseHistory.start emptyStore 0 rfl) sampleCs "pod-0"
          100
          (acquireWrite sampleCs
            [("leader", "pod-0"), ("ttl", "30"), ("renewTime", "100"), ("acquireTime", "100")]
            (emptyStore.Get "c-mysql-leader") emptyStore)
          rfl (by decide) (by decide) rfl)
        sampleCs "pod-0" 7 none 110 rfl (by decide) (by decide))).1
      (ConfigMap.mk "c-mysql-leader"
        [("leader", "pod-0"), ("ttl", "30"), ("renewTime", "110"), ("acquireTime", "100"),
         ("opTime", "7"), ("extra", "")] 2) (by decide)⟩

/-! ## Following the leader -/

theorem follow_returns_nil (mysqlOps : MysqlOperations) (w : World) (podName leader : String) :
    (follow mysqlOps w podName leader).2 = none := by
  unfold follow
  simp only
  split <;> rfl

/-- C21 fails on the code: the engine refuses the statement of `follow`
(stop slave, change master, start slave), and `follow` returns nil all the
same; so does `HandleFollow` when it decides to reconfigure, and so does
`Demote`, whose set-read-only statement succeeded and which ends by following
the new leader `pod-1`. -/
theorem follow_failure_reported_as_success_example :
    replicationFailsWorld.execResult (followSQL switchoverOps replicationFailsWorld "pod-1") =
      .error (GoError.msg "connection refused") ∧
    (follow switchoverOps replicationFailsWorld "pod-2" "pod-1").2 = none ∧
    (follow switchoverOps replicationFailsWorld "pod-2" "pod-1").1.calls =
      [Call.follow "pod-2" "pod-1",
       Call.exec (followSQL switchoverOps replicationFailsWorld "pod-1")] ∧
    checkRecoveryConf noRow replicationFailsWorld "pod-1" = some true ∧
    (HandleFollow noRow switchoverOps replicationFailsWorld
        (newLeader 7 (newMember "4" "pod-1" [] [("url", "http://pod-1")])) "pod-2").map
        (fun r => (r.1.calls, r.2)) =
      some ([Call.follow "pod-2" "pod-1",
             Call.exec (followSQL switchoverOps replicationFailsWorld "pod-1")], none) ∧
    (Demote sampleJson switchoverOps takeoverWorld "pod-0").2.2 = none ∧
    (Demote sampleJson switchoverOps takeoverWorld "pod-0").2.1.calls =
      [Call.Demote "pod-0", Call.exec setReadOnly, Call.DeleteLeader 5,
       Call.follow "pod-0" "pod-1",
       Call.exec (followSQL switchoverOps takeoverWorld "pod-1")] ∧
    takeoverWorld.execResult (followSQL switchoverOps takeoverWorld "pod-1") =
      .error (GoError.msg "connection refused") :=
  ⟨rfl, by decide, by decide, by decide, by decide, by decide, by decide, rfl⟩

/-! ## The lag probe -/

theorem GetLagOps_no_rows (decode : String → Except GoError (List SlaveStatus))
    (base : BaseOperations) (w : World) (hrole : base.OriRole ≠ "")
    (hleader : base.OriRole ≠ LEADER)
    (hrows : w.queryResult showSlaveStatus = .ok "null" ∨
      w.queryResult showSlaveStatus = .ok "[]") :
    GetLagOps decode base w = none := by
  unfold GetLagOps
  simp only [if_neg hrole, if_neg hleader]
  rcases hrows with h | h <;> rw [h] <;> simp [unmarshalSlaveStatus]

/-- C28 fails on the code: on a replica (role `secondary`) whose "show slave
status" query succeeds without rows, `GetLagOps` reads `slaveStatus[0]` of a
slice without elements and panics instead of returning a result; this holds
for the text `null`, which `jsonify` produces for a result without rows, and
for the empty array. -/
theorem GetLagOps_no_rows_panics_example :
    switchoverWorld.queryResult showSlaveStatus = .ok "null" ∧
    unmarshalSlaveStatus noDecode "null" = .ok [] ∧
    GetLagOps noDecode replicaBase switchoverWorld = none ∧
    emptyArrayWorld.queryResult showSlaveStatus = .ok "[]" ∧
    unmarshalSlaveStatus noDecode "[]" = .ok [] ∧
    GetLagOps noDecode replicaBase emptyArrayWorld = none :=
  ⟨rfl, rfl, by decide, rfl, rfl, by decide⟩

/-! ## Nil safety of the switchover checks -/

/-- C27: for the operation kinds switchover and failover and every snapshot,
also one without a leader, `isSwitchoverPossible` returns (it does not
dereference a nil leader); when it returns false the error is non-nil; and the
branch for an empty candidate, which reads the leader, is reached (none of the
three earlier returns taken) only with a leader in the snapshot. -/
theorem isSwitchoverPossible_nil_safe (mysqlOps : MysqlOperations) (w : World)
    (primary candidate operation : String)
    (hop : operation = SwitchoverOperation ∨ operation = FailoverOperation) :
    (∃ r, isSwitchoverPossible mysqlOps w primary candidate operation = some r) ∧
    (∀ err, isSwitchoverPossible mysqlOps w primary candidate operation = some (false, err) →
      err ≠ none) ∧
    (candidate = "" →
      ¬ (operation = FailoverOperation ∧ candidate = "") →
      ¬ (operation = SwitchoverOperation ∧ primary = "") →
      ¬ (primary ≠ "" ∧ leaderIsNot mysqlOps.Cs.cluster primary = true) →
      ∃ l, mysqlOps.Cs.cluster.Leader = some l ∧ l.member.name = primary ∧
        hasMemberExceptLeader mysqlOps.Cs.cluster ≠ none) := by
  refine ⟨?_, ?_, ?_⟩
  · rcases isSwitchoverPossible_total mysqlOps w primary candidate operation hop with
      ⟨e, he⟩ | ht
    · exact ⟨_, he⟩
    · exact ⟨_, ht⟩
  · intro err h
    rcases isSwitchoverPossible_total mysqlOps w primary candidate operation hop with
      ⟨e, he⟩ | ht
    · rw [he] at h
      simp only [Option.some.injEq, Prod.mk.injEq, true_and] at h
      rw [← h]
      simp
    · rw [ht] at h
      simp at h
  · intro hc h1 h2 h3
    have hsw : operation = SwitchoverOperation := by
      rcases hop with hop | hop
      · exact hop
      · exact absurd ⟨hop, hc⟩ h1
    have hp : primary ≠ "" := fun hp => h2 ⟨hsw, hp⟩
    have hl : ¬ leaderIsNot mysqlOps.Cs.cluster primary = true := fun hl => h3 ⟨hp, hl⟩
    obtain ⟨l, hl1, hl2⟩ := leaderIsNot_false _ _ hl
    refine ⟨l, hl1, hl2, ?_⟩
    unfold hasMemberExceptLeader
    rw [hl1]
    simp

theorem isSwitchoverPossible_nil_safe_witness :
    (SwitchoverOperation = SwitchoverOperation ∨ SwitchoverOperation = FailoverOperation) ∧
    leaderlessOps.Cs.cluster.Leader = none ∧
    isSwitchoverPossible leaderlessOps switchoverWorld "pod-0" "" SwitchoverOperation =
      some (false, some (.msg "leader name does not match")) ∧
    ∃ r, isSwitchoverPossible leaderlessOps switchoverWorld "pod-0" "" SwitchoverOperation =
      some r :=
  ⟨Or.inl rfl, rfl, by decide,
   (isSwitchoverPossible_nil_safe leaderlessOps switchoverWorld "pod-0" "" SwitchoverOperation
      (Or.inl rfl)).1⟩

/-! ## The snapshot builder -/

/-- C22: `loadClusterFromKubernetes` returns for every input, and an absent
record gives a nil or zero field: without a config key `SysID` is empty and
`Config` is nil; without a leader key `Leader` is nil, `OpTime` is 0 and the
state of the process (with it `LeaderObservedRecord` and `LeaderObservedTime`)
is unchanged; without an intent key `Switchover` is nil; without an extra key
`Extra` is nil; and `Members` holds the member of each input pod, one per pod,
in input order. -/
theorem loadClusterFromKubernetes_absent_records (json : Json) (cs : ConfigurationStore)
    (config switchoverConfig leaderConfig extraConfig : Option ConfigMap) (pods : List Pod)
    (nowObserve nowCheck : Int) :
    ((loadClusterFromKubernetes json cs none switchoverConfig leaderConfig extraConfig pods
        nowObserve nowCheck).2.SysID = "" ∧
     (loadClusterFromKubernetes json cs none switchoverConfig leaderConfig extraConfig pods
        nowObserve nowCheck).2.Config = none) ∧
    ((loadClusterFromKubernetes json cs config switchoverConfig none extraConfig pods
        nowObserve nowCheck).2.Leader = none ∧
     (loadClusterFromKubernetes json cs config switchoverConfig none extraConfig pods
        nowObserve nowCheck).2.OpTime = 0 ∧
     (loadClusterFromKubernetes json cs config switchoverConfig none extraConfig pods
        nowObserve nowCheck).1 = cs ∧
     (loadClusterFromKubernetes json cs config switchoverConfig none extraConfig pods
        nowObserve nowCheck).1.LeaderObservedRecord = cs.LeaderObservedRecord ∧
     (loadClusterFromKubernetes json cs config switchoverConfig none extraConfig pods
        nowObserve nowCheck).1.LeaderObservedTime = cs.LeaderObservedTime) ∧
    (loadClusterFromKubernetes json cs config none leaderConfig extraConfig pods
        nowObserve nowCheck).2.Switchover = none ∧
    (loadClusterFromKubernetes json cs config switchoverConfig leaderConfig none pods
        nowObserve nowCheck).2.Extra = none ∧
    ((loadClusterFromKubernetes json cs config switchoverConfig leaderConfig extraConfig pods
        nowObserve nowCheck).2.Members = pods.map getMemberFromPod ∧
     (loadClusterFromKubernetes json cs config switchoverConfig leaderConfig extraConfig pods
        nowObserve nowCheck).2.Members.length = pods.length ∧
     (loadClusterFromKubernetes json cs config switchoverConfig leaderConfig extraConfig pods
        nowObserve nowCheck).2.Members.map (fun m => m.name) = pods.map (fun p => p.Name)) ∧
    loadClusterFromKubernetes json cs none none none none pods nowObserve nowCheck =
      (cs, { SysID := "", Config := none, Leader := none, OpTime := 0,
             Members := pods.map getMemberFromPod, Switchover := none, Extra := none }) := by
  refine ⟨⟨rfl, rfl⟩, ⟨rfl, rfl, rfl, rfl, rfl⟩, rfl, rfl, ⟨rfl, ?_, ?_⟩, rfl⟩
  · simp [loadClusterFromKubernetes]
  · simp [loadClusterFromKubernetes, getMemberFromPod, newMember]

/-- C23: with a leader key present, `loadClusterFromKubernetes` caches the
incoming record and sets `LeaderObservedTime` to the clock reading exactly when
there is no cached record or the cached record has another `renewTime`; when
the `renewTime` is the cached one both fields keep their values, whatever else
the incoming record holds; the other fields of the process state are never
touched. -/
theorem loadClusterFromKubernetes_change_detection (json : Json) (cs : ConfigurationStore)
    (config switchoverConfig extraConfig : Option ConfigMap) (lc : ConfigMap) (pods : List Pod)
    (nowObserve nowCheck : Int) :
    ((cs.LeaderObservedRecord = none ∨
        ∃ old, cs.LeaderObservedRecord = some old ∧
          old.renewTime ≠ (newLeaderRecord json lc.Annotations).renewTime) →
      (loadClusterFromKubernetes json cs config switchoverConfig (some lc) extraConfig pods
          nowObserve nowCheck).1.LeaderObservedRecord =
        some (newLeaderRecord json lc.Annotations) ∧
      (loadClusterFromKubernetes json cs config switchoverConfig (some lc) extraConfig pods
          nowObserve nowCheck).1.LeaderObservedTime = nowObserve) ∧
    ((∃ old, cs.LeaderObservedRecord = some old ∧
          old.renewTime = (newLeaderRecord json lc.Annotations).renewTime) →
      (loadClusterFromKubernetes json cs config switchoverConfig (some lc) extraConfig pods
          nowObserve nowCheck).1 = cs) ∧
    ((loadClusterFromKubernetes json cs config switchoverConfig (some lc) extraConfig pods
          nowObserve nowCheck).1.LeaderObservedRecord ≠ cs.LeaderObservedRecord →
      cs.LeaderObservedRecord = none ∨
        ∃ old, cs.LeaderObservedRecord = some old ∧
          old.renewTime ≠ (newLeaderRecord json lc.Annotations).renewTime) ∧
    (loadClusterFromKubernetes json cs config switchoverConfig (some lc) extraConfig pods
        nowObserve nowCheck).1 =
      { cs with
        LeaderObservedRecord :=
          (loadClusterFromKubernetes json cs config switchoverConfig (some lc) extraConfig pods
            nowObserve nowCheck).1.LeaderObservedRecord,
        LeaderObservedTime :=
          (loadClusterFromKubernetes json cs config switchoverConfig (some lc) extraConfig pods
            nowObserve nowCheck).1.LeaderObservedTime } := by
  have hrun : (loadClusterFromKubernetes json cs config switchoverConfig (some lc) extraConfig
      pods nowObserve nowCheck).1 =
      observeLeaderRecord cs (newLeaderRecord json lc.Annotations) nowObserve := rfl
  rw [hrun]
  unfold observeLeaderRecord
  cases hrec : cs.LeaderObservedRecord with
  | none =>
    refine ⟨fun _ => ⟨rfl, rfl⟩, ?_, fun _ => Or.inl rfl, rfl⟩
    rintro ⟨old, ho, -⟩
    cases ho
  | some old =>
    simp only
    by_cases hren : old.renewTime ≠ (newLeaderRecord json lc.Annotations).renewTime
    · rw [if_pos hren]
      refine ⟨fun _ => ⟨rfl, rfl⟩, ?_, fun _ => Or.inr ⟨old, rfl, hren⟩, rfl⟩
      rintro ⟨old2, ho, he⟩
      cases ho
      exact absurd he hren
    · rw [if_neg hren]
      refine ⟨?_, fun _ => rfl, ?_, ?_⟩
      · rintro (h | ⟨old2, ho, hne⟩)
        · cases h
        · cases ho
          exact absurd hne hren
      · intro h
        exact absurd hrec h
      · cases cs
        simp only at hrec
        simp only [hrec]

theorem loadClusterFromKubernetes_change_detection_witness :
    (∃ old, followerCs.LeaderObservedRecord = some old ∧
        old.renewTime = (newLeaderRecord sampleJson sampleLeaderKey.Annotations).renewTime) ∧
    (loadClusterFromKubernetes sampleJson followerCs none none (some sampleLeaderKey) none []
        105 105).1 = followerCs ∧
    (sampleCs.LeaderObservedRecord = none ∨
        ∃ old, sampleCs.LeaderObservedRecord = some old ∧
          old.renewTime ≠ (newLeaderRecord sampleJson sampleLeaderKey.Annotations).renewTime) ∧
    ((loadClusterFromKubernetes sampleJson sampleCs none none (some sampleLeaderKey) none []
          105 105).1.LeaderObservedRecord =
        some (newLeaderRecord sampleJson sampleLeaderKey.Annotations) ∧
      (loadClusterFromKubernetes sampleJson sampleCs none none (some sampleLeaderKey) none []
          105 105).1.LeaderObservedTime = 105) :=
  ⟨⟨_, rfl, by decide⟩,
   (loadClusterFromKubernetes_change_detection sampleJson followerCs none none none
      sampleLeaderKey [] 105 105).2.1 ⟨_, rfl, by decide⟩,
   Or.inl rfl,
   (loadClusterFromKubernetes_change_detection sampleJson sampleCs none none none
      sampleLeaderKey [] 105 105).1 (Or.inl rfl)⟩

/-! ## What an acquisition leaves of the previous record -/

theorem replaceConfigMap_unique (cm : ConfigMap) : ∀ (l : List ConfigMap),
    (l.map fun c => c.Name).Nodup →
    ∀ c ∈ replaceConfigMap cm l, c.Name = cm.Name → c = cm := by
  intro l
  induction l with
  | nil => intro _ c hc; simp [replaceConfigMap] at hc
  | cons x rest ih =>
    intro hnd c hc hname
    simp only [List.map_cons, List.nodup_cons] at hnd
    unfold replaceConfigMap at hc
    by_cases hx : x.Name = cm.Name
    · rw [if_pos hx] at hc
      rcases List.mem_cons.1 hc with h | h
      · exact h
      · exfalso
        apply hnd.1
        rw [hx, ← hname]
        exact List.mem_map_of_mem _ h
    · rw [if_neg hx] at hc
      rcases List.mem_cons.1 hc with h | h
      · rw [h] at hname
        exact absurd hname hx
      · exact ih hnd.2 c h hname

theorem pickConfigMaps_leader_mem (comp : String) (cm : ConfigMap) : ∀ (items : List ConfigMap)
    (acc : Option ConfigMap × Option ConfigMap × Option ConfigMap × Option ConfigMap),
    (items.foldl (fun acc cm =>
      if cm.Name = comp ++ ConfigSuffix then (some cm, acc.2.1, acc.2.2.1, acc.2.2.2)
      else if cm.Name = comp ++ SwitchoverSuffix then (acc.1, some cm, acc.2.2.1, acc.2.2.2)
      else if cm.Name = comp ++ LeaderSuffix then (acc.1, acc.2.1, some cm, acc.2.2.2)
      else if cm.Name = comp ++ ExtraSuffix then (acc.1, acc.2.1, acc.2.2.1, some cm)
      else acc) acc).2.2.1 = some cm →
    (cm ∈ items ∧ cm.Name = comp ++ LeaderSuffix) ∨ acc.2.2.1 = some cm := by
  intro items
  induction items with
  | nil => intro acc h; exact Or.inr h
  | cons x rest ih =>
    intro acc h
    simp only [List.foldl_cons] at h
    rcases ih _ h with ⟨hm, hn⟩ | hacc
    · exact Or.inl ⟨List.mem_cons_of_mem _ hm, hn⟩
    · by_cases h1 : x.Name = comp ++ ConfigSuffix
      · rw [if_pos h1] at hacc; exact Or.inr hacc
      rw [if_neg h1] at hacc
      by_cases h2 : x.Name = comp ++ SwitchoverSuffix
      · rw [if_pos h2] at hacc; exact Or.inr hacc
      rw [if_neg h2] at hacc
      by_cases h3 : x.Name = comp ++ LeaderSuffix
      · rw [if_pos h3] at hacc
        simp only [Option.some.injEq] at hacc
        subst hacc
        exact Or.inl ⟨List.mem_cons_self _ _, h3⟩
      rw [if_neg h3] at hacc
      by_cases h4 : x.Name = comp ++ ExtraSuffix
      · rw [if_pos h4] at hacc; exact Or.inr hacc
      rw [if_neg h4] at hacc
      exact Or.inr hacc

theorem loadCluster_OpTime (json : Json) (cs : ConfigurationStore)
    (config switchoverConfig leaderConfig extraConfig : Option ConfigMap) (pods : List Pod)
    (nowObserve nowCheck : Int) :
    (loadClusterFromKubernetes json cs config switchoverConfig leaderConfig extraConfig pods
      nowObserve nowCheck).2.OpTime =
      match leaderConfig with
      | none => 0
      | some lc => (newLeaderRecord json lc.Annotations).opTime := by
  cases leaderConfig <;> rfl

theorem acquireAnnotations_dropped (podName ttl now : String) :
    StrMap.get [(LEADER, podName), (TTL, ttl), (RenewTime, now), (AcquireTime, now)] OpTime = ""
      ∧
    StrMap.get [(LEADER, podName), (TTL, ttl), (RenewTime, now), (AcquireTime, now)] Extra = ""
      ∧
    StrMap.contains [(LEADER, podName), (TTL, ttl), (RenewTime, now), (AcquireTime, now)] OpTime
      = false ∧
    StrMap.contains [(LEADER, podName), (TTL, ttl), (RenewTime, now), (AcquireTime, now)] Extra
      = false := by
  have a1 : LEADER ≠ OpTime := by decide
  have a2 : TTL ≠ OpTime := by decide
  have a3 : RenewTime ≠ OpTime := by decide
  have a4 : AcquireTime ≠ OpTime := by decide
  have b1 : LEADER ≠ Extra := by decide
  have b2 : TTL ≠ Extra := by decide
  have b3 : RenewTime ≠ Extra := by decide
  have b4 : AcquireTime ≠ Extra := by decide
  refine ⟨?_, ?_, ?_, ?_⟩ <;>
    simp [StrMap.get, StrMap.contains, a1, a2, a3, a4, b1, b2, b3, b4]

/-- C29: when the leader key exists (and no other writer comes in between),
`AttemptToAcquireLeaderLock` returns nil and the key then holds exactly the
four annotations leader, ttl, renewTime and acquireTime: `opTime` and `extra`
of the previous record are gone, `newLeaderRecord` reads the key as `opTime = 0`
with an empty `extra` map, and the next snapshot any process of the component
builds from the store has `OpTime = 0`. -/
theorem acquire_drops_opTime_and_extra (json : Json) (cs : ConfigurationStore) (k8s : Store)
    (podName : String) (now : Int) (config : ClusterConfig) (cur : ConfigMap)
    (hcfg : cs.cluster.Config = some config)
    (hjson : json.Unmarshal "" = none)
    (hnames : (k8s.configMaps.map fun c => c.Name).Nodup)
    (hget : k8s.Get (cs.clusterCompName ++ LeaderSuffix) = .ok cur) :
    ∃ final : Store,
      AttemptToAcquireLeaderLock cs k8s podName now = some (final, none) ∧
      final.leaderAnnotations cs =
        some [(LEADER, podName), (TTL, FormatInt config.data.ttl), (RenewTime, FormatInt now),
              (AcquireTime, FormatInt now)] ∧
      (∀ ann, final.leaderAnnotations cs = some ann →
        ann.contains OpTime = false ∧ ann.contains Extra = false ∧
        (newLeaderRecord json ann).opTime = 0 ∧ (newLeaderRecord json ann).extra = []) ∧
      ∀ (cs2 : ConfigurationStore) (nowObserve nowCheck : Int),
        cs2.clusterCompName = cs.clusterCompName →
        (GetClusterFromKubernetes json cs2 final nowObserve nowCheck).2 = none ∧
        (GetClusterFromKubernetes json cs2 final nowObserve nowCheck).1.cluster.OpTime = 0 := by
  obtain ⟨hr, hf⟩ := (Store.Get_ok k8s _ cur).1 hget
  obtain ⟨hu, hfind⟩ := Store.Update_seen k8s _ cur
    [(LEADER, podName), (TTL, FormatInt config.data.ttl), (RenewTime, FormatInt now),
     (AcquireTime, FormatInt now)] hr hf
  have hn := Store.find_name k8s _ cur hf
  obtain ⟨d1, d2, d3, d4⟩ := acquireAnnotations_dropped podName (FormatInt config.data.ttl)
    (FormatInt now)
  have hrec : (newLeaderRecord json
      [(LEADER, podName), (TTL, FormatInt config.data.ttl), (RenewTime, FormatInt now),
       (AcquireTime, FormatInt now)]).opTime = 0 ∧
      (newLeaderRecord json
      [(LEADER, podName), (TTL, FormatInt config.data.ttl), (RenewTime, FormatInt now),
       (AcquireTime, FormatInt now)]).extra = [] := by
    simp only [newLeaderRecord, d1, d2, hjson]
    exact ⟨by decide, rfl⟩
  have hfind2 : (Store.mk
      (replaceConfigMap
        (ConfigMap.mk cur.Name
          [(LEADER, podName), (TTL, FormatInt config.data.ttl), (RenewTime, FormatInt now),
           (AcquireTime, FormatInt now)] (k8s.revision + 1)) k8s.configMaps)
      k8s.pods (k8s.revision + 1) k8s.reachable).find (cs.clusterCompName ++ LeaderSuffix) =
      some (ConfigMap.mk cur.Name
          [(LEADER, podName), (TTL, FormatInt config.data.ttl), (RenewTime, FormatInt now),
           (AcquireTime, FormatInt now)] (k8s.revision + 1)) := by
    rw [hu] at hfind
    exact hfind
  refine ⟨Store.mk
      (replaceConfigMap
        (ConfigMap.mk cur.Name
          [(LEADER, podName), (TTL, FormatInt config.data.ttl), (RenewTime, FormatInt now),
           (AcquireTime, FormatInt now)] (k8s.revision + 1)) k8s.configMaps)
      k8s.pods (k8s.revision + 1) k8s.reachable, ?_, ?_, ?_, ?_⟩
  · unfold AttemptToAcquireLeaderLock acquireAnnotations
    simp only [hcfg, hget, acquireWrite]
    rw [hu]
    rfl
  · unfold Store.leaderAnnotations
    rw [hfind2]
    rfl
  · intro ann ha
    unfold Store.leaderAnnotations at ha
    rw [hfind2] at ha
    simp only [Option.map_some', Option.some.injEq] at ha
    subst ha
    exact ⟨d3, d4, hrec.1, hrec.2⟩
  · intro cs2 nowObserve nowCheck hcomp
    unfold GetClusterFromKubernetes Store.ListPods Store.ListConfigMaps
    simp only [hr, if_true, true_and]
    rw [loadCluster_OpTime]
    cases hp : (pickConfigMaps cs2.clusterCompName
        (replaceConfigMap
          (ConfigMap.mk cur.Name
            [(LEADER, podName), (TTL, FormatInt config.data.ttl), (RenewTime, FormatInt now),
             (AcquireTime, FormatInt now)] (k8s.revision + 1)) k8s.configMaps)).2.2.1 with
    | none => rfl
    | some lc =>
      simp only
      unfold pickConfigMaps at hp
      rcases pickConfigMaps_leader_mem cs2.clusterCompName lc _ _ hp with ⟨hm, hname⟩ | hacc
      · have := replaceConfigMap_unique _ _ hnames lc hm (by rw [hname, hcomp, hn])
        rw [this]
        exact hrec.1
      · cases hacc

theorem acquire_drops_opTime_and_extra_witness :
    (sampleCs.cluster.Config = some (ClusterConfig.mk 1 (ClusterData.mk 30 10)) ∧
      sampleJson.Unmarshal "" = none ∧
      (sampleStore.configMaps.map fun c => c.Name).Nodup ∧
      sampleStore.Get (sampleCs.clusterCompName ++ LeaderSuffix) = .ok sampleLeaderKey ∧
      sampleLeaderKey.Annotations.get OpTime = "7") ∧
    ∃ final : Store,
      AttemptToAcquireLeaderLock sampleCs sampleStore "pod-1" 150 = some (final, none) ∧
      final.leaderAnnotations sampleCs =
        some [(LEADER, "pod-1"), (TTL, FormatInt (ClusterConfig.mk 1 (ClusterData.mk 30 10)).data.ttl),
              (RenewTime, FormatInt 150), (AcquireTime, FormatInt 150)] ∧
      (∀ ann, final.leaderAnnotations sampleCs = some ann →
        ann.contains OpTime = false ∧ ann.contains Extra = false ∧
        (newLeaderRecord sampleJson ann).opTime = 0 ∧
        (newLeaderRecord sampleJson ann).extra = []) ∧
      ∀ (cs2 : ConfigurationStore) (nowObserve nowCheck : Int),
        cs2.clusterCompName = sampleCs.clusterCompName →
        (GetClusterFromKubernetes sampleJson cs2 final nowObserve nowCheck).2 = none ∧
        (GetClusterFromKubernetes sampleJson cs2 final nowObserve nowCheck).1.cluster.OpTime
          = 0 :=
  ⟨⟨rfl, rfl, by decide, rfl, by decide⟩,
   acquire_drops_opTime_and_extra sampleJson sampleCs sampleStore "pod-1" 150
     (ClusterConfig.mk 1 (ClusterData.mk 30 10)) sampleLeaderKey rfl rfl (by decide) rfl⟩

/-! ## The pre-check of the agent's switchover action -/

/-- C24: given that the store returns an error whenever it returns no
cluster, `PreCheck` returns nil exactly when primary or candidate is non-empty,
a cluster was returned, its HA config is present and enabled, and each
non-empty name among primary and candidate is a member; otherwise it returns
the first of the errors "primary or candidate must be set", "get cluster
failed", "cluster's ha is disabled", "primary ... not exists", "candidate ...
not exists" whose condition holds. -/
theorem PreCheck_nil_iff (primary candidate : String) (cluster : Option DcsCluster)
    (err : Option GoError) (hget : cluster = none → err ≠ none) :
    (PreCheck primary candidate cluster err = none ↔
      (primary ≠ "" ∨ candidate ≠ "") ∧
      ∃ c, cluster = some c ∧ c.HaConfig = some true ∧
        (primary ≠ "" → c.GetMemberWithName primary ≠ none) ∧
        (candidate ≠ "" → c.GetMemberWithName candidate ≠ none)) ∧
    (primary = "" ∧ candidate = "" →
      PreCheck primary candidate cluster err = some (.msg "primary or candidate must be set")) ∧
    (¬ (primary = "" ∧ candidate = "") → cluster = none →
      ∃ e, err = some e ∧
        PreCheck primary candidate cluster err =
          some (.msg ("get cluster failed: " ++ e.Error))) ∧
    (∀ c, ¬ (primary = "" ∧ candidate = "") → cluster = some c → c.HaConfig ≠ some true →
      PreCheck primary candidate cluster err = some (.msg "cluster's ha is disabled")) ∧
    (∀ c, cluster = some c → c.HaConfig = some true → primary ≠ "" →
      c.GetMemberWithName primary = none →
      PreCheck primary candidate cluster err =
        some (.msg ("primary " ++ primary ++ " not exists"))) ∧
    (∀ c, cluster = some c → c.HaConfig = some true →
      (primary ≠ "" → c.GetMemberWithName primary ≠ none) → candidate ≠ "" →
      c.GetMemberWithName candidate = none →
      PreCheck primary candidate cluster err =
        some (.msg ("candidate " ++ candidate ++ " not exists"))) := by
  have hha : ∀ c : DcsCluster, c.HaConfig ≠ some true →
      (c.HaConfig = none ∨ c.HaConfig = some false) := by
    intro c h
    cases hc : c.HaConfig with
    | none => exact Or.inl rfl
    | some b =>
      cases b with
      | false => exact Or.inr rfl
      | true => exact absurd hc h
  have e1 : primary = "" ∧ candidate = "" →
      PreCheck primary candidate cluster err =
        some (.msg "primary or candidate must be set") := by
    intro h
    unfold PreCheck
    rw [if_pos h]
  have e2 : ¬ (primary = "" ∧ candidate = "") → cluster = none →
      ∃ e, err = some e ∧
        PreCheck primary candidate cluster err =
          some (.msg ("get cluster failed: " ++ e.Error)) := by
    intro h hc
    cases he : err with
    | none => exact absurd he (hget hc)
    | some e =>
      refine ⟨e, rfl, ?_⟩
      unfold PreCheck
      rw [if_neg h, hc]
      rfl
  have e3 : ∀ c, ¬ (primary = "" ∧ candidate = "") → cluster = some c →
      c.HaConfig ≠ some true →
      PreCheck primary candidate cluster err = some (.msg "cluster's ha is disabled") := by
    intro c h hc hh
    unfold PreCheck
    rw [if_neg h, hc]
    simp only
    rw [if_pos (hha c hh)]
  have hne : ∀ c : DcsCluster, c.HaConfig = some true →
      ¬ (c.HaConfig = none ∨ c.HaConfig = some false) := by
    intro c h
    rw [h]
    simp
  have e4 : ∀ c, cluster = some c → c.HaConfig = some true → primary ≠ "" →
      c.GetMemberWithName primary = none →
      PreCheck primary candidate cluster err =
        some (.msg ("primary " ++ primary ++ " not exists")) := by
    intro c hc hh hp hm
    unfold PreCheck
    rw [if_neg (fun h => hp h.1), hc]
    simp only
    rw [if_neg (hne c hh), if_pos ⟨hp, hm⟩]
  have e5 : ∀ c, cluster = some c → c.HaConfig = some true →
      (primary ≠ "" → c.GetMemberWithName primary ≠ none) → candidate ≠ "" →
      c.GetMemberWithName candidate = none →
      PreCheck primary candidate cluster err =
        some (.msg ("candidate " ++ candidate ++ " not exists")) := by
    intro c hc hh hp hcand hm
    unfold PreCheck
    rw [if_neg (fun h => hcand h.2), hc]
    simp only
    rw [if_neg (hne c hh), if_neg (fun h => hp h.1 h.2), if_pos ⟨hcand, hm⟩]
  refine ⟨?_, e1, e2, e3, e4, e5⟩
  constructor
  · intro hnil
    have h0 : ¬ (primary = "" ∧ candidate = "") := by
      intro h
      rw [e1 h] at hnil
      cases hnil
    have hor : primary ≠ "" ∨ candidate ≠ "" := by
      by_cases hp : primary = ""
      · exact Or.inr (fun hc => h0 ⟨hp, hc⟩)
      · exact Or.inl hp
    refine ⟨hor, ?_⟩
    cases hc : cluster with
    | none =>
      obtain ⟨e, -, he⟩ := e2 h0 hc
      rw [he] at hnil
      cases hnil
    | some c =>
      have hh : c.HaConfig = some true := by
        by_contra hh
        rw [e3 c h0 hc hh] at hnil
        cases hnil
      have hp : primary ≠ "" → c.GetMemberWithName primary ≠ none := by
        intro hp hm
        rw [e4 c hc hh hp hm] at hnil
        cases hnil
      refine ⟨c, rfl, hh, hp, ?_⟩
      intro hcand hm
      rw [e5 c hc hh hp hcand hm] at hnil
      cases hnil
  · rintro ⟨hor, c, hc, hh, hp, hcand⟩
    have h0 : ¬ (primary = "" ∧ candidate = "") := by
      rintro ⟨h1, h2⟩
      rcases hor with h | h
      · exact h h1
      · exact h h2
    unfold PreCheck
    rw [if_neg h0, hc]
    simp only
    rw [if_neg (hne c hh), if_neg (fun h => hp h.1 h.2), if_neg (fun h => hcand h.1 h.2)]

theorem PreCheck_nil_iff_witness :
    (((none : Option DcsCluster) = none → some (GoError.msg "timeout") ≠ none) ∧
      PreCheck "pod-0" "pod-1" (some (DcsCluster.mk (some true) ["pod-0", "pod-1", "pod-2"])) none
        = none ∧
      PreCheck "pod-0" "ghost" (some (DcsCluster.mk (some true) ["pod-0", "pod-1", "pod-2"])) none
        = some (.msg "candidate ghost not exists")) ∧
    (PreCheck "pod-0" "pod-1" (some (DcsCluster.mk (some true) ["pod-0", "pod-1", "pod-2"])) none
        = none ↔
      ("pod-0" ≠ "" ∨ "pod-1" ≠ "") ∧
      ∃ c, some (DcsCluster.mk (some true) ["pod-0", "pod-1", "pod-2"]) = some c ∧
        c.HaConfig = some true ∧
        ("pod-0" ≠ "" → c.GetMemberWithName "pod-0" ≠ none) ∧
        ("pod-1" ≠ "" → c.GetMemberWithName "pod-1" ≠ none)) ∧
    (∃ e, some (GoError.msg "timeout") = some e ∧
      PreCheck "pod-0" "" none (some (GoError.msg "timeout")) =
        some (.msg ("get cluster failed: " ++ e.Error))) :=
  ⟨⟨(fun _ h => by cases h), by decide, by decide⟩,
   (PreCheck_nil_iff "pod-0" "pod-1"
      (some (DcsCluster.mk (some true) ["pod-0", "pod-1", "pod-2"])) none
      (fun h => by cases h)).1,
   (PreCheck_nil_iff "pod-0" "" none (some (GoError.msg "timeout"))
      (fun _ h => by cases h)).2.2.1 (by decide) rfl⟩

/-! ## The admission check of ReplicatedStateMachine -/

theorem hasLeaderRole_iff (roles : List ReplicaRole) :
    hasLeaderRole roles = true ↔ ∃ role ∈ roles, role.IsLeader = true ∧ role.Name ≠ "" := by
  unfold hasLeaderRole
  simp [List.any_eq_true]

theorem serviceWithoutPort_iff (service : Option (List Nat)) :
    serviceWithoutPort service = false ↔
      (service = none ∨ ∃ ports, service = some ports ∧ ports ≠ []) := by
  unfold serviceWithoutPort
  cases service with
  | none => simp
  | some ports => cases ports <;> simp

/-- C25: `validate` (and with it `ValidateCreate`) returns nil exactly when
`spec.roles` is empty or has a role with `IsLeader` set and a non-empty name,
and `spec.service` is nil or has at least one port; the error otherwise
carries the field error of each violated rule, "leader is required" before
"servicePort must provide", so both when both rules are violated. -/
theorem validate_nil_iff (r : ReplicatedStateMachine) :
    (validate r = none ↔
      (r.Roles = [] ∨ ∃ role ∈ r.Roles, role.IsLeader = true ∧ role.Name ≠ "") ∧
      (r.Service = none ∨ ∃ ports, r.Service = some ports ∧ ports ≠ [])) ∧
    ValidateCreate r = validate r ∧
    (validate r).map (fun e => e.Causes) =
      (if r.Roles ≠ [] ∧ hasLeaderRole r.Roles = false then
        if serviceWithoutPort r.Service = true then some [leaderRequired, servicePortRequired]
        else some [leaderRequired]
      else
        if serviceWithoutPort r.Service = true then some [servicePortRequired] else none) ∧
    (¬ (r.Roles = [] ∨ ∃ role ∈ r.Roles, role.IsLeader = true ∧ role.Name ≠ "") →
      ¬ (r.Service = none ∨ ∃ ports, r.Service = some ports ∧ ports ≠ []) →
      ∃ e, validate r = some e ∧ e.Causes = [leaderRequired, servicePortRequired]) := by
  have hlen : r.Roles.length > 0 ↔ r.Roles ≠ [] := by
    cases r.Roles <;> simp
  have hcauses : (validate r).map (fun e => e.Causes) =
      (if r.Roles ≠ [] ∧ hasLeaderRole r.Roles = false then
        if serviceWithoutPort r.Service = true then some [leaderRequired, servicePortRequired]
        else some [leaderRequired]
      else
        if serviceWithoutPort r.Service = true then some [servicePortRequired] else none) := by
    unfold validate
    by_cases h1 : r.Roles ≠ []
    · cases h2 : hasLeaderRole r.Roles <;> cases h3 : serviceWithoutPort r.Service <;>
        simp [hlen.2 h1, h1, h2, h3]
    · have h1' : ¬ r.Roles.length > 0 := fun h => h1 (hlen.1 h)
      cases h3 : serviceWithoutPort r.Service <;> simp [h1', h1, h3]
  have hiff : validate r = none ↔
      (r.Roles = [] ∨ ∃ role ∈ r.Roles, role.IsLeader = true ∧ role.Name ≠ "") ∧
      (r.Service = none ∨ ∃ ports, r.Service = some ports ∧ ports ≠ []) := by
    rw [← hasLeaderRole_iff, ← serviceWithoutPort_iff]
    have hm : validate r = none ↔ (validate r).map (fun e => e.Causes) = none := by
      cases validate r <;> simp
    rw [hm, hcauses]
    by_cases h1 : r.Roles = [] <;> cases h2 : hasLeaderRole r.Roles <;>
      cases h3 : serviceWithoutPort r.Service <;> simp [h1]
  refine ⟨hiff, rfl, hcauses, ?_⟩
  intro hr hs
  rw [← hasLeaderRole_iff] at hr
  rw [← serviceWithoutPort_iff] at hs
  have h1 : r.Roles ≠ [] := fun h => hr (Or.inl h)
  have h2 : hasLeaderRole r.Roles = false := by
    cases h : hasLeaderRole r.Roles
    · rfl
    · exact absurd (Or.inr h) hr
  have h3 : serviceWithoutPort r.Service = true := by
    cases h : serviceWithoutPort r.Service
    · exact absurd h hs
    · rfl
  rw [if_pos ⟨h1, h2⟩, if_pos h3] at hcauses
  cases hv : validate r with
  | none => rw [hv] at hcauses; simp at hcauses
  | some e =>
    rw [hv] at hcauses
    simp only [Option.map_some', Option.some.injEq] at hcauses
    exact ⟨e, rfl, hcauses⟩

theorem validate_nil_iff_witness :
    (¬ ((ReplicatedStateMachine.mk "rsm" [ReplicaRole.mk "follower" false] (some [])).Roles = []
        ∨ ∃ role ∈ (ReplicatedStateMachine.mk "rsm" [ReplicaRole.mk "follower" false]
            (some [])).Roles, role.IsLeader = true ∧ role.Name ≠ "") ∧
      ¬ ((ReplicatedStateMachine.mk "rsm" [ReplicaRole.mk "follower" false] (some [])).Service
          = none ∨
        ∃ ports, (ReplicatedStateMachine.mk "rsm" [ReplicaRole.mk "follower" false]
            (some [])).Service = some ports ∧ ports ≠ [])) ∧
    (∃ e, validate (ReplicatedStateMachine.mk "rsm" [ReplicaRole.mk "follower" false] (some []))
        = some e ∧ e.Causes = [leaderRequired, servicePortRequired]) ∧
    validate (ReplicatedStateMachine.mk "rsm" [ReplicaRole.mk "leader" true] (some [3306]))
      = none :=
  ⟨⟨by simp, by simp⟩,
   (validate_nil_iff (ReplicatedStateMachine.mk "rsm" [ReplicaRole.mk "follower" false]
      (some []))).2.2.2 (by simp) (by simp),
   by decide⟩

/-! ## Pod names -/

theorem removeFirst_prefix (old rest : List Char) (hold : old ≠ []) :
    removeFirst old (old ++ rest) = rest := by
  cases old with
  | nil => exact absurd rfl hold
  | cons c cs =>
    have hp : (c :: cs).isPrefixOf (c :: (cs ++ rest)) = true := by
      rw [List.isPrefixOf_iff_prefix]
      exact List.prefix_append (c :: cs) rest
    have hd : List.drop (c :: cs).length (c :: (cs ++ rest)) = rest :=
      List.drop_left (c :: cs) rest
    show removeFirst (c :: cs) (c :: (cs ++ rest)) = rest
    rw [removeFirst, if_pos hp]
    exact hd

theorem splitOn_no_sep (sep : Char) : ∀ (a : List Char), sep ∉ a → splitOn sep a = [a] := by
  intro a
  induction a with
  | nil => intro _; rfl
  | cons c cs ih =>
    intro h
    simp only [List.mem_cons, not_or] at h
    have hne : ¬ c = sep := fun hc => h.1 hc.symm
    rw [splitOn, if_neg hne, ih h.2]

theorem splitOn_append (sep : Char) (b : List Char) : ∀ (a : List Char), sep ∉ a →
    splitOn sep (a ++ sep :: b) = a :: splitOn sep b := by
  intro a
  induction a with
  | nil =>
    intro _
    show splitOn sep (sep :: b) = [] :: splitOn sep b
    rw [splitOn, if_pos rfl]
  | cons c cs ih =>
    intro h
    simp only [List.mem_cons, not_or] at h
    have hne : ¬ c = sep := fun hc => h.1 hc.symm
    show splitOn sep (c :: (cs ++ sep :: b)) = (c :: cs) :: splitOn sep b
    rw [splitOn, if_neg hne, ih h.2]

theorem digitChar_ne_dash (d : Nat) (h : d < 10) : digitChar d ≠ '-' := by
  interval_cases d <;> decide

theorem toDigitsFuel_chars (fuel : Nat) : ∀ (n : Nat) (acc : List Char) (c : Char),
    c ∈ toDigitsFuel fuel n acc → c ∈ acc ∨ ∃ d, d < 10 ∧ c = digitChar d := by
  induction fuel with
  | zero => intro n acc c h; exact Or.inl h
  | succ fuel ih =>
    intro n acc c h
    unfold toDigitsFuel at h
    by_cases h0 : n / 10 = 0
    · rw [if_pos h0] at h
      rcases List.mem_cons.1 h with h | h
      · exact Or.inr ⟨n % 10, Nat.mod_lt _ (by decide), h⟩
      · exact Or.inl h
    · rw [if_neg h0] at h
      rcases ih _ _ _ h with h | h
      · rcases List.mem_cons.1 h with h | h
        · exact Or.inr ⟨n % 10, Nat.mod_lt _ (by decide), h⟩
        · exact Or.inl h
      · exact Or.inr h

theorem formatNat_no_dash (n : Nat) : '-' ∉ formatNat n := by
  intro h
  rcases toDigitsFuel_chars _ _ _ _ h with h | ⟨d, hd, hc⟩
  · cases h
  · exact digitChar_ne_dash d hd hc.symm

theorem wrapInt32_of_range (n : Int) (h0 : 0 ≤ n) (h : n < 2 ^ 31) : wrapInt32 n = n := by
  unfold wrapInt32
  have e : (n + 2 ^ 31) % 2 ^ 32 = n + 2 ^ 31 :=
    Int.emod_eq_of_lt (by omega) (by omega)
  rw [e]
  omega

theorem FormatInt_nonneg_data (n : Int) (h0 : 0 ≤ n) : (FormatInt n).data = formatNat n.toNat := by
  unfold FormatInt
  rw [if_neg (by omega)]

theorem parseDigitsFrom_bad_char (c : Char) (hc : digitVal c = none) :
    ∀ (cs : List Char) (acc : Nat), c ∈ cs → parseDigitsFrom acc cs = none := by
  intro cs
  induction cs with
  | nil => intro acc h; cases h
  | cons x rest ih =>
    intro acc h
    unfold parseDigitsFrom
    cases hx : digitVal x with
    | none => rfl
    | some d =>
      simp only
      rcases List.mem_cons.1 h with h | h
      · rw [← h, hc] at hx
        cases hx
      · exact ih _ h

theorem parseDigits_bad_char (c : Char) (hc : digitVal c = none) (cs : List Char)
    (h : c ∈ cs) : parseDigits cs = none := by
  unfold parseDigits
  cases cs with
  | nil => rfl
  | cons x rest => exact parseDigitsFrom_bad_char c hc _ _ h

theorem ParseInt_bad_char (s : String) (c : Char) (hmem : c ∈ s.data)
    (hc : digitVal c = none) (hplus : c ≠ '+') (hminus : c ≠ '-') : ParseInt s = none := by
  unfold ParseInt
  cases hs : s.data with
  | nil => rfl
  | cons x rest =>
    rw [hs] at hmem
    simp only
    by_cases h1 : x = '-'
    · rw [if_pos h1]
      have : c ∈ rest := by
        rcases List.mem_cons.1 hmem with h | h
        · exact absurd (h.trans h1) hminus
        · exact h
      rw [parseDigits_bad_char c hc rest this]
    · rw [if_neg h1]
      by_cases h2 : x = '+'
      · rw [if_pos h2]
        have : c ∈ rest := by
          rcases List.mem_cons.1 hmem with h | h
          · exact absurd (h.trans h2) hplus
          · exact h
        rw [parseDigits_bad_char c hc rest this]
      · rw [if_neg h2, parseDigits_bad_char c hc (x :: rest) hmem]

/-- C30: `GetTemplateNameAndOrdinal` inverts the construction of pod names:
for every workload name `w`, every template name `t` without `-` and every
ordinal `0 <= n < 2^31`, the pod name `w-t-n` gives `(t, n, nil)` and the pod
name `w-n` gives `("", n, nil)`; and whenever the ordinal text cut out of a pod
name is not accepted by `strconv.Atoi`, in particular when it is empty or has a
character that is neither a digit nor a sign, the result is the error "failed to
obtain pod ordinal" with an empty template name and ordinal 0. -/
theorem GetTemplateNameAndOrdinal_inverts (w t : String) (n : Int)
    (hdash : '-' ∉ t.data) (hn0 : 0 ≤ n) (hn : n < 2 ^ 31) :
    GetTemplateNameAndOrdinal w (w ++ "-" ++ t ++ "-" ++ FormatInt n) = (t, n, none) ∧
    GetTemplateNameAndOrdinal w (w ++ "-" ++ FormatInt n) = ("", n, none) ∧
    (∀ podName : String, ParseInt (podSuffixParts w podName).2 = none →
      GetTemplateNameAndOrdinal w podName =
        ("", 0, some (.msg "failed to obtain pod ordinal"))) ∧
    (∀ podName : String,
      ((podSuffixParts w podName).2 = "" ∨
        ∃ c ∈ (podSuffixParts w podName).2.data, digitVal c = none ∧ c ≠ '+' ∧ c ≠ '-') →
      GetTemplateNameAndOrdinal w podName =
        ("", 0, some (.msg "failed to obtain pod ordinal"))) := by
  have hin : inInt64 n := by
    unfold inInt64
    constructor <;> omega
  have hold : (w ++ "-").data ≠ [] := by
    simp [String.data_append]
  have hfmt : '-' ∉ (FormatInt n).data := by
    rw [FormatInt_nonneg_data n hn0]
    exact formatNat_no_dash _
  have hparts1 : podSuffixParts w (w ++ "-" ++ t ++ "-" ++ FormatInt n) = (t, FormatInt n) := by
    unfold podSuffixParts
    have hd : (w ++ "-" ++ t ++ "-" ++ FormatInt n).data =
        (w ++ "-").data ++ (t.data ++ '-' :: (FormatInt n).data) := by
      simp [String.data_append]
    simp only [hd, removeFirst_prefix _ _ hold, splitOn_append '-' _ _ hdash,
      splitOn_no_sep '-' _ hfmt]
  have hparts2 : podSuffixParts w (w ++ "-" ++ FormatInt n) = ("", FormatInt n) := by
    unfold podSuffixParts
    have hd : (w ++ "-" ++ FormatInt n).data = (w ++ "-").data ++ (FormatInt n).data := by
      simp [String.data_append]
    simp only [hd, removeFirst_prefix _ _ hold, splitOn_no_sep '-' _ hfmt]
  have herr : ∀ podName : String, ParseInt (podSuffixParts w podName).2 = none →
      GetTemplateNameAndOrdinal w podName =
        ("", 0, some (.msg "failed to obtain pod ordinal")) := by
    intro podName hp
    unfold GetTemplateNameAndOrdinal
    simp only [hp]
  refine ⟨?_, ?_, herr, ?_⟩
  · unfold GetTemplateNameAndOrdinal
    simp only [hparts1, ParseInt_FormatInt n hin, wrapInt32_of_range n hn0 hn]
  · unfold GetTemplateNameAndOrdinal
    simp only [hparts2, ParseInt_FormatInt n hin, wrapInt32_of_range n hn0 hn]
  · intro podName hbad
    apply herr
    rcases hbad with he | ⟨c, hmem, hc, hplus, hminus⟩
    · rw [he]
      rfl
    · exact ParseInt_bad_char _ c hmem hc hplus hminus

theorem GetTemplateNameAndOrdinal_inverts_witness :
    ('-' ∉ "hot".data ∧ (0 : Int) ≤ 12 ∧ (12 : Int) < 2 ^ 31 ∧
      "my-cluster-mysql" ++ "-" ++ "hot" ++ "-" ++ FormatInt 12 = "my-cluster-mysql-hot-12" ∧
      ParseInt (podSuffixParts "my-cluster-mysql" "my-cluster-mysql-hot-x1").2 = none) ∧
    GetTemplateNameAndOrdinal "my-cluster-mysql"
        ("my-cluster-mysql" ++ "-" ++ "hot" ++ "-" ++ FormatInt 12) = ("hot", 12, none) ∧
    GetTemplateNameAndOrdinal "my-cluster-mysql" ("my-cluster-mysql" ++ "-" ++ FormatInt 12) =
      ("", 12, none) ∧
    GetTemplateNameAndOrdinal "my-cluster-mysql" "my-cluster-mysql-hot-x1" =
      ("", 0, some (.msg "failed to obtain pod ordinal")) :=
  ⟨⟨by decide, by decide, by decide, by decide, by decide⟩,
   (GetTemplateNameAndOrdinal_inverts "my-cluster-mysql" "hot" 12 (by decide) (by decide)
      (by decide)).1,
   (GetTemplateNameAndOrdinal_inverts "my-cluster-mysql" "hot" 12 (by decide) (by decide)
      (by decide)).2.1,
   (GetTemplateNameAndOrdinal_inverts "my-cluster-mysql" "hot" 12 (by decide) (by decide)
      (by decide)).2.2.1 "my-cluster-mysql-hot-x1" (by decide)⟩

/-! ## The diff of the plan against the cache -/

theorem NameMap.lookup_set_same (m : NameMap) (k : String) (v : Nat) :
    (m.set k v).lookup k = some v := by
  induction m with
  | nil => simp [NameMap.set, NameMap.lookup]
  | cons p rest ih =>
    obtain ⟨k', v'⟩ := p
    by_cases h : k' = k
    · simp [NameMap.set, NameMap.lookup, h]
    · simp [NameMap.set, NameMap.lookup, h, ih]

theorem NameMap.lookup_set_other (m : NameMap) (k k2 : String) (v : Nat) (hne : k2 ≠ k) :
    (m.set k v).lookup k2 = m.lookup k2 := by
  induction m with
  | nil => simp [NameMap.set, NameMap.lookup, Ne.symm hne]
  | cons p rest ih =>
    obtain ⟨k', v'⟩ := p
    by_cases h : k' = k
    · subst h
      simp [NameMap.set, NameMap.lookup, Ne.symm hne]
    · by_cases h2 : k' = k2
      · subst h2
        simp [NameMap.set, NameMap.lookup, h]
      · simp [NameMap.set, NameMap.lookup, h, h2, ih]

theorem NameMap.mem_keys_set (m : NameMap) (k : String) (v : Nat) (n : String) :
    n ∈ (m.set k v).keys ↔ n = k ∨ n ∈ m.keys := by
  induction m with
  | nil => simp [NameMap.set, NameMap.keys]
  | cons p rest ih =>
    obtain ⟨k', v'⟩ := p
    by_cases h : k' = k
    · subst h
      simp [NameMap.set, NameMap.keys]
    · simp only [NameMap.keys] at ih
      simp only [NameMap.set, NameMap.keys, if_neg h, List.map_cons, List.mem_cons, ih]
      tauto

theorem recordVertices_lookup_absent (name : String) : ∀ (vs : List lifecycleVertex) (k : Nat)
    (m : NameMap), name ∉ vs.map (fun v => v.obj) →
    (recordVertices vs k m).lookup name = m.lookup name := by
  intro vs
  induction vs with
  | nil => intro k m _; rfl
  | cons x rest ih =>
    intro k m h
    simp only [List.map_cons, List.mem_cons, not_or] at h
    rw [recordVertices, ih _ _ h.2, NameMap.lookup_set_other _ _ _ _ h.1]

theorem recordVertices_lookup_nodup : ∀ (vs : List lifecycleVertex) (k : Nat) (m : NameMap),
    (vs.map fun v => v.obj).Nodup → ∀ (i : Nat) (v : lifecycleVertex), vs[i]? = some v →
    (recordVertices vs k m).lookup v.obj = some (k + i) := by
  intro vs
  induction vs with
  | nil => intro k m _ i v h; simp at h
  | cons x rest ih =>
    intro k m hnd i v h
    simp only [List.map_cons, List.nodup_cons] at hnd
    rw [recordVertices]
    cases i with
    | zero =>
      simp only [List.getElem?_cons_zero, Option.some.injEq] at h
      subst h
      rw [recordVertices_lookup_absent _ _ _ _ hnd.1, NameMap.lookup_set_same]
      rfl
    | succ i =>
      simp only [List.getElem?_cons_succ] at h
      rw [ih (k + 1) _ hnd.2 i v h]
      congr 1
      omega

theorem recordVertices_lookup_some : ∀ (vs : List lifecycleVertex) (k : Nat) (m : NameMap)
    (name : String) (j : Nat), (recordVertices vs k m).lookup name = some j →
    m.lookup name = some j ∨
      ∃ (i : Nat) (v : lifecycleVertex), j = k + i ∧ vs[i]? = some v ∧ v.obj = name := by
  intro vs
  induction vs with
  | nil => intro k m name j h; exact Or.inl h
  | cons x rest ih =>
    intro k m name j h
    rw [recordVertices] at h
    rcases ih _ _ _ _ h with h1 | ⟨i, v, hj, hv, hn⟩
    · by_cases hx : name = x.obj
      · subst hx
        rw [NameMap.lookup_set_same] at h1
        simp only [Option.some.injEq] at h1
        exact Or.inr ⟨0, x, by omega, by simp, rfl⟩
      · rw [NameMap.lookup_set_other _ _ _ _ hx] at h1
        exact Or.inl h1
    · exact Or.inr ⟨i + 1, v, by omega, by simpa using hv, hn⟩

theorem recordVertices_keys : ∀ (vs : List lifecycleVertex) (k : Nat) (m : NameMap)
    (n : String), n ∈ (recordVertices vs k m).keys ↔
      n ∈ m.keys ∨ n ∈ vs.map (fun v => v.obj) := by
  intro vs
  induction vs with
  | nil => intro k m n; simp [recordVertices]
  | cons x rest ih =>
    intro k m n
    rw [recordVertices, ih, NameMap.mem_keys_set]
    simp only [List.map_cons, List.mem_cons]
    tauto

theorem setAction_setAction (a : Action) (v : lifecycleVertex) :
    setAction a (setAction a v) = setAction a v := rfl

theorem markAt_getElem? : ∀ (vs : List lifecycleVertex) (i : Nat) (a : Action) (j : Nat),
    (markAt vs i a)[j]? = if j = i then (vs[j]?).map (setAction a) else vs[j]? := by
  intro vs
  induction vs with
  | nil => intro i a j; simp [markAt]
  | cons x rest ih =>
    intro i a j
    cases i with
    | zero =>
      cases j with
      | zero => simp [markAt]
      | succ j => simp [markAt]
    | succ i =>
      cases j with
      | zero => simp [markAt]
      | succ j =>
        simp only [markAt, List.getElem?_cons_succ, ih]
        simp

theorem markAll_getElem? (m : NameMap) (a : Action) (j : Nat) : ∀ (names : List String)
    (vs : List lifecycleVertex),
    (markAll m a names vs)[j]? =
      if (names.any fun n => decide (m.lookup n = some j)) = true
      then (vs[j]?).map (setAction a) else vs[j]? := by
  intro names
  induction names with
  | nil => intro vs; simp [markAll]
  | cons n rest ih =>
    intro vs
    rw [markAll]
    cases hl : m.lookup n with
    | none =>
      simp only [ih, List.any_cons, hl]
      simp
    | some i =>
      simp only [ih, markAt_getElem?, List.any_cons, hl]
      by_cases hji : j = i
      · subst hji
        cases hr : (rest.any fun n => decide (m.lookup n = some j))
        · simp
        · cases vs[j]? <;> simp [setAction_setAction]
      · have hij : ¬ i = j := fun h => hji h.symm
        cases hr : (rest.any fun n => decide (m.lookup n = some j)) <;> simp [hji, hij]

theorem addDeletes_vertices (root : Nat) : ∀ (names : List String) (dag : DAG),
    (addDeletes root names dag).vertices =
      dag.vertices ++ names.map (fun name => lifecycleVertex.mk name (some Action.DELETE)) := by
  intro names
  induction names with
  | nil => intro dag; simp [addDeletes]
  | cons n rest ih =>
    intro dag
    rw [addDeletes, ih]
    simp [DAG.AddVertex, DAG.Connect]

theorem addDeletes_root (root : Nat) : ∀ (names : List String) (dag : DAG),
    (addDeletes root names dag).root = dag.root := by
  intro names
  induction names with
  | nil => intro dag; rfl
  | cons n rest ih =>
    intro dag
    rw [addDeletes, ih]
    rfl

theorem addDeletes_edges (root : Nat) : ∀ (names : List String) (dag : DAG),
    (addDeletes root names dag).edges =
      dag.edges ++ (List.range names.length).map (fun k => (root, dag.vertices.length + k)) := by
  intro names
  induction names with
  | nil => intro dag; simp [addDeletes]
  | cons n rest ih =>
    intro dag
    have e1 : ((dag.AddVertex (lifecycleVertex.mk n (some Action.DELETE))).Connect root
        dag.vertices.length).edges = dag.edges ++ [(root, dag.vertices.length)] := rfl
    have e2 : ((dag.AddVertex (lifecycleVertex.mk n (some Action.DELETE))).Connect root
        dag.vertices.length).vertices.length = dag.vertices.length + 1 := by
      simp [DAG.AddVertex, DAG.Connect]
    rw [addDeletes, ih, e1, e2, List.length_cons, List.range_succ_eq_map, List.map_cons,
      List.map_map, List.append_assoc, List.singleton_append]
    congr 2
    apply List.map_congr_left
    intro k _
    show (root, dag.vertices.length + 1 + k) = (root, dag.vertices.length + (k + 1))
    congr 1
    omega

theorem recordVertices_keys_nil (vs : List lifecycleVertex) (n : String) :
    n ∈ (recordVertices vs 0 []).keys ↔ n ∈ vs.map (fun v => v.obj) := by
  rw [recordVertices_keys]
  simp [NameMap.keys]

theorem setDifference_congr (a b c : List String) (h : ∀ n, n ∈ b ↔ n ∈ c) :
    setDifference a b = setDifference a c := by
  unfold setDifference
  apply List.filter_congr
  intro n _
  simp [h n]

theorem Transform_vertex (old : List String) (vs : List lifecycleVertex)
    (extra : List lifecycleVertex)
    (hnames : (vs.map fun v => v.obj).Nodup) (j : Nat) :
    (markAll (recordVertices vs 0 []) Action.UPDATE
        (setIntersection (recordVertices vs 0 []).keys old.dedup)
        (markAll (recordVertices vs 0 []) Action.CREATE
          (setDifference (recordVertices vs 0 []).keys old.dedup) (vs ++ extra)))[j]? =
      (vs.map (fun v =>
          lifecycleVertex.mk v.obj
            (some (if v.obj ∈ old then Action.UPDATE else Action.CREATE))) ++ extra)[j]? := by
  rw [markAll_getElem?, markAll_getElem?]
  by_cases hj : j < vs.length
  · have hv : vs[j]? = some vs[j] := List.getElem?_eq_getElem hj
    have hlook : (recordVertices vs 0 []).lookup vs[j].obj = some j := by
      have := recordVertices_lookup_nodup vs 0 [] hnames j vs[j] hv
      simpa using this
    have huniq : ∀ n, (recordVertices vs 0 []).lookup n = some j → n = vs[j].obj := by
      intro n hn
      rcases recordVertices_lookup_some vs 0 [] n j hn with h | ⟨i, v, hi, hvi, hobj⟩
      · simp [NameMap.lookup] at h
      · have : i = j := by omega
        subst this
        rw [hv] at hvi
        simp only [Option.some.injEq] at hvi
        rw [← hobj, ← hvi]
    have hkey : vs[j].obj ∈ (recordVertices vs 0 []).keys := by
      rw [recordVertices_keys_nil]
      exact List.mem_map_of_mem _ (List.getElem_mem _)
    have hl : (vs ++ extra)[j]? = some vs[j] := by
      rw [List.getElem?_append_left hj, hv]
    have hr : (vs.map (fun v =>
          lifecycleVertex.mk v.obj
            (some (if v.obj ∈ old then Action.UPDATE else Action.CREATE))) ++ extra)[j]? =
        some (lifecycleVertex.mk vs[j].obj
            (some (if vs[j].obj ∈ old then Action.UPDATE else Action.CREATE))) := by
      rw [List.getElem?_append_left (by simpa using hj), List.getElem?_map, hv]
      rfl
    rw [hl, hr]
    by_cases hold : vs[j].obj ∈ old
    · have hC : (List.any (setDifference (recordVertices vs 0 []).keys old.dedup)
          fun n => decide ((recordVertices vs 0 []).lookup n = some j)) = false := by
        rw [Bool.eq_false_iff]
        intro h
        rw [List.any_eq_true] at h
        obtain ⟨n, hn, hd⟩ := h
        have hn2 := huniq n (of_decide_eq_true hd)
        subst hn2
        unfold setDifference at hn
        rw [List.mem_filter] at hn
        have := of_decide_eq_true hn.2
        exact this (List.mem_dedup.2 hold)
      have hU : (List.any (setIntersection (recordVertices vs 0 []).keys old.dedup)
          fun n => decide ((recordVertices vs 0 []).lookup n = some j)) = true := by
        rw [List.any_eq_true]
        refine ⟨vs[j].obj, ?_, decide_eq_true hlook⟩
        unfold setIntersection
        rw [List.mem_filter]
        exact ⟨hkey, decide_eq_true (List.mem_dedup.2 hold)⟩
      simp only [hC, hU, if_true, Bool.false_eq_true, if_false, Option.map_some', if_pos hold]
      rfl
    · have hC : (List.any (setDifference (recordVertices vs 0 []).keys old.dedup)
          fun n => decide ((recordVertices vs 0 []).lookup n = some j)) = true := by
        rw [List.any_eq_true]
        refine ⟨vs[j].obj, ?_, decide_eq_true hlook⟩
        unfold setDifference
        rw [List.mem_filter]
        exact ⟨hkey, decide_eq_true (fun h => hold (List.mem_dedup.1 h))⟩
      have hU : (List.any (setIntersection (recordVertices vs 0 []).keys old.dedup)
          fun n => decide ((recordVertices vs 0 []).lookup n = some j)) = false := by
        rw [Bool.eq_false_iff]
        intro h
        rw [List.any_eq_true] at h
        obtain ⟨n, hn, hd⟩ := h
        have hn2 := huniq n (of_decide_eq_true hd)
        subst hn2
        unfold setIntersection at hn
        rw [List.mem_filter] at hn
        have := of_decide_eq_true hn.2
        exact hold (List.mem_dedup.1 this)
      simp only [hC, hU, if_true, Bool.false_eq_true, if_false, Option.map_some', if_neg hold]
      rfl
  · have hnone : ∀ n, (recordVertices vs 0 []).lookup n ≠ some j := by
      intro n hn
      rcases recordVertices_lookup_some vs 0 [] n j hn with h | ⟨i, v, hi, hvi, -⟩
      · simp [NameMap.lookup] at h
      · have hlt : i < vs.length := by
          rcases List.getElem?_eq_some.1 hvi with ⟨h, -⟩
          exact h
        omega
    have hany : ∀ names : List String,
        (List.any names fun n => decide ((recordVertices vs 0 []).lookup n = some j)) = false := by
      intro names
      rw [Bool.eq_false_iff]
      intro h
      rw [List.any_eq_true] at h
      obtain ⟨n, -, hd⟩ := h
      exact hnone n (of_decide_eq_true hd)
    simp only [hany, Bool.false_eq_true, if_false]
    rw [List.getElem?_append_right (by omega), List.getElem?_append_right (by simp; omega)]
    simp

/-- C26 fails on the code when two vertices of the plan carry the same
object name: the name map keeps one vertex per name, so with an empty cache
only the vertex stored last under the name of the secret gets the action
`CREATE`, and the other vertex of that name is left without an action. -/
theorem same_name_vertex_left_unmarked_example :
    twinPlan.root = some 0 ∧
    recordVertices twinPlan.vertices 0 [] =
      [("Cluster/default/c", 0), ("Secret/default/c-conn", 2)] ∧
    (Transform false (.ok []) twinPlan).2 = none ∧
    (Transform false (.ok []) twinPlan).1.vertices =
      [lifecycleVertex.mk "Cluster/default/c" (some Action.CREATE),
       lifecycleVertex.mk "Secret/default/c-conn" none,
       lifecycleVertex.mk "Secret/default/c-conn" (some Action.CREATE)] := by
  decide

/-- C26, amended: for a cluster that is not being deleted, a readable cache
and a plan with a root whose vertices carry pairwise distinct object names,
`Transform` returns nil and leaves a plan in which every vertex of the input
has the action `UPDATE` when its name is in the cache and `CREATE` when it is
not (so none is left without an action), followed by exactly one new vertex
with the action `DELETE` for each cached name that no input vertex carries,
each connected to the root by a new edge; the deleted names are disjoint from
the names of the input vertices, and the old edges and the root are kept. -/
theorem Transform_marks_every_vertex (old : List String) (dag : DAG) (root : Nat)
    (hroot : dag.root = some root)
    (hnames : (dag.vertices.map fun v => v.obj).Nodup) :
    (Transform false (.ok old) dag).2 = none ∧
    (Transform false (.ok old) dag).1.vertices =
      dag.vertices.map (fun v =>
        lifecycleVertex.mk v.obj
          (some (if v.obj ∈ old then Action.UPDATE else Action.CREATE))) ++
      (setDifference old.dedup (dag.vertices.map fun v => v.obj)).map
        (fun name => lifecycleVertex.mk name (some Action.DELETE)) ∧
    (Transform false (.ok old) dag).1.edges =
      dag.edges ++
      (List.range (setDifference old.dedup (dag.vertices.map fun v => v.obj)).length).map
        (fun k => (root, dag.vertices.length + k)) ∧
    (Transform false (.ok old) dag).1.root = dag.root ∧
    (setDifference old.dedup (dag.vertices.map fun v => v.obj)).Nodup ∧
    (∀ name, name ∈ setDifference old.dedup (dag.vertices.map fun v => v.obj) ↔
      name ∈ old ∧ name ∉ dag.vertices.map fun v => v.obj) ∧
    (∀ v ∈ (Transform false (.ok old) dag).1.vertices.take dag.vertices.length,
      (v.obj ∈ old ∧ v.action = some Action.UPDATE) ∨
      (v.obj ∉ old ∧ v.action = some Action.CREATE)) := by
  have hdel : setDifference old.dedup (recordVertices dag.vertices 0 []).keys =
      setDifference old.dedup (dag.vertices.map fun v => v.obj) :=
    setDifference_congr _ _ _ (recordVertices_keys_nil dag.vertices)
  have hrun : Transform false (.ok old) dag =
      (DAG.mk
        (markAll (recordVertices dag.vertices 0 []) Action.UPDATE
          (setIntersection (recordVertices dag.vertices 0 []).keys old.dedup)
          (markAll (recordVertices dag.vertices 0 []) Action.CREATE
            (setDifference (recordVertices dag.vertices 0 []).keys old.dedup)
            (addDeletes root (setDifference old.dedup (dag.vertices.map fun v => v.obj))
              dag).vertices))
        (addDeletes root (setDifference old.dedup (dag.vertices.map fun v => v.obj)) dag).edges
        (addDeletes root (setDifference old.dedup (dag.vertices.map fun v => v.obj)) dag).root,
       none) := by
    unfold Transform
    simp only [hroot, hdel, Bool.false_eq_true, if_false]
  have hvs : (Transform false (.ok old) dag).1.vertices =
      dag.vertices.map (fun v =>
        lifecycleVertex.mk v.obj
          (some (if v.obj ∈ old then Action.UPDATE else Action.CREATE))) ++
      (setDifference old.dedup (dag.vertices.map fun v => v.obj)).map
        (fun name => lifecycleVertex.mk name (some Action.DELETE)) := by
    rw [hrun]
    simp only [addDeletes_vertices]
    apply List.ext_getElem?
    intro j
    exact Transform_vertex old dag.vertices _ hnames j
  refine ⟨?_, hvs, ?_, ?_, ?_, ?_, ?_⟩
  · rw [hrun]
  · rw [hrun]
    simp only [addDeletes_edges]
  · rw [hrun]
    simp only [addDeletes_root]
  · unfold setDifference
    exact List.Nodup.filter _ (List.nodup_dedup old)
  · intro name
    unfold setDifference
    rw [List.mem_filter, List.mem_dedup]
    simp
  · intro v hv
    rw [hvs, List.take_left' (by simp)] at hv
    rw [List.mem_map] at hv
    obtain ⟨u, -, hu⟩ := hv
    subst hu
    by_cases h : u.obj ∈ old
    · exact Or.inl ⟨h, by simp [h]⟩
    · exact Or.inr ⟨h, by simp [h]⟩

theorem Transform_marks_every_vertex_witness :
    (samplePlan.root = some 0 ∧ (samplePlan.vertices.map fun v => v.obj).Nodup) ∧
    (Transform false (.ok sampleCache) samplePlan).1.vertices =
      [lifecycleVertex.mk "Cluster/default/c" (some Action.CREATE),
       lifecycleVertex.mk "StatefulSet/default/c-mysql" (some Action.UPDATE),
       lifecycleVertex.mk "Service/default/c-mysql" (some Action.CREATE),
       lifecycleVertex.mk "ConfigMap/default/c-mysql-env" (some Action.DELETE)] ∧
    (Transform false (.ok sampleCache) samplePlan).1.edges = [(0, 1), (0, 2), (0, 3)] ∧
    ((Transform false (.ok sampleCache) samplePlan).2 = none ∧
    (Transform false (.ok sampleCache) samplePlan).1.vertices =
      samplePlan.vertices.map (fun v =>
        lifecycleVertex.mk v.obj
          (some (if v.obj ∈ sampleCache then Action.UPDATE else Action.CREATE))) ++
      (setDifference sampleCache.dedup (samplePlan.vertices.map fun v => v.obj)).map
        (fun name => lifecycleVertex.mk name (some Action.DELETE))) :=
  ⟨⟨rfl, by decide⟩, by decide, by decide,
   (Transform_marks_every_vertex sampleCache samplePlan 0 rfl (by decide)).1,
   (Transform_marks_every_vertex sampleCache samplePlan 0 rfl (by decide)).2.1⟩

end KubeBlocks
